import Mathlib

/-!
# Nystagmus compensation: the parallel prediction pipeline

A shallow embedding of `src/Pip/parallel_nystagmus_pipline.h`
(`ParallelNystagmusPipeline` and its nested classes) together with theorems
about it.

Modelling conventions.

* `float` / `double` quantities are exact rationals (`ℚ`): rounding is not
  part of the embedding. The measurement handed to `updateFilter`, the value
  it returns and the standard deviation returned by `predictWithUncertainty`
  are `FloatVal`s, because the source tests them with `std::isnan` /
  `std::isinf`, resp. takes `std::sqrt` of a number that may be negative.
* `std::deque<T>` is a `List`, `push_back x` is `l ++ [x]`, `pop_front` is
  `List.tail`; `std::map<int, T>` is an association list kept strictly
  sorted by key.
* libm (`sqrt`, `sin`, `cos`, `exp`) and the Eigen decompositions (`LLT`,
  `JacobiSVD`, `SelfAdjointEigenSolver`) are external libraries: they are
  parameters of the embedding, bundled in `Numerics`.
* Eigen reports failure through `info()` and does not throw; the
  `catch (...)` handlers of the source are therefore never entered in the
  embedding. `handleException` is still transcribed.
* Division is the field division of `ℚ` (`x / 0 = 0`), where IEEE would give
  an infinity or a NaN.
-/

namespace Nystagmus

/-! ## Numeric base -/

/-- A floating-point value as `std::isnan` and `std::isinf` classify it. -/
inductive FloatVal where
  | finite (q : ℚ)
  | nan
  | posInf
  | negInf
deriving DecidableEq

namespace FloatVal

/-- The value is neither a NaN nor an infinity. -/
def isFinite : FloatVal → Bool
  | finite _ => true
  | _ => false

/-- The rational a finite value stands for (0 otherwise). -/
def toRat : FloatVal → ℚ
  | finite q => q
  | _ => 0

/-- The test `std::isnan(v)`. -/
def isNan : FloatVal → Bool
  | nan => true
  | _ => false

/-- The test `std::isinf(v)`. -/
def isInf : FloatVal → Bool
  | posInf => true
  | negInf => true
  | _ => false

/-- The comparison `0 <= v` of IEEE arithmetic: false on a NaN. -/
def nonneg : FloatVal → Prop
  | finite q => 0 ≤ q
  | posInf => True
  | _ => False

/-- The comparison `a <= b` of IEEE arithmetic: false when either side is a NaN. -/
def le : FloatVal → FloatVal → Prop
  | finite a, finite b => a ≤ b
  | negInf, finite _ => True
  | negInf, negInf => True
  | negInf, posInf => True
  | finite _, posInf => True
  | posInf, posInf => True
  | _, _ => False

end FloatVal

abbrev Vec4 := Fin 4 → ℚ

abbrev Mat4 := Matrix (Fin 4) (Fin 4) ℚ

/-- The nine sigma points, one state vector per column. -/
abbrev SigmaPoints := Fin 9 → Vec4

/-- The external numerical routines the source calls. -/
structure Numerics where
  /-- libm `std::sqrt`, used on non-negative arguments. -/
  sqrt : ℚ → ℚ
  /-- libm `std::sin`. -/
  sin : ℚ → ℚ
  /-- libm `std::cos`. -/
  cos : ℚ → ℚ
  /-- libm `std::exp`. -/
  exp : ℚ → ℚ
  /-- The factor `matrixL()` of `Eigen::LLT` when `info() == Eigen::Success`. -/
  lltMatrixL : Mat4 → Option Mat4
  /-- The vector `singularValues()` of `Eigen::JacobiSVD`. -/
  svdSingularValues : Mat4 → Vec4
  /-- The matrix `matrixU()` of `Eigen::JacobiSVD`. -/
  svdMatrixU : Mat4 → Mat4
  /-- The vector `eigenvalues()` of `Eigen::SelfAdjointEigenSolver`. -/
  eigenvalues : Mat4 → Vec4
  /-- The matrix `eigenvectors()` of `Eigen::SelfAdjointEigenSolver`. -/
  eigenvectors : Mat4 → Mat4

/-- The constant `M_PI`: the `double` nearest to pi. -/
def M_PI : ℚ := 884279719003555 / 281474976710656

/-- The function `std::fmod(x, y)`: `x` minus `y` times the quotient truncated toward zero. -/
def fmod (x y : ℚ) : ℚ :=
  let q := x / y
  x - y * (if 0 ≤ q then (⌊q⌋ : ℚ) else (⌈q⌉ : ℚ))

/-- The idiom `std::max(lo, std::min(hi, x))`. -/
def clamp (lo hi x : ℚ) : ℚ := max lo (min hi x)

/-- The call `std::sqrt(x)` where `x` may be negative: a NaN then. -/
def sqrtVal (N : Numerics) (x : ℚ) : FloatVal :=
  if x < 0 then FloatVal.nan else FloatVal.finite (N.sqrt x)

/-- Pop the front of three deques while the first holds more than `cap` elements. -/
def trimFront {α : Type} (cap : ℕ) (ref : List α) (l : List α) : List α :=
  l.drop (ref.length - cap)

/-- The call `std::accumulate(begin, end, 0.0)`. -/
def accumulate (l : List ℚ) : ℚ := l.foldl (· + ·) 0

/-- The call `*std::max_element(begin, end)` (0 on an empty range). -/
def maxElement (l : List ℚ) : ℚ :=
  match l with
  | [] => 0
  | x :: xs => xs.foldl max x

/-- The call `*std::min_element(begin, end)` (0 on an empty range). -/
def minElement (l : List ℚ) : ℚ :=
  match l with
  | [] => 0
  | x :: xs => xs.foldl min x

/-- The number of binary digits of `n`, computed with at most `fuel` halvings. -/
def bitLength : ℕ → ℕ → ℕ
  | 0, _ => 0
  | fuel + 1, n => if n = 0 then 0 else bitLength fuel (n / 2) + 1

/-- The binary exponent `floor(log2 |x|)` of a non-zero rational `x`. -/
def log2Floor (x : ℚ) : ℤ :=
  let d : ℤ := (bitLength x.num.natAbs x.num.natAbs : ℤ) - (bitLength x.den x.den : ℤ)
  if (2 : ℚ) ^ d ≤ |x| then d else d - 1

/-- Rounding to the nearest integer, ties to the even one. -/
def roundHalfEven (q : ℚ) : ℤ :=
  if q - ⌊q⌋ < 1 / 2 then ⌊q⌋
  else if 1 / 2 < q - ⌊q⌋ then ⌊q⌋ + 1
  else if ⌊q⌋ % 2 = 0 then ⌊q⌋ else ⌊q⌋ + 1

/-- The spacing of the binary32 values around `x`: `2^(e - 23)` with `e` the binary
exponent of `x`, not below the exponent -126 of the subnormal range. -/
def binary32Ulp (x : ℚ) : ℚ := (2 : ℚ) ^ (max (log2Floor x) (-126) - 23)

/-- The `float` nearest to `x` (IEEE 754 binary32, round to nearest, ties to even), for
results inside the binary32 range: an overflow to infinity is not modelled. -/
def roundBinary32 (x : ℚ) : ℚ := (roundHalfEven (x / binary32Ulp x) : ℚ) * binary32Ulp x

/-! ## Multi-scale peak detector -/

structure MultiScalePeakDetector where
  positions : List ℚ := []
  velocities : List ℚ := []
  accelerations : List ℚ := []
  isPeak : Bool := false
  isApproachingPeak : Bool := false
  peakConfidence : ℚ := 0
  peakType : ℤ := 0

namespace MultiScalePeakDetector

def WINDOW_SIZE : ℕ := 15

/-- Source lines 137-155. -/
def detectPeakAtScale (d : MultiScalePeakDetector) (scale : ℕ) : Bool :=
  if d.positions.length < scale then false
  else
    let n := d.positions.length
    let mid := n - scale / 2 - 1
    let centerVal := d.positions.getD mid 0
    let others := (List.range scale).filter (fun i => i ≠ scale / 2)
    let isLocalMax := others.all (fun i => !(decide (d.positions.getD (n - scale + i) 0 ≥ centerVal)))
    let isLocalMin := others.all (fun i => !(decide (d.positions.getD (n - scale + i) 0 ≤ centerVal)))
    isLocalMax || isLocalMin

/-- The test `velocityZeroCross` of `detectPeak` (source lines 101-108). -/
def velocityZeroCross (d : MultiScalePeakDetector) : Bool :=
  if 3 ≤ d.velocities.length then
    let n := d.velocities.length
    let v1 := d.velocities.getD (n - 3) 0
    let v2 := d.velocities.getD (n - 2) 0
    let v3 := d.velocities.getD (n - 1) 0
    decide (v1 * v3 < 0) || (decide (|v2| < 5) && decide (|v3| < 10))
  else false

/-- The test that sets `isApproachingPeak` in `detectPeak` (source lines 110-113). -/
def approachingPeak (d : MultiScalePeakDetector) : Bool :=
  if 3 ≤ d.velocities.length then
    let n := d.velocities.length
    let v2 := d.velocities.getD (n - 2) 0
    let v3 := d.velocities.getD (n - 1) 0
    decide (|v3| < |v2|) && decide (|v3| < 20) && decide (|d.accelerations.getLastD 0| > 150)
  else false

/-- The sum `peakVotes` of `detectPeak` (source line 117). -/
def peakVotes (d : MultiScalePeakDetector) : ℕ :=
  (if d.detectPeakAtScale 3 then 1 else 0) + (if d.detectPeakAtScale 5 then 1 else 0)
    + (if d.detectPeakAtScale 7 then 1 else 0) + (if d.velocityZeroCross then 2 else 0)

/-- Source lines 88-135. -/
def detectPeak (d : MultiScalePeakDetector) : MultiScalePeakDetector :=
  if d.positions.length < 7 then d
  else
    let votes := d.peakVotes
    let d1 : MultiScalePeakDetector :=
      { d with isPeak := false, isApproachingPeak := d.approachingPeak, peakConfidence := 0 }
    if 2 ≤ votes then
      let n := d.positions.length
      let avgBefore := (d.positions.getD (n - 4) 0 + d.positions.getD (n - 3) 0) / 2
      let current := d.positions.getD (n - 2) 0
      let avgAfter := d.positions.getD (n - 1) 0 / 1
      let ty : ℤ :=
        if current > avgBefore ∧ current > avgAfter then 1
        else if current < avgBefore ∧ current < avgAfter then -1
        else d.peakType
      { d1 with isPeak := true, peakConfidence := (votes : ℚ) / 5, peakType := ty }
    else d1

/-- Source lines 74-86. -/
def update (d : MultiScalePeakDetector) (pos vel acc : ℚ) : MultiScalePeakDetector :=
  let p := d.positions ++ [pos]
  let v := d.velocities ++ [vel]
  let a := d.accelerations ++ [acc]
  detectPeak { d with
    positions := trimFront WINDOW_SIZE p p
    velocities := trimFront WINDOW_SIZE p v
    accelerations := trimFront WINDOW_SIZE p a }

/-- Source lines 157-165. -/
def reset (_d : MultiScalePeakDetector) : MultiScalePeakDetector := {}

end MultiScalePeakDetector

/-! ## Nystagmus detector -/

structure EnhancedNystagmusDetector where
  isNystagmus : Bool := false
  frequency : ℚ := 0
  amplitude : ℚ := 0
  phase : ℚ := 0
  directionChanges : ℤ := 0
  lastDirection : ℚ := 0
  velocities : List ℚ := []
  positions : List ℚ := []
  timestamps : List ℚ := []
  estimatedPeriod : ℚ := 0
  periodConfidence : ℚ := 0
  lastPeakTime : ℚ := 0
  peakIntervals : List ℚ := []

namespace EnhancedNystagmusDetector

def WINDOW_SIZE : ℕ := 30

/-- The direction-reversal block of `update` (source lines 201-230). -/
def updateDirection (N : Numerics) (d : EnhancedNystagmusDetector) (velocity timestamp : ℚ) :
    EnhancedNystagmusDetector :=
  let currentDir : ℚ := if velocity > 0 then 1 else -1
  let d1 : EnhancedNystagmusDetector :=
    if |d.lastDirection - currentDir| > 3 / 2 ∧ |velocity| > 15 then
      let d2 : EnhancedNystagmusDetector := { d with directionChanges := d.directionChanges + 1 }
      let d3 : EnhancedNystagmusDetector :=
        if d2.lastPeakTime > 0 then
          let interval := timestamp - d2.lastPeakTime
          let pushed := d2.peakIntervals ++ [interval]
          let intervals := if pushed.length > 10 then pushed.tail else pushed
          let d4 : EnhancedNystagmusDetector := { d2 with peakIntervals := intervals }
          if 3 ≤ intervals.length then
            let period : ℚ := accumulate intervals / intervals.length
            let variance : ℚ :=
              (intervals.foldl (fun (acc i : ℚ) => acc + (i - period) * (i - period)) 0)
                / intervals.length
            { d4 with
              estimatedPeriod := period
              periodConfidence := 1 / (1 + N.sqrt variance / period) }
          else d4
        else d2
      { d3 with lastPeakTime := timestamp }
    else d
  { d1 with lastDirection := currentDir }

/-- The frequency and amplitude block of `update` (source lines 232-257). -/
def updateFrequency (d : EnhancedNystagmusDetector) : EnhancedNystagmusDetector :=
  if 15 ≤ d.timestamps.length then
    let timeSpan := d.timestamps.getLastD 0 - d.timestamps.headD 0
    let frequency := (d.directionChanges : ℚ) / (2 * timeSpan)
    let maxPos := maxElement d.positions
    let minPos := minElement d.positions
    let amplitude := (maxPos - minPos) / 2
    let mean : ℚ := (d.velocities.foldl (fun (acc v : ℚ) => acc + |v|) 0) / d.velocities.length
    let variance : ℚ :=
      (d.velocities.foldl (fun (acc v : ℚ) => acc + (|v| - mean) * (|v| - mean)) 0)
        / d.velocities.length
    { d with
      frequency := frequency
      amplitude := amplitude
      isNystagmus :=
        decide (frequency > 1 / 2) && decide (frequency < 6) && decide (variance > 100)
          && decide (amplitude > 20) }
  else d

/-- Source lines 188-258. -/
def update (N : Numerics) (d : EnhancedNystagmusDetector) (position velocity timestamp : ℚ) :
    EnhancedNystagmusDetector :=
  let p := d.positions ++ [position]
  let v := d.velocities ++ [velocity]
  let t := d.timestamps ++ [timestamp]
  let d1 : EnhancedNystagmusDetector := { d with
    positions := trimFront WINDOW_SIZE p p
    velocities := trimFront WINDOW_SIZE p v
    timestamps := trimFront WINDOW_SIZE p t }
  if d1.velocities.length < 10 then d1
  else updateFrequency (updateDirection N d1 velocity timestamp)

/-- Source lines 260-265. -/
def predictNextPeakTime (d : EnhancedNystagmusDetector) (_currentTime : ℚ) : ℚ :=
  if d.periodConfidence > 7 / 10 ∧ d.estimatedPeriod > 0 then d.lastPeakTime + d.estimatedPeriod
  else -1

/-- Source lines 267-281. -/
def reset (_d : EnhancedNystagmusDetector) : EnhancedNystagmusDetector := {}

end EnhancedNystagmusDetector

/-! ## Motion pattern recognizer -/

inductive MotionType where
  | STABLE
  | SMOOTH_PURSUIT
  | SACCADE
  | NYSTAGMUS
  | TRANSITION
deriving DecidableEq

structure MotionPatternRecognizer where
  currentType : MotionType := MotionType.STABLE
  confidence : ℚ := 0
  velocityWindow : List ℚ := []
  accelerationWindow : List ℚ := []

namespace MotionPatternRecognizer

def WINDOW_SIZE : ℕ := 10

/-- Source lines 300-336: the recognizer after the call and the returned type. -/
def detectPattern (r : MotionPatternRecognizer) (velocity acceleration : ℚ) :
    MotionPatternRecognizer × MotionType :=
  let v := r.velocityWindow ++ [velocity]
  let a := r.accelerationWindow ++ [acceleration]
  let r1 : MotionPatternRecognizer := { r with
    velocityWindow := trimFront WINDOW_SIZE v v
    accelerationWindow := trimFront WINDOW_SIZE v a }
  if r1.velocityWindow.length < 5 then (r1, MotionType.STABLE)
  else
    let avgVel := accumulate r1.velocityWindow / r1.velocityWindow.length
    let maxVel := maxElement r1.velocityWindow
    let minVel := minElement r1.velocityWindow
    let velRange := maxVel - minVel
    let maxAcc := maxElement r1.accelerationWindow
    let r2 : MotionPatternRecognizer :=
      if |avgVel| < 10 ∧ velRange < 20 then
        { r1 with currentType := MotionType.STABLE, confidence := 1 - velRange / 20 }
      else if |avgVel| < 50 ∧ velRange < 40 then
        { r1 with currentType := MotionType.SMOOTH_PURSUIT, confidence := 1 - velRange / 40 }
      else if |maxAcc| > 500 ∧ |maxVel| > 100 then
        { r1 with currentType := MotionType.SACCADE, confidence := min 1 (|maxAcc| / 1000) }
      else
        { r1 with currentType := MotionType.TRANSITION, confidence := 1 / 2 }
    (r2, r2.currentType)

/-- Source lines 338-343. -/
def reset (_r : MotionPatternRecognizer) : MotionPatternRecognizer := {}

end MotionPatternRecognizer

/-! ## The unscented Kalman filter on the x axis -/

/-- The data members of the class. The members `beta`, `kappa` and `dt` are
initialised in the class body and never assigned: they are the constants
`EnhancedXAxisUKF.beta`, `EnhancedXAxisUKF.kappa` and `EnhancedXAxisUKF.dt`. -/
structure EnhancedXAxisUKF where
  alpha : ℚ
  state : Vec4
  P : Mat4
  Q : Mat4
  /-- The 1x1 measurement-noise matrix. -/
  R : ℚ
  Wm : Fin 9 → ℚ
  Wc : Fin 9 → ℚ
  lambda : ℚ
  initialized : Bool
  lastX : ℚ
  velocityHistory : List ℚ
  measurementHistory : List ℚ
  positionHistory : List ℚ
  accelerationHistory : List ℚ
  peakDetector : MultiScalePeakDetector
  nystagmusDetector : EnhancedNystagmusDetector
  motionPattern : MotionPatternRecognizer
  currentTimestamp : ℚ
  isPredictingFuture : Bool

/-- Overwrite the diagonal of a matrix, keeping the other entries. -/
def setDiag (M : Mat4) (d : Vec4) : Mat4 :=
  Matrix.of (fun i j => if i = j then d i else M i j)

namespace EnhancedXAxisUKF

def STATE_DIM : ℚ := 4

def HISTORY_SIZE : ℕ := 20

/-- The member `double beta = 2.0` (source line 40). -/
def beta : ℚ := 2

/-- The member `double kappa = 3 - STATE_DIM` (source line 41). -/
def kappa : ℚ := 3 - STATE_DIM

/-- The sampling interval `double dt = 1.0 / 60.0` (source line 347). -/
def dt : ℚ := 1 / 60

/-- The value `alpha * alpha * (STATE_DIM + kappa) - STATE_DIM` assigned to `lambda`. -/
def lambdaOf (alpha kappa : ℚ) : ℚ := alpha * alpha * (STATE_DIM + kappa) - STATE_DIM

/-- Source lines 382-394. -/
def initializeWeights (u : EnhancedXAxisUKF) : EnhancedXAxisUKF :=
  { u with
    Wm := fun i =>
      if i = 0 then u.lambda / (STATE_DIM + u.lambda) else (1 / 2) / (STATE_DIM + u.lambda)
    Wc := fun i =>
      if i = 0 then u.lambda / (STATE_DIM + u.lambda) + (1 - u.alpha * u.alpha + beta)
      else (1 / 2) / (STATE_DIM + u.lambda) }

/-- The constructor, source lines 356-380, with the member initialisers of lines 39-41, 347-353. -/
def new : EnhancedXAxisUKF :=
  initializeWeights
    { alpha := 1 / 1000
      state := 0
      P := Matrix.diagonal ![25, 100, 400, 1600]
      Q := Matrix.diagonal ![1 / 2, 10, 50, 200]
      R := 8
      Wm := 0
      Wc := 0
      lambda := lambdaOf (1 / 1000) kappa
      initialized := false
      lastX := 0
      velocityHistory := []
      measurementHistory := []
      positionHistory := []
      accelerationHistory := []
      peakDetector := {}
      nystagmusDetector := {}
      motionPattern := {}
      currentTimestamp := 0
      isPredictingFuture := false }

/-- Column `k` of the sigma-point matrix built from the centre `x` and the square root `A`. -/
def sigmaColumn (x : Vec4) (A : Mat4) (k : Fin 9) : Vec4 :=
  if k.val = 0 then x
  else if h : k.val ≤ 4 then fun r => x r + A r ⟨k.val - 1, by omega⟩
  else fun r => x r - A r ⟨k.val - 5, by omega⟩

/-- Source lines 397-453. -/
def generateSigmaPoints (N : Numerics) (u : EnhancedXAxisUKF) (x : Vec4) (P_in : Mat4) :
    SigmaPoints :=
  let n : ℚ := 4
  let regularization : ℚ := 1 / 1000000000
  let P_stable : Mat4 := (1 / 2 : ℚ) • (P_in + P_in.transpose) + regularization • (1 : Mat4)
  let A : Mat4 :=
    match N.lltMatrixL ((n + u.lambda) • P_stable) with
    | some L => L
    | none =>
      let s : Vec4 := fun i => max (1 / 1000000000) (N.svdSingularValues P_stable i)
      N.sqrt (n + u.lambda) • (N.svdMatrixU P_stable * Matrix.diagonal (fun i => N.sqrt (s i)))
  sigmaColumn x A

/-- The higher-order kinematic model shared by both transitions (source lines 464-467, 556-559). -/
def kinematics (dt : ℚ) (x : Vec4) : Vec4 :=
  ![x 0 + x 1 * dt + (1 / 2) * x 2 * dt * dt + (1 / 6) * x 3 * dt * dt * dt,
    x 1 + x 2 * dt + (1 / 2) * x 3 * dt * dt,
    x 2 + x 3 * dt,
    x 3]

/-- The physical constraints closing both transitions (source lines 544-546, 614-616). -/
def constrainDerivatives (x : Vec4) : Vec4 :=
  ![x 0, clamp (-300) 300 (x 1), clamp (-800) 800 (x 2), clamp (-2000) 2000 (x 3)]

/-- Source lines 552-619. -/
def stateTransitionForPrediction (N : Numerics) (u : EnhancedXAxisUKF) (x : Vec4) : Vec4 :=
  let k := kinematics dt x
  let nd := u.nystagmusDetector
  let periodic : Bool :=
    decide (u.motionPattern.currentType = MotionType.NYSTAGMUS) && nd.isNystagmus
      && decide (nd.periodConfidence > 7 / 10)
  let futureTime := u.currentTimestamp + dt
  let phase := fmod (futureTime - nd.lastPeakTime) nd.estimatedPeriod
  let phaseRate := phase / nd.estimatedPeriod
  let sinComponent := N.sin (2 * M_PI * phaseRate)
  let x0 := if periodic then k 0 + nd.amplitude * sinComponent * (1 / 10) else k 0
  let x1 := if periodic then k 1 + nd.amplitude * N.cos (2 * M_PI * phaseRate) * (1 / 2) else k 1
  let decay : ℚ × ℚ × ℚ :=
    match u.motionPattern.currentType with
    | MotionType.STABLE => (90 / 100, 85 / 100, 80 / 100)
    | MotionType.SMOOTH_PURSUIT => (95 / 100, 92 / 100, 88 / 100)
    | MotionType.SACCADE => (85 / 100, 70 / 100, 60 / 100)
    | MotionType.NYSTAGMUS => (95 / 100, 92 / 100, 90 / 100)
    | MotionType.TRANSITION => (98 / 100, 95 / 100, 90 / 100)
  constrainDerivatives ![x0, x1 * decay.1, k 2 * decay.2.1, k 3 * decay.2.2]

/-- The filtering branch of `stateTransition` (source lines 461-548). -/
def stateTransitionForFiltering (N : Numerics) (u : EnhancedXAxisUKF) (x : Vec4) : Vec4 :=
  let k := kinematics dt x
  let pd := u.peakDetector
  let nd := u.nystagmusDetector
  let decay0 : ℚ × ℚ × ℚ :=
    match u.motionPattern.currentType with
    | MotionType.STABLE => (85 / 100, 80 / 100, 75 / 100)
    | MotionType.SMOOTH_PURSUIT => (92 / 100, 88 / 100, 85 / 100)
    | MotionType.SACCADE => (98 / 100, 95 / 100, 92 / 100)
    | MotionType.NYSTAGMUS => (93 / 100, 90 / 100, 87 / 100)
    | MotionType.TRANSITION => (95 / 100, 90 / 100, 85 / 100)
  let decay : ℚ × ℚ × ℚ :=
    if pd.isPeak then (99 / 100, 97 / 100, 95 / 100)
    else if pd.isApproachingPeak then (96 / 100, 93 / 100, decay0.2.2)
    else decay0
  let invert : Bool := pd.isPeak && decide (pd.peakType ≠ 0)
  let x2 := if invert then k 2 * (-(1 / 2)) else k 2
  let x3 := if invert then k 3 * (-(8 / 10)) else k 3
  let compensation := pd.peakConfidence * (1 / 10)
  let x0 :=
    if !pd.isPeak && pd.isApproachingPeak then k 0 + x 1 * dt * compensation else k 0
  let nextPeakTime := nd.predictNextPeakTime u.currentTimestamp
  let timeToNextPeak := nextPeakTime - u.currentTimestamp
  let periodic : Bool :=
    nd.isNystagmus && decide (nd.periodConfidence > 7 / 10) && decide (nextPeakTime > 0)
      && decide (timeToNextPeak > 0) && decide (timeToNextPeak < nd.estimatedPeriod)
  let phase := (timeToNextPeak / nd.estimatedPeriod) * 2 * M_PI
  let phaseCompensation := N.sin phase * nd.amplitude * (5 / 100)
  let x0p := if periodic then x0 + phaseCompensation else x0
  constrainDerivatives ![x0p, k 1 * decay.1, x2 * decay.2.1, x3 * decay.2.2]

/-- Source lines 456-549. -/
def stateTransition (N : Numerics) (u : EnhancedXAxisUKF) (x : Vec4) : Vec4 :=
  if u.isPredictingFuture then stateTransitionForPrediction N u x
  else stateTransitionForFiltering N u x

/-- Source lines 622-626. -/
def measurementFunction (x : Vec4) : ℚ := x 0

/-- Source lines 934-950. -/
def computeStateTransitionJacobian (_x : Vec4) : Mat4 :=
  !![1, dt, (1 / 2) * dt * dt, (1 / 6) * dt * dt * dt;
     0, 95 / 100, dt, (1 / 2) * dt * dt;
     0, 0, 90 / 100, dt;
     0, 0, 0, 85 / 100]

/-- Source lines 1121-1130. -/
def calculateStandardDeviation (N : Numerics) (data : List ℚ) : ℚ :=
  if data = [] then 0
  else
    let mean : ℚ := accumulate data / data.length
    let variance : ℚ := data.foldl (fun (acc v : ℚ) => acc + (v - mean) * (v - mean)) 0
    N.sqrt (variance / data.length)

/-- Source lines 953-1020. -/
def adaptParameters (N : Numerics) (u : EnhancedXAxisUKF) (_velocity _acceleration : ℚ) :
    EnhancedXAxisUKF :=
  let baseR : ℚ := 8
  let mode : ℚ × ℚ :=
    match u.motionPattern.currentType with
    | MotionType.STABLE => (1 / 2, 1 / 10000)
    | MotionType.SMOOTH_PURSUIT => (8 / 10, 5 / 10000)
    | MotionType.SACCADE => (2, 1 / 100)
    | MotionType.NYSTAGMUS => (12 / 10, 1 / 1000)
    | MotionType.TRANSITION => (1, 1 / 1000)
  let peak : ℚ × ℚ × ℚ :=
    if u.peakDetector.isPeak then (mode.1 * (25 / 10), baseR * (1 / 2), 2 / 100)
    else if u.peakDetector.isApproachingPeak then (mode.1 * (18 / 10), baseR * (7 / 10), 1 / 100)
    else (mode.1, baseR, mode.2)
  let motionFactor := peak.1
  let baseAlpha := peak.2.2
  let Q1 : Mat4 :=
    setDiag u.Q ![(1 / 2) * motionFactor, 10 * motionFactor, 50 * motionFactor, 200 * motionFactor]
  let R1 : ℚ := peak.2.1 / (motionFactor * (1 / 2) + 1 / 2)
  let velStd := calculateStandardDeviation N u.velocityHistory
  let stabFactor := 1 / (1 + N.exp (-(1 / 10) * (velStd - 50)))
  let Q2 : Mat4 := if 10 ≤ u.velocityHistory.length then (1 / 2 + stabFactor) • Q1 else Q1
  let R2 : ℚ := if 10 ≤ u.velocityHistory.length then R1 * (3 / 2 - stabFactor * (1 / 2)) else R1
  let Q3 : Mat4 :=
    setDiag Q2 ![max (1 / 10) (min (Q2 0 0) 10), max 1 (min (Q2 1 1) 100),
      max 10 (min (Q2 2 2) 500), max 50 (min (Q2 3 3) 2000)]
  let R3 : ℚ := max 2 (min R2 20)
  initializeWeights
    { u with Q := Q3, R := R3, alpha := baseAlpha, lambda := lambdaOf baseAlpha kappa }

/-- Source lines 1022-1034. -/
def handleLargeJump (u : EnhancedXAxisUKF) (measurementX velocity : ℚ) : EnhancedXAxisUKF :=
  { u with
    state := ![measurementX * (4 / 10) + u.state 0 * (6 / 10), velocity * (3 / 10),
      u.state 2 * (2 / 10), 0]
    P := setDiag u.P ![min 100 (u.P 0 0 * 2), min 400 (u.P 1 1 * 2), min 1600 (u.P 2 2 * 2),
      min 6400 (u.P 3 3 * 2)] }

/-- The lower bound `minVal` of `ensureCovariancePositive` for diagonal entry `i`. -/
def diagFloor (i : Fin 4) : ℚ :=
  if i = 0 then 1 else if i = 1 then 10 else if i = 2 then 50 else 200

/-- Source lines 1036-1063. -/
def ensureCovariancePositive (N : Numerics) (P : Mat4) : Mat4 :=
  let P1 : Mat4 := (1 / 2 : ℚ) • (P + P.transpose)
  let P2 : Mat4 :=
    setDiag P1 (fun i =>
      if P1 i i < diagFloor i then diagFloor i
      else if P1 i i > diagFloor i * 100 then diagFloor i * 100
      else P1 i i)
  let ev := N.eigenvalues P2
  if minElement (List.ofFn ev) < 1 / 1000000000 then
    let floored : Vec4 := fun i => if ev i < 1 / 1000000000 then 1 / 1000000000 else ev i
    N.eigenvectors P2 * Matrix.diagonal floored * (N.eigenvectors P2).transpose
  else P2

/-- Source lines 1065-1070. -/
def constrainState (u : EnhancedXAxisUKF) : EnhancedXAxisUKF :=
  { u with
    state := ![clamp 0 1920 (u.state 0), clamp (-300) 300 (u.state 1),
      clamp (-800) 800 (u.state 2), clamp (-2000) 2000 (u.state 3)] }

/-- Source lines 1072-1092. -/
def postProcessPrediction (N : Numerics) (u : EnhancedXAxisUKF) (prediction measurement : ℚ) : ℚ :=
  let pd := u.peakDetector
  let nd := u.nystagmusDetector
  let diff := measurement - prediction
  let compensation := pd.peakConfidence * (4 / 10)
  let result1 :=
    if pd.isPeak || pd.isApproachingPeak then prediction + diff * compensation else prediction
  let phaseError := fmod (u.currentTimestamp - nd.lastPeakTime) nd.estimatedPeriod
  let phaseFactor := N.sin (2 * M_PI * phaseError / nd.estimatedPeriod)
  if nd.isNystagmus && decide (nd.periodConfidence > 8 / 10) then result1 + phaseFactor * 2
  else result1

/-- Source lines 1094-1106. -/
def updateHistory (u : EnhancedXAxisUKF) (measurement velocity acceleration : ℚ) :
    EnhancedXAxisUKF :=
  let vh := u.velocityHistory ++ [velocity]
  let mh := u.measurementHistory ++ [measurement]
  let ph := u.positionHistory ++ [u.state 0]
  let ah := u.accelerationHistory ++ [acceleration]
  if vh.length > HISTORY_SIZE then
    { u with
      velocityHistory := vh.tail
      measurementHistory := mh.tail
      positionHistory := ph.tail
      accelerationHistory := ah.tail }
  else
    { u with
      velocityHistory := vh
      measurementHistory := mh
      positionHistory := ph
      accelerationHistory := ah }

/-- Source lines 1108-1119. -/
def handleException (u : EnhancedXAxisUKF) : EnhancedXAxisUKF :=
  { u with
    P := Matrix.diagonal ![50, 200, 800, 3200]
    state := ![u.state 0, u.state 1, u.state 2 * (1 / 2), 0] }

/-- Source lines 1132-1164. -/
def reset (u : EnhancedXAxisUKF) : EnhancedXAxisUKF :=
  initializeWeights
    { u with
      initialized := false
      lastX := 0
      currentTimestamp := 0
      isPredictingFuture := false
      velocityHistory := []
      measurementHistory := []
      positionHistory := []
      accelerationHistory := []
      peakDetector := u.peakDetector.reset
      nystagmusDetector := u.nystagmusDetector.reset
      motionPattern := u.motionPattern.reset
      state := 0
      P := Matrix.diagonal ![25, 100, 400, 1600]
      Q := Matrix.diagonal ![1 / 2, 10, 50, 200]
      R := 8
      alpha := 1 / 1000
      lambda := lambdaOf (1 / 1000) kappa }

/-- The unscented propagation of a mean and covariance through the transition `f`:
sigma points, their images, the weighted mean and the weighted covariance plus `Q`
(source lines 692-712, 800-820 and 858-878). -/
def propagate (N : Numerics) (u : EnhancedXAxisUKF) (f : Vec4 → Vec4) (x : Vec4) (P_in : Mat4) :
    Vec4 × Mat4 :=
  let sigma_points := generateSigmaPoints N u x P_in
  let sigma_points_pred : SigmaPoints := fun i => f (sigma_points i)
  let x_pred : Vec4 := ∑ i, u.Wm i • sigma_points_pred i
  let P_pred : Mat4 :=
    u.Q + ∑ i, u.Wc i • Matrix.vecMulVec (sigma_points_pred i - x_pred) (sigma_points_pred i - x_pred)
  (x_pred, P_pred)

/-- The measurement update of `updateFilter` (source lines 714-763). -/
def measurementUpdate (N : Numerics) (u : EnhancedXAxisUKF) (z : ℚ) (x_pred : Vec4)
    (P_pred : Mat4) : EnhancedXAxisUKF :=
  let sigma_points := generateSigmaPoints N u x_pred P_pred
  let sigma_points_meas : Fin 9 → ℚ := fun i => measurementFunction (sigma_points i)
  let z_pred : ℚ := ∑ i, u.Wm i * sigma_points_meas i
  let S : ℚ :=
    u.R + ∑ i, u.Wc i * ((sigma_points_meas i - z_pred) * (sigma_points_meas i - z_pred))
  let Pxz : Vec4 := ∑ i, (u.Wc i * (sigma_points_meas i - z_pred)) • (sigma_points i - x_pred)
  let K0 : Vec4 := fun r => Pxz r * S⁻¹
  let innovation := z - z_pred
  let innovationMagnitude := |innovation|
  let K : Vec4 :=
    if innovationMagnitude > 50 then
      (max (3 / 10) (1 - (innovationMagnitude - 50) / 100)) • K0
    else K0
  constrainState
    { u with
      state := x_pred + innovation • K
      P := ensureCovariancePositive N (P_pred - S • Matrix.vecMulVec K K) }

/-- The velocity derived from two consecutive measurements (source lines 657-658). -/
def derivedVelocity (u : EnhancedXAxisUKF) (m : ℚ) : ℚ :=
  clamp (-350) 350 ((m - u.lastX) / dt)

/-- The acceleration derived from two consecutive velocities (source lines 660-664). -/
def derivedAcceleration (u : EnhancedXAxisUKF) (velocity : ℚ) : ℚ :=
  if u.velocityHistory ≠ [] then
    clamp (-1000) 1000 ((velocity - u.velocityHistory.getLastD 0) / dt)
  else 0

/-- The detector updates of `updateFilter` (source lines 667-669). -/
def updateDetectors (N : Numerics) (u : EnhancedXAxisUKF) (m velocity acceleration : ℚ) :
    EnhancedXAxisUKF :=
  { u with
    peakDetector := u.peakDetector.update m velocity acceleration
    nystagmusDetector := u.nystagmusDetector.update N m velocity u.currentTimestamp
    motionPattern := (u.motionPattern.detectPattern velocity acceleration).1 }

/-- The large-jump branch of `updateFilter` (source lines 675-682). -/
def largeJumpBranch (u : EnhancedXAxisUKF) (m velocity acceleration : ℚ) :
    FloatVal × EnhancedXAxisUKF :=
  let u2 := handleLargeJump u m velocity
  let u3 := updateHistory { u2 with lastX := m } m velocity acceleration
  (FloatVal.finite (u3.state 0), u3)

/-- The unscented cycle of `updateFilter` with its post-processing (source lines 684-778). -/
def filterBranch (N : Numerics) (u : EnhancedXAxisUKF) (m velocity acceleration : ℚ) :
    FloatVal × EnhancedXAxisUKF :=
  let u2 := adaptParameters N u velocity acceleration
  let pred := propagate N u2 (stateTransition N u2) u2.state u2.P
  let u3 := measurementUpdate N u2 m pred.1 pred.2
  let filteredValue := postProcessPrediction N u3 (u3.state 0) m
  let u4 := updateHistory { u3 with lastX := m } m velocity acceleration
  (FloatVal.finite filteredValue, u4)

/-- The first-measurement branch of `updateFilter` (source lines 644-654). -/
def bootstrap (u : EnhancedXAxisUKF) (m : ℚ) : FloatVal × EnhancedXAxisUKF :=
  (FloatVal.finite m,
    { u with
      state := ![m, 0, 0, 0]
      initialized := true
      lastX := m
      measurementHistory := u.measurementHistory ++ [m]
      positionHistory := u.positionHistory ++ [m] })

/-- Source lines 629-779: the returned value and the estimator after the call. -/
def updateFilter (N : Numerics) (u0 : EnhancedXAxisUKF) (measurementX : FloatVal) (frameId : ℤ) :
    FloatVal × EnhancedXAxisUKF :=
  let u : EnhancedXAxisUKF := { u0 with currentTimestamp := (frameId : ℚ) * dt }
  if measurementX.isNan || measurementX.isInf then
    (if u.initialized then FloatVal.finite (u.state 0) else measurementX, u)
  else
    let m : ℚ := clamp 0 1920 measurementX.toRat
    if !u.initialized then bootstrap u m
    else
      let velocity : ℚ := derivedVelocity u m
      let acceleration : ℚ := derivedAcceleration u velocity
      let u1 := updateDetectors N u m velocity acceleration
      let jump : ℚ := |m - u.lastX|
      if jump > 120 then largeJumpBranch u1 m velocity acceleration
      else filterBranch N u1 m velocity acceleration

/-- The loop of `predictFutureX` (source lines 798-824): `steps` open-loop cycles. -/
def predictFutureXLoop (N : Numerics) (u : EnhancedXAxisUKF) : ℕ → Vec4 → Mat4 → Vec4 × Mat4
  | 0, predictedState, currentP => (predictedState, currentP)
  | steps + 1, predictedState, currentP =>
    let next := propagate N u (stateTransitionForPrediction N u) predictedState currentP
    predictFutureXLoop N u steps next.1 (ensureCovariancePositive N next.2)

/-- Source lines 782-838: the prediction and the estimator after the call. -/
def predictFutureX (N : Numerics) (u : EnhancedXAxisUKF) (stepsAhead : ℤ) :
    ℚ × EnhancedXAxisUKF :=
  if !u.initialized then (0, u)
  else
    let u1 : EnhancedXAxisUKF := { u with isPredictingFuture := true }
    let predictedState := (predictFutureXLoop N u1 stepsAhead.toNat u1.state u1.P).1
    (clamp 0 1920 (predictedState 0), { u1 with isPredictingFuture := false })

/-- The loop of `predictTrajectory` (source lines 856-881). -/
def predictTrajectoryLoop (N : Numerics) (u : EnhancedXAxisUKF) :
    ℕ → Vec4 → Mat4 → List ℚ → List ℚ
  | 0, _, _, trajectory => trajectory
  | steps + 1, futureState, futureP, trajectory =>
    let next := propagate N u (stateTransitionForPrediction N u) futureState futureP
    predictTrajectoryLoop N u steps next.1 next.2 (trajectory ++ [clamp 0 1920 (next.1 0)])

/-- Source lines 841-890: the trajectory and the estimator after the call. -/
def predictTrajectory (N : Numerics) (u : EnhancedXAxisUKF) (numSteps : ℤ) :
    List ℚ × EnhancedXAxisUKF :=
  if !u.initialized then ([], u)
  else
    let u1 : EnhancedXAxisUKF := { u with isPredictingFuture := true }
    (predictTrajectoryLoop N u1 numSteps.toNat u1.state u1.P [],
      { u1 with isPredictingFuture := false })

/-- Source lines 893-896. -/
structure PredictionWithUncertainty where
  position : ℚ
  /-- The standard deviation `std::sqrt(futureP(0, 0))`. -/
  uncertainty : FloatVal
deriving DecidableEq

/-- The covariance assignment `futureP = F * futureP * F.transpose() + Q` (source line 915). -/
def propagateCovariance (u : EnhancedXAxisUKF) (futureState : Vec4) (futureP : Mat4) : Mat4 :=
  let F := computeStateTransitionJacobian futureState
  F * futureP * F.transpose + u.Q

/-- The loop of `predictWithUncertainty` (source lines 909-922). -/
def predictWithUncertaintyLoop (N : Numerics) (u : EnhancedXAxisUKF) :
    ℕ → Vec4 → Mat4 → List PredictionWithUncertainty → List PredictionWithUncertainty
  | 0, _, _, predictions => predictions
  | steps + 1, futureState, futureP, predictions =>
    let nextState := stateTransitionForPrediction N u futureState
    let nextP := propagateCovariance u nextState futureP
    let pred : PredictionWithUncertainty :=
      { position := clamp 0 1920 (nextState 0), uncertainty := sqrtVal N (nextP 0 0) }
    predictWithUncertaintyLoop N u steps nextState nextP (predictions ++ [pred])

/-- Source lines 898-931: the predictions and the estimator after the call. -/
def predictWithUncertainty (N : Numerics) (u : EnhancedXAxisUKF) (numSteps : ℤ) :
    List PredictionWithUncertainty × EnhancedXAxisUKF :=
  if !u.initialized then ([], u)
  else
    let u1 : EnhancedXAxisUKF := { u with isPredictingFuture := true }
    (predictWithUncertaintyLoop N u1 numSteps.toNat u1.state u1.P [],
      { u1 with isPredictingFuture := false })

end EnhancedXAxisUKF

/-! ## Outlier filter -/

structure EnhancedOutlierFilter where
  history : List ℚ := []
  predictions : List ℚ := []
  runningMean : ℚ := 0
  runningVariance : ℚ := 0
  sampleCount : ℤ := 0

namespace EnhancedOutlierFilter

def WINDOW_SIZE : ℕ := 5

/-- Source lines 1271-1277. -/
def updateStatistics (f : EnhancedOutlierFilter) (value : ℚ) : EnhancedOutlierFilter :=
  let sampleCount := f.sampleCount + 1
  let delta := value - f.runningMean
  let runningMean := f.runningMean + delta / sampleCount
  let delta2 := value - runningMean
  { f with
    sampleCount := sampleCount
    runningMean := runningMean
    runningVariance := ((sampleCount - 1) * f.runningVariance + delta * delta2) / sampleCount }

/-- The threshold `dynamicThreshold` of `filter` (source lines 1229-1232). -/
def dynamicThreshold (N : Numerics) (f : EnhancedOutlierFilter) : ℚ :=
  if f.runningVariance > 0 ∧ f.sampleCount > 10 then
    min 100 (max 30 (2 * N.sqrt f.runningVariance))
  else 40

/-- Source lines 1221-1269: the returned value and the filter after the call. -/
def filter (N : Numerics) (f0 : EnhancedOutlierFilter) (measurement prediction : ℚ) :
    ℚ × EnhancedOutlierFilter :=
  let f := f0.updateStatistics measurement
  let error := |measurement - prediction|
  let threshold := dynamicThreshold N f
  let result : ℚ :=
    if error < threshold then prediction
    else if error < threshold * 2 then
      let weight := min (7 / 10) ((error - threshold) / threshold)
      prediction * (1 - weight) + measurement * weight
    else if f.history ≠ [] then
      let sortedHistory := f.history.insertionSort (· ≤ ·)
      let median := sortedHistory.getD (sortedHistory.length / 2) 0
      median * (6 / 10) + prediction * (4 / 10)
    else prediction * (7 / 10) + measurement * (3 / 10)
  let h := f.history ++ [result]
  let p := f.predictions ++ [prediction]
  (result,
    if h.length > WINDOW_SIZE then { f with history := h.tail, predictions := p.tail }
    else { f with history := h, predictions := p })

/-- Source lines 1279-1285. -/
def reset (_f : EnhancedOutlierFilter) : EnhancedOutlierFilter := {}

end EnhancedOutlierFilter

/-! ## Prediction ledger -/

/-- A `std::map<int, T>`: the entries in increasing key order. -/
abbrev IntMap (α : Type) := List (ℤ × α)

namespace IntMap

variable {α : Type}

/-- The keys are strictly increasing: the representation invariant of `std::map`. -/
def Ordered (m : IntMap α) : Prop := m.Pairwise (fun a b => a.1 < b.1)

/-- The assignment `m[k] = v`. -/
def insert (k : ℤ) (v : α) : IntMap α → IntMap α
  | [] => [(k, v)]
  | (k1, v1) :: rest =>
    if k < k1 then (k, v) :: (k1, v1) :: rest
    else if k = k1 then (k, v) :: rest
    else (k1, v1) :: insert k v rest

/-- The call `m.erase(k)` by key. -/
def erase (k : ℤ) (m : IntMap α) : IntMap α := m.filter (fun e => decide (e.1 ≠ k))

/-- The lookup `m.find(k)`: the mapped value, if any. -/
def find (k : ℤ) : IntMap α → Option α
  | [] => none
  | (k1, v1) :: rest => if k = k1 then some v1 else find k rest

/-- The keys in order. -/
def keys (m : IntMap α) : List ℤ := m.map Prod.fst

end IntMap

/-- The OpenCV point `cv::Point2f`. -/
structure Point2f where
  x : ℚ
  y : ℚ
deriving DecidableEq

/-- The call `cv::norm(a - b)` on points: the Euclidean length of the difference. -/
def normDiff (N : Numerics) (a b : Point2f) : ℚ :=
  N.sqrt ((a.x - b.x) * (a.x - b.x) + (a.y - b.y) * (a.y - b.y))

structure PredictionBuffer where
  predictions : IntMap Point2f := []
  errors : IntMap ℚ := []
  timestamps : IntMap ℚ := []

namespace PredictionBuffer

/-- Source lines 1298-1309. The erased key is the one `oldest` pointed to. -/
def storePrediction (b : PredictionBuffer) (frameId : ℤ) (prediction : Point2f) (timestamp : ℚ) :
    PredictionBuffer :=
  let p := b.predictions.insert frameId prediction
  let t := b.timestamps.insert frameId timestamp
  if p.length > 100 then
    match p with
    | [] => { b with predictions := p, timestamps := t }
    | oldest :: rest =>
      { predictions := rest, errors := b.errors.erase oldest.1, timestamps := t.erase oldest.1 }
  else { b with predictions := p, timestamps := t }

/-- Source lines 1311-1318: the returned error (or -1) and the ledger after the call. -/
def evaluatePrediction (N : Numerics) (b : PredictionBuffer) (frameId : ℤ) (actual : Point2f) :
    ℚ × PredictionBuffer :=
  match b.predictions.find frameId with
  | some predicted =>
    let error := normDiff N actual predicted
    (error, { b with errors := b.errors.insert frameId error })
  | none => (-1, b)

/-- Source lines 1320-1322. -/
def hasPrediction (b : PredictionBuffer) (frameId : ℤ) : Bool :=
  (b.predictions.find frameId).isSome

/-- Source lines 1324-1327. -/
def getPrediction (b : PredictionBuffer) (frameId : ℤ) : Point2f :=
  (b.predictions.find frameId).getD { x := 0, y := 0 }

/-- Source lines 1329-1333. -/
def clear (_b : PredictionBuffer) : PredictionBuffer := {}

end PredictionBuffer

/-! ## Rolling statistics -/

/-- The members of the statistics object. The four `float` members hold binary32 values;
the two totals are the only ones the code computes with rounding. -/
structure PredictionStats where
  filterErrors : List ℚ := []
  predictionErrors : List ℚ := []
  totalFilterError : ℚ := 0
  totalPredictionError : ℚ := 0
  maxFilterError : ℚ := 0
  maxPredictionError : ℚ := 0
  filterCount : ℤ := 0
  predictionCount : ℤ := 0

namespace PredictionStats

/-- Source lines 1363-1374. The running total is a `float`: each `+=` and `-=` rounds. -/
def addFilterError (s : PredictionStats) (error : ℚ) : PredictionStats :=
  let errors := s.filterErrors ++ [error]
  let total := roundBinary32 (s.totalFilterError + error)
  let s1 : PredictionStats :=
    { s with
      filterErrors := errors
      totalFilterError := total
      maxFilterError := max s.maxFilterError error
      filterCount := s.filterCount + 1 }
  if errors.length > 100 then
    { s1 with
      totalFilterError := roundBinary32 (total - errors.headD 0), filterErrors := errors.tail }
  else s1

/-- Source lines 1376-1387. The running total is a `float`: each `+=` and `-=` rounds. -/
def addPredictionError (s : PredictionStats) (error : ℚ) : PredictionStats :=
  let errors := s.predictionErrors ++ [error]
  let total := roundBinary32 (s.totalPredictionError + error)
  let s1 : PredictionStats :=
    { s with
      predictionErrors := errors
      totalPredictionError := total
      maxPredictionError := max s.maxPredictionError error
      predictionCount := s.predictionCount + 1 }
  if errors.length > 100 then
    { s1 with
      totalPredictionError := roundBinary32 (total - errors.headD 0)
      predictionErrors := errors.tail }
  else s1

/-- Source lines 1389-1391: a `float` division of the total by the window size. -/
def getAvgFilterError (s : PredictionStats) : ℚ :=
  if s.filterErrors = [] then 0
  else roundBinary32 (s.totalFilterError / s.filterErrors.length)

/-- Source lines 1393-1395: a `float` division of the total by the window size. -/
def getAvgPredictionError (s : PredictionStats) : ℚ :=
  if s.predictionErrors = [] then 0
  else roundBinary32 (s.totalPredictionError / s.predictionErrors.length)

/-- Source lines 1397-1403. -/
def reset (_s : PredictionStats) : PredictionStats := {}

end PredictionStats

/-! ## A concrete instance of the external routines -/

/-- A square root with six decimals, rounded down. -/
def sqrtFixed (x : ℚ) : ℚ := (Nat.sqrt (⌊x * 1000000000000⌋.toNat) : ℚ) / 1000000

/-- An instance of `Numerics` on which the embedding can be run: a fixed-precision
square root, Taylor polynomials for `sin`, `cos` and `exp`, and the decompositions
of the diagonal part of a matrix (exact on diagonal matrices up to the square root). -/
def refNumerics : Numerics where
  sqrt := sqrtFixed
  sin := fun x => x - x ^ 3 / 6 + x ^ 5 / 120
  cos := fun x => 1 - x ^ 2 / 2 + x ^ 4 / 24
  exp := fun x => 1 + x + x ^ 2 / 2 + x ^ 3 / 6 + x ^ 4 / 24
  lltMatrixL := fun M =>
    if ∀ i, 0 < M i i then some (Matrix.diagonal (fun i => sqrtFixed (M i i))) else none
  svdSingularValues := fun M i => |M i i|
  svdMatrixU := fun _ => 1
  eigenvalues := fun M i => M i i
  eigenvectors := fun _ => 1

/-- The estimator after a first measurement of 960 at frame 0. -/
def trackingAt960 : EnhancedXAxisUKF :=
  (EnhancedXAxisUKF.updateFilter refNumerics EnhancedXAxisUKF.new (FloatVal.finite 960) 0).2

/-- The estimator after the measurements 0 at frame 0 and 1000 at frame 1. -/
def jumpedTo1000 : EnhancedXAxisUKF :=
  (EnhancedXAxisUKF.updateFilter refNumerics
    (EnhancedXAxisUKF.updateFilter refNumerics EnhancedXAxisUKF.new (FloatVal.finite 0) 0).2
    (FloatVal.finite 1000) 1).2

/-- An initialized estimator whose covariance couples position and velocity negatively;
it is symmetric, positive semi-definite and has its diagonal inside the ranges that
`ensureCovariancePositive` enforces. -/
def correlatedEstimator : EnhancedXAxisUKF :=
  { trackingAt960 with
    P := !![100, -300, 0, 0; -300, 1000, 0, 0; 0, 0, 50, 0; 0, 0, 0, 200] }

/-- Every entry of the matrix is non-negative. -/
def EntrywiseNonneg (M : Mat4) : Prop := ∀ i j, 0 ≤ M i j

/-- The matrix is positive semi-definite: its quadratic form is non-negative. -/
def PosSemidef (M : Mat4) : Prop := ∀ x : Vec4, 0 ≤ Matrix.dotProduct x (M.mulVec x)

/-- The diagonal lies inside the ranges `[minVal, 100 * minVal]` of `ensureCovariancePositive`. -/
def DiagonalInRange (M : Mat4) : Prop :=
  ∀ i, EnhancedXAxisUKF.diagFloor i ≤ M i i ∧ M i i ≤ EnhancedXAxisUKF.diagFloor i * 100

/-- The uncertainties of a sequence of predictions, in order. -/
def uncertainties (l : List EnhancedXAxisUKF.PredictionWithUncertainty) : List FloatVal :=
  l.map (fun p => p.uncertainty)

/-- An initialized estimator with a covariance assembled by hand: symmetric with its
diagonal inside the ranges of `ensureCovariancePositive`, but not positive semi-definite. -/
def indefiniteEstimator : EnhancedXAxisUKF :=
  { trackingAt960 with
    P := !![1, -1000, 0, 0; -1000, 1000, 0, 0; 0, 0, 50, 0; 0, 0, 0, 200] }

/-- A point of the screen used in the examples. -/
def samplePoint : Point2f := { x := 960, y := 540 }

/-- The ledger filled by `storePrediction` for the frames 1 to 100. -/
def fullLedger : PredictionBuffer :=
  (List.range 100).foldl
    (fun b i => b.storePrediction ((i : ℤ) + 1) samplePoint 0) {}

/-- The window and its sum after one more error, in exact arithmetic: what the update of
`addFilterError` and `addPredictionError` would be without rounding. -/
def rollingStep (w : List ℚ × ℚ) (error : ℚ) : List ℚ × ℚ :=
  if (w.1 ++ [error]).length > 100 then
    ((w.1 ++ [error]).tail, w.2 + error - (w.1 ++ [error]).headD 0)
  else (w.1 ++ [error], w.2 + error)

/-- The window and running total after one more error: the update that `addFilterError`
and `addPredictionError` both perform on their pair of members, in `float` arithmetic. -/
def floatStep (w : List ℚ × ℚ) (error : ℚ) : List ℚ × ℚ :=
  if (w.1 ++ [error]).length > 100 then
    ((w.1 ++ [error]).tail,
      roundBinary32 (roundBinary32 (w.2 + error) - (w.1 ++ [error]).headD 0))
  else (w.1 ++ [error], roundBinary32 (w.2 + error))

/-- The error `e` is a multiple `n * 2^(-j)` of the binary grid `2^(-j)` with `n <= 2^17`:
a hundred and one such values add up without rounding in binary32. -/
def OnGrid (j : ℕ) (e : ℚ) : Prop := ∃ n : ℕ, n ≤ 2 ^ 17 ∧ e = (n : ℚ) / 2 ^ j

/-- The `float` 1500.3f followed by a hundred times the `float` 0.001f. -/
def largeThenTiny : List ℚ :=
  roundBinary32 (15003 / 10) :: List.replicate 100 (roundBinary32 (1 / 1000))

/-- The statistics after a sequence of `addFilterError` calls. -/
def addFilterErrors (s : PredictionStats) (errors : List ℚ) : PredictionStats :=
  errors.foldl PredictionStats.addFilterError s

/-- The statistics after a sequence of `addPredictionError` calls. -/
def addPredictionErrors (s : PredictionStats) (errors : List ℚ) : PredictionStats :=
  errors.foldl PredictionStats.addPredictionError s

/-- The square root of a non-negative number is non-negative, as with `std::sqrt`. -/
def SqrtNonneg (N : Numerics) : Prop := ∀ a : ℚ, 0 ≤ a → 0 ≤ N.sqrt a

/-- The square root is monotone on the non-negative numbers, as `std::sqrt` is. -/
def SqrtMonotone (N : Numerics) : Prop := ∀ a b : ℚ, 0 ≤ a → a ≤ b → N.sqrt a ≤ N.sqrt b


/-- One large error followed by a hundred small ones. -/
def spikeThenCalm : List ℚ := 50 :: List.replicate 100 1


/-- A detector window of seven samples rising to a maximum at the last but one. -/
def risingThenFalling : MultiScalePeakDetector :=
  { positions := [100, 110, 120, 130, 140, 150, 145]
    velocities := [600, 600, 600, 600, 600, 600, -300]
    accelerations := [0, 0, 0, 0, 0, 0, -1000] }


/-- The recognizer after a sequence of `detectPattern(velocity, acceleration)` calls,
starting from the recognizer `r`. -/
def recognizerAfter (r : MotionPatternRecognizer) (calls : List (ℚ × ℚ)) :
    MotionPatternRecognizer :=
  calls.foldl (fun r x => (r.detectPattern x.1 x.2).1) r

/-- The invariant of the recognizer: both windows have the same length, at most 10, and
the confidence lies in `[0, 1]`. -/
def RecognizerInvariant (r : MotionPatternRecognizer) : Prop :=
  r.accelerationWindow.length = r.velocityWindow.length ∧ r.velocityWindow.length ≤ 10 ∧
    0 ≤ r.confidence ∧ r.confidence ≤ 1


/-- The estimator after a sequence of `updateFilter` calls with finite measurements, each
given with its frame id. -/
def updateAll (N : Numerics) (u : EnhancedXAxisUKF) (frames : List (ℚ × ℤ)) : EnhancedXAxisUKF :=
  frames.foldl (fun u x => (EnhancedXAxisUKF.updateFilter N u (FloatVal.finite x.1) x.2).2) u

/-- The members of an initialized estimator from which `updateFilter` derives the velocity
and the acceleration and which the regime classifier reads and writes. -/
structure TrackingView where
  lastX : ℚ
  velocityHistory : List ℚ
  motionPattern : MotionPatternRecognizer

/-- The view of an estimator. -/
def EnhancedXAxisUKF.view (u : EnhancedXAxisUKF) : TrackingView :=
  { lastX := u.lastX, velocityHistory := u.velocityHistory, motionPattern := u.motionPattern }

/-- What `updateFilter` does to the view of an initialized estimator on a finite
measurement (source lines 639, 657-669, 679-680, 775-776 and `updateHistory`). -/
def TrackingView.step (t : TrackingView) (q : ℚ) : TrackingView :=
  let m := clamp 0 1920 q
  let velocity := clamp (-350) 350 ((m - t.lastX) / EnhancedXAxisUKF.dt)
  let acceleration :=
    if t.velocityHistory ≠ [] then
      clamp (-1000) 1000 ((velocity - t.velocityHistory.getLastD 0) / EnhancedXAxisUKF.dt)
    else 0
  let vh := t.velocityHistory ++ [velocity]
  { lastX := m
    velocityHistory := if vh.length > EnhancedXAxisUKF.HISTORY_SIZE then vh.tail else vh
    motionPattern := (t.motionPattern.detectPattern velocity acceleration).1 }

/-- The measurements of the saccade scenario with their frame ids. -/
def saccadeScenario : List (ℚ × ℤ) :=
  [(960, 0), (960, 1), (960, 2), (965, 3), (975, 4), (990, 5), (1010, 6), (1040, 7)]


/-- The detector after a sequence of `update(position, velocity, timestamp)` calls,
starting from the detector `d`. -/
def detectorAfter (N : Numerics) (d : EnhancedNystagmusDetector) (samples : List (ℚ × ℚ × ℚ)) :
    EnhancedNystagmusDetector :=
  samples.foldl (fun d s => d.update N s.1 s.2.1 s.2.2) d

/-- The variance of the velocity magnitudes that `update` computes over its window
(source lines 243-252). -/
def magnitudeVariance (velocities : List ℚ) : ℚ :=
  (velocities.foldl
      (fun (acc v : ℚ) =>
        acc + (|v| - (velocities.foldl (fun (acc v : ℚ) => acc + |v|) 0) / velocities.length)
          * (|v| - (velocities.foldl (fun (acc v : ℚ) => acc + |v|) 0) / velocities.length)) 0)
    / velocities.length

/-- The invariant of the detector: the three windows have the same length, at most 30, and
a raised `isNystagmus` flag goes with at least 15 samples and with the frequency, amplitude
and velocity variance inside their bands. -/
def DetectorInvariant (d : EnhancedNystagmusDetector) : Prop :=
  d.velocities.length = d.positions.length ∧ d.timestamps.length = d.positions.length ∧
    d.positions.length ≤ 30 ∧
    (d.isNystagmus = true →
      15 ≤ d.timestamps.length ∧ 1 / 2 < d.frequency ∧ d.frequency < 6 ∧ d.amplitude > 20 ∧
        magnitudeVariance d.velocities > 100)

/-- Fifteen samples at 60 Hz: ten moving right at 100 units/s, then five moving left at 20. -/
def oscillation : List (ℚ × ℚ × ℚ) :=
  (List.range 15).map (fun (i : ℕ) =>
    (if i < 10 then 10 * (i : ℚ) else 90 - 5 * ((i : ℚ) - 9), if i < 10 then 100 else -20,
      ((i : ℚ) + 1) / 60))


/-- Forty-one samples at 60 Hz: ten moving right at 20 units/s, then thirty-one moving
left at 20 units/s. The only reversal happens at the eleventh sample. -/
def lateWindow : List (ℚ × ℚ × ℚ) :=
  (List.range 41).map (fun (i : ℕ) =>
    (960, if i < 10 then 20 else -20, ((i : ℚ) + 1) / 60))

/-- The number of direction reversals among the samples of a velocity window, in the
claim's words: the samples whose direction differs from that of the sample before them
and whose magnitude exceeds the noise floor 15. -/
def windowReversals : List ℚ → ℕ
  | [] => 0
  | [_] => 0
  | a :: b :: rest =>
    (if (decide (a > 0) != decide (b > 0)) && decide (|b| > 15) then 1 else 0)
      + windowReversals (b :: rest)


/-- The measurement 960 for the frame ids 0 to 21. -/
def steadyFrames : List (ℚ × ℤ) := (List.range 22).map (fun (i : ℕ) => (960, (i : ℤ)))

/-- The history buffers of an initialized estimator after `k` updates past the first
measurement: the velocity and acceleration buffers hold `k` entries, the measurement and
position buffers one more, pushed by the first call. -/
def HistoryLengths (k : ℕ) (u : EnhancedXAxisUKF) : Prop :=
  u.initialized = true ∧ u.velocityHistory.length = k ∧ u.accelerationHistory.length = k ∧
    u.measurementHistory.length = k + 1 ∧ u.positionHistory.length = k + 1


/-- The peak detector after a sequence of `update(pos, vel, acc)` calls, starting from the
detector `d`. -/
def peakDetectorAfter (d : MultiScalePeakDetector) (samples : List (ℚ × ℚ × ℚ)) :
    MultiScalePeakDetector :=
  samples.foldl (fun d s => d.update s.1 s.2.1 s.2.2) d

/-- Nine samples at 60 Hz as `updateFilter` derives them from the measurements 100, 105, ...,
130, 125, 120, 115: six steps right at 300 units/s, then three steps left at 300 units/s, the
acceleration clamped to -1000 at the reversal. -/
def peakThenDescent : List (ℚ × ℚ × ℚ) :=
  [(105, 300, 0), (110, 300, 0), (115, 300, 0), (120, 300, 0), (125, 300, 0), (130, 300, 0),
    (125, -300, -1000), (120, -300, 0), (115, -300, 0)]


/-- Seven samples at 60 Hz as `updateFilter` derives them from the measurements 100, 105,
..., 125, 126, 126.2: five steps at 300 units/s, then the velocity drops to 60 and to 12
units/s, the deceleration clamped to -1000. -/
def slowingDown : List (ℚ × ℚ × ℚ) :=
  [(105, 300, 0), (110, 300, 0), (115, 300, 0), (120, 300, 0), (125, 300, 0),
    (126, 60, -1000), (631 / 5, 12, -1000)]

/-- The estimator tracking at 960 whose peak detector has seen the samples of `slowingDown`. -/
def approachingEstimator : EnhancedXAxisUKF :=
  { trackingAt960 with peakDetector := peakDetectorAfter {} slowingDown }


/-- An initialized estimator tracking at 960 whose covariance is diagonal with velocity
variance 500, inside the range `[10, 1000]` that `ensureCovariancePositive` enforces. -/
def wideVelocityEstimator : EnhancedXAxisUKF :=
  { trackingAt960 with P := Matrix.diagonal ![25, 500, 400, 1600] }

/-- The caps that `handleLargeJump` puts on the diagonal of `P` (source lines 1030-1033). -/
def jumpCap (i : Fin 4) : ℚ :=
  if i = 0 then 100 else if i = 1 then 400 else if i = 2 then 1600 else 6400


/-- Twenty-four samples at 60 Hz of a sawtooth: ten frames right at 300 units/s, then
alternately four frames left at 60 units/s and four frames right at 300 units/s; the
positions integrate the velocities from 900. The direction reverses at the frames 11, 15,
19 and 23. -/
def sawtooth : List (ℚ × ℚ × ℚ) :=
  (List.range 24).map (fun (i : ℕ) =>
    (if i < 10 then 900 + 5 * ((i : ℚ) + 1)
      else if i < 14 then 950 - ((i : ℚ) - 9)
      else if i < 18 then 946 + 5 * ((i : ℚ) - 13)
      else if i < 22 then 966 - ((i : ℚ) - 17)
      else 962 + 5 * ((i : ℚ) - 21),
     if i < 10 then 300 else if i < 14 then -60 else if i < 18 then 300
      else if i < 22 then -60 else 300,
     ((i : ℚ) + 1) / 60))

/-- An initialized estimator at frame 24 whose nystagmus detector has seen the samples of
`sawtooth`. -/
def sawtoothEstimator : EnhancedXAxisUKF :=
  { trackingAt960 with
    nystagmusDetector := detectorAfter refNumerics {} sawtooth
    currentTimestamp := 24 / 60 }


/-- The matrix `ensureCovariancePositive` hands to the eigen solver: the input symmetrized
and its diagonal clamped to `[minVal, 100 * minVal]` (source lines 1037-1050). -/
def clampedCovariance (P : Mat4) : Mat4 :=
  setDiag ((1 / 2 : ℚ) • (P + P.transpose)) (fun i =>
    if ((1 / 2 : ℚ) • (P + P.transpose)) i i < EnhancedXAxisUKF.diagFloor i then
      EnhancedXAxisUKF.diagFloor i
    else if ((1 / 2 : ℚ) • (P + P.transpose)) i i > EnhancedXAxisUKF.diagFloor i * 100 then
      EnhancedXAxisUKF.diagFloor i * 100
    else ((1 / 2 : ℚ) • (P + P.transpose)) i i)

/-- Every eigenvalue of the symmetric matrix `M` is at least `c`: its quadratic form is at
least `c` times the squared length. -/
def EigenvaluesAtLeast (c : ℚ) (M : Mat4) : Prop :=
  ∀ x : Vec4, c * Matrix.dotProduct x x ≤ Matrix.dotProduct x (M.mulVec x)

/-- A symmetric covariance with its diagonal inside the configured ranges that couples
position and velocity so strongly that it is indefinite: its eigenvalues are -25, 50, 200
and 2900/9, the first and the last with the eigenvectors (-4/5, 3/5, 0, 0) and
(3/5, 4/5, 0, 0). -/
def coupledCovariance : Mat4 :=
  !![100, 500 / 3, 0, 0; 500 / 3, 1775 / 9, 0, 0; 0, 0, 50, 0; 0, 0, 0, 200]

/-- The instance `refNumerics` with an eigen solver that is also exact on
`coupledCovariance`: eigenvalues in increasing order, unit eigenvectors in the columns. -/
def rotationNumerics : Numerics :=
  { refNumerics with
    eigenvalues := fun M =>
      if M = coupledCovariance then ![-25, 50, 200, 2900 / 9] else refNumerics.eigenvalues M
    eigenvectors := fun M =>
      if M = coupledCovariance then
        !![-4 / 5, 0, 0, 3 / 5; 3 / 5, 0, 0, 4 / 5; 0, 1, 0, 0; 0, 0, 1, 0]
      else refNumerics.eigenvectors M }


/-- The filter after a sequence of `updateStatistics` calls on a fresh or reset filter. -/
def statisticsAfter (values : List ℚ) : EnhancedOutlierFilter :=
  values.foldl EnhancedOutlierFilter.updateStatistics {}

/-- The arithmetic mean `(v_1 + ... + v_n) / n`, in the claim's words. -/
def sampleMean (values : List ℚ) : ℚ := values.sum / values.length

/-- The population variance `(1/n) * sum_i (v_i - mean)^2`, in the claim's words. -/
def populationVariance (values : List ℚ) : ℚ :=
  (values.map (fun v => (v - sampleMean values) ^ 2)).sum / values.length


/-- The velocities of `sawtooth` with the accelerations `updateFilter` derives from them:
0 inside a run, clamped to -1000 or 1000 at a reversal. -/
def sawtoothMotion : List (ℚ × ℚ) :=
  (List.range 24).map (fun (i : ℕ) =>
    (if i < 10 then 300 else if i < 14 then -60 else if i < 18 then 300
      else if i < 22 then -60 else 300,
     if i = 10 ∨ i = 18 then -1000 else if i = 14 ∨ i = 22 then 1000 else 0))


/-- The timestamps of `n` consecutive frames starting at frame `a`: frame `k` has the
timestamp `k * dt`, as `updateFilter` computes it (source line 631). -/
def frameTimes (a : ℤ) (n : ℕ) : List ℚ :=
  (List.range n).map (fun (i : ℕ) => ((a : ℚ) + (i : ℚ)) * EnhancedXAxisUKF.dt)

/-- The samples `(position, velocity)` of consecutive frames, starting at frame `a`, each
with the timestamp of its frame. -/
def stampSamples : ℤ → List (ℚ × ℚ) → List (ℚ × ℚ × ℚ)
  | _, [] => []
  | a, s :: rest => (s.1, s.2, (a : ℚ) * EnhancedXAxisUKF.dt) :: stampSamples (a + 1) rest

/-- The invariant of a detector fed consecutive frames, `next` being the frame of the next
sample: the detector invariant, a window of consecutive frame times ending at `next - 1`,
and a stored frequency that is the reversal counter over twice the time span of the window
once 15 samples are held. -/
def FrameInvariant (d : EnhancedNystagmusDetector) (next : ℤ) : Prop :=
  DetectorInvariant d ∧
    d.timestamps = frameTimes (next - d.timestamps.length) d.timestamps.length ∧
    (15 ≤ d.timestamps.length →
      d.frequency =
        (d.directionChanges : ℚ) / (2 * (d.timestamps.getLastD 0 - d.timestamps.headD 0)))

/-- Sixteen samples at 60 Hz from frame 1: ten at +100 units/s, then the velocity changes
sign at every frame: six reversals. -/
def flutter : List (ℚ × ℚ) :=
  (List.range 16).map (fun (i : ℕ) => (960, if i < 10 ∨ i % 2 = 1 then 100 else -100))


/-- The detector window after seven identical samples at rest, before `detectPeak` runs. -/
def stationaryWindow : MultiScalePeakDetector :=
  { positions := List.replicate 7 960
    velocities := List.replicate 7 0
    accelerations := List.replicate 7 0 }


/-- The eigen solver is accurate to `tol` on the matrix `A`: with `V` the returned
eigenvectors and `d` the returned eigenvalues, every entry of `V * V^T` is within `tol` of
the identity and every entry of `V * diag(d) * V^T` is within `tol` of `A`. An exact
decomposition has `tol = 0`; the rounded output of `Eigen::SelfAdjointEigenSolver` has a
small positive `tol`. -/
def EigenWithin (N : Numerics) (A : Mat4) (tol : ℚ) : Prop :=
  (∀ i j, |(N.eigenvectors A * (N.eigenvectors A).transpose - 1) i j| ≤ tol) ∧
    ∀ i j, |(N.eigenvectors A * Matrix.diagonal (N.eigenvalues A)
      * (N.eigenvectors A).transpose - A) i j| ≤ tol

/-- An input that is not symmetric and has its first diagonal entry above its range:
symmetrized and clamped, it is `coupledCovariance`. -/
def skewedCovariance : Mat4 :=
  !![150, 500 / 3 + 7, 0, 0; 500 / 3 - 7, 1775 / 9, 0, 0; 0, 0, 50, 0; 0, 0, 0, 200]

/-- A symmetric covariance with the irrational eigenvalues `11 - sqrt 2` and `11 + sqrt 2`
(and 50, 200). -/
def tiltedCovariance : Mat4 :=
  !![10, 1, 0, 0; 1, 12, 0, 0; 0, 0, 50, 0; 0, 0, 0, 200]

/-- The instance `rotationNumerics` with an eigen solver that is also accurate on
`tiltedCovariance`: the eigenvalues rounded to six decimals and the rotation by the angle
with half-angle tangent 183/920 (22.5 degrees to within 2e-6), which is orthonormal. -/
def tiltNumerics : Numerics :=
  { rotationNumerics with
    eigenvalues := fun M =>
      if M = tiltedCovariance then ![9585786 / 1000000, 12414214 / 1000000, 50, 200]
      else rotationNumerics.eigenvalues M
    eigenvectors := fun M =>
      if M = tiltedCovariance then
        !![812911 / 879889, 336720 / 879889, 0, 0; -(336720 / 879889), 812911 / 879889, 0, 0;
          0, 0, 1, 0; 0, 0, 0, 1]
      else rotationNumerics.eigenvectors M }

/-! ## Theorems -/

namespace FloatVal

theorem not_finite_iff (v : FloatVal) : (v.isNan || v.isInf) = true ↔ v.isFinite = false := by
  cases v <;> simp [isNan, isInf, isFinite]

end FloatVal

namespace EnhancedXAxisUKF

/-! ### The input guard of `updateFilter` -/

theorem updateFilter_nonfinite (N : Numerics) (u : EnhancedXAxisUKF) (m : FloatVal) (frameId : ℤ)
    (hm : m.isFinite = false) :
    updateFilter N u m frameId =
      (if u.initialized then FloatVal.finite (u.state 0) else m,
        { u with currentTimestamp := (frameId : ℚ) * dt }) := by
  have h : (m.isNan || m.isInf) = true := (FloatVal.not_finite_iff m).2 hm
  simp [updateFilter, h]

theorem updateFilter_finite_isFinite (N : Numerics) (u : EnhancedXAxisUKF) (m : FloatVal)
    (frameId : ℤ) (hm : m.isFinite = true) : (updateFilter N u m frameId).1.isFinite = true := by
  have h : (m.isNan || m.isInf) = false := by
    cases m <;> simp_all [FloatVal.isNan, FloatVal.isInf, FloatVal.isFinite]
  unfold updateFilter
  simp only [h, Bool.false_eq_true, if_false]
  split_ifs <;> rfl

/-- C1 (as amended): `updateFilter` returns a finite value exactly when the estimator is
initialized or the measurement is finite; an uninitialized estimator handed a NaN or an
infinity returns that measurement itself. -/
theorem updateFilter_finite_iff (N : Numerics) (u : EnhancedXAxisUKF) (m : FloatVal)
    (frameId : ℤ) :
    ((updateFilter N u m frameId).1.isFinite = true ↔
        (u.initialized = true ∨ m.isFinite = true)) ∧
      (u.initialized = false ∧ m.isFinite = false → (updateFilter N u m frameId).1 = m) := by
  constructor
  · constructor
    · intro h
      by_contra hc
      push_neg at hc
      have hm : m.isFinite = false := by simpa using hc.2
      have hi : u.initialized = false := by simpa using hc.1
      rw [updateFilter_nonfinite N u m frameId hm] at h
      simp [hi, hm] at h
    · rintro (hi | hm)
      · cases hm : m.isFinite
        · rw [updateFilter_nonfinite N u m frameId hm]
          simp [hi, FloatVal.isFinite]
        · exact updateFilter_finite_isFinite N u m frameId hm
      · exact updateFilter_finite_isFinite N u m frameId hm
  · rintro ⟨hi, hm⟩
    rw [updateFilter_nonfinite N u m frameId hm]
    simp [hi]

/-- C1 (counterexample): a freshly constructed estimator handed a NaN at frame 0 returns
the NaN, which is not a finite value. -/
theorem updateFilter_returns_nan_when_uninitialized :
    (updateFilter refNumerics new FloatVal.nan 0).1 = FloatVal.nan ∧
      (updateFilter refNumerics new FloatVal.nan 0).1.isFinite = false := by
  have h := updateFilter_nonfinite refNumerics new FloatVal.nan 0 rfl
  have hi : new.initialized = false := rfl
  rw [h]
  simp [hi, FloatVal.isFinite]

/-! ### The first measurement -/

theorem updateFilter_first (N : Numerics) (u : EnhancedXAxisUKF) (q : ℚ) (frameId : ℤ)
    (hi : u.initialized = false) :
    updateFilter N u (FloatVal.finite q) frameId =
      (FloatVal.finite (clamp 0 1920 q),
        { u with
          currentTimestamp := (frameId : ℚ) * dt
          state := ![clamp 0 1920 q, 0, 0, 0]
          initialized := true
          lastX := clamp 0 1920 q
          measurementHistory := u.measurementHistory ++ [clamp 0 1920 q]
          positionHistory := u.positionHistory ++ [clamp 0 1920 q] }) := by
  simp [updateFilter, bootstrap, FloatVal.isNan, FloatVal.isInf, FloatVal.toRat, hi]

theorem trackingAt960_eq :
    trackingAt960 =
      { new with
        state := ![960, 0, 0, 0]
        initialized := true
        lastX := 960
        measurementHistory := [960]
        positionHistory := [960] } := by
  have h := updateFilter_first refNumerics new 960 0 rfl
  have hc : clamp 0 1920 (960 : ℚ) = 960 := by norm_num [clamp]
  rw [hc] at h
  rw [trackingAt960, h]
  simp [new, initializeWeights]

/-- C2 (as amended): on an initialized estimator a NaN or infinite measurement makes
`updateFilter` return the prior position `state(0)` and changes nothing in the estimator
except `currentTimestamp`, which becomes `frameId * dt`. -/
theorem updateFilter_rejects_nonfinite (N : Numerics) (u : EnhancedXAxisUKF) (m : FloatVal)
    (frameId : ℤ) (hi : u.initialized = true) (hm : m.isFinite = false) :
    updateFilter N u m frameId =
      (FloatVal.finite (u.state 0), { u with currentTimestamp := (frameId : ℚ) * dt }) := by
  rw [updateFilter_nonfinite N u m frameId hm]
  simp [hi]

/-- Witness for C2: the estimator that saw 960 at frame 0, handed +Inf at frame 7. -/
theorem updateFilter_rejects_nonfinite_witness :
    trackingAt960.initialized = true ∧ FloatVal.posInf.isFinite = false ∧
      updateFilter refNumerics trackingAt960 FloatVal.posInf 7 =
        (FloatVal.finite (trackingAt960.state 0),
          { trackingAt960 with currentTimestamp := ((7 : ℤ) : ℚ) * dt }) :=
  ⟨by rw [trackingAt960_eq], rfl,
    updateFilter_rejects_nonfinite refNumerics trackingAt960 FloatVal.posInf 7
      (by rw [trackingAt960_eq]) rfl⟩

/-- C2 (counterexample): the estimator that saw 960 at frame 0 has timestamp 0; a NaN at
frame 1 moves its `currentTimestamp` to 1/60, so the estimator is not left unchanged. -/
theorem updateFilter_nonfinite_moves_timestamp :
    trackingAt960.initialized = true ∧ trackingAt960.currentTimestamp = 0 ∧
      (updateFilter refNumerics trackingAt960 FloatVal.nan 1).2.currentTimestamp = 1 / 60 ∧
      (updateFilter refNumerics trackingAt960 FloatVal.nan 1).2 ≠ trackingAt960 := by
  have h := updateFilter_nonfinite refNumerics trackingAt960 FloatVal.nan 1 rfl
  have h0 : trackingAt960.currentTimestamp = 0 := by
    rw [trackingAt960_eq]; simp [new, initializeWeights]
  have h1 : (updateFilter refNumerics trackingAt960 FloatVal.nan 1).2.currentTimestamp = 1 / 60 := by
    rw [h]; norm_num [dt]
  refine ⟨by rw [trackingAt960_eq], h0, h1, ?_⟩
  intro hc
  rw [hc, h0] at h1
  norm_num at h1

/-! ### The large-jump branch -/

theorem updateFilter_largeJump (N : Numerics) (u : EnhancedXAxisUKF) (q : ℚ) (frameId : ℤ)
    (hi : u.initialized = true) (hj : |clamp 0 1920 q - u.lastX| > 120) :
    (updateFilter N u (FloatVal.finite q) frameId).1 =
        FloatVal.finite (clamp 0 1920 q * (4 / 10) + u.state 0 * (6 / 10)) ∧
      (updateFilter N u (FloatVal.finite q) frameId).2.state 0 =
        clamp 0 1920 q * (4 / 10) + u.state 0 * (6 / 10) ∧
      (updateFilter N u (FloatVal.finite q) frameId).2.lastX = clamp 0 1920 q ∧
      (updateFilter N u (FloatVal.finite q) frameId).2.initialized = true := by
  have hj2 : |clamp 0 1920 q - u.lastX| > 120 := hj
  simp only [updateFilter, FloatVal.isNan, FloatVal.isInf, FloatVal.toRat, hi, Bool.or_self,
    Bool.false_eq_true, if_false, Bool.not_true, hj2, if_true, largeJumpBranch, handleLargeJump,
    updateHistory, updateDetectors]
  split_ifs <;> simp

theorem clamp_of_mem {lo hi x : ℚ} (h1 : lo ≤ x) (h2 : x ≤ hi) : clamp lo hi x = x := by
  simp [clamp, h1, h2]

theorem jumpedTo1000_facts :
    jumpedTo1000.initialized = true ∧ jumpedTo1000.state 0 = 400 ∧ jumpedTo1000.lastX = 1000 := by
  have h1 := updateFilter_first refNumerics new 0 0 rfl
  have c0 : clamp 0 1920 (0 : ℚ) = 0 := clamp_of_mem (by norm_num) (by norm_num)
  have c1 : clamp 0 1920 (1000 : ℚ) = 1000 := clamp_of_mem (by norm_num) (by norm_num)
  rw [c0] at h1
  have hi : (updateFilter refNumerics new (FloatVal.finite 0) 0).2.initialized = true := by
    rw [h1]
  have hl : (updateFilter refNumerics new (FloatVal.finite 0) 0).2.lastX = 0 := by rw [h1]
  have hs : (updateFilter refNumerics new (FloatVal.finite 0) 0).2.state 0 = 0 := by
    rw [h1]; simp
  have hj : |clamp 0 1920 (1000 : ℚ)
      - (updateFilter refNumerics new (FloatVal.finite 0) 0).2.lastX| > 120 := by
    rw [hl, c1]; norm_num
  obtain ⟨-, h3, h4, h5⟩ := updateFilter_largeJump refNumerics _ 1000 1 hi hj
  rw [c1, hs] at h3
  rw [c1] at h4
  refine ⟨h5, ?_, h4⟩
  rw [jumpedTo1000, h3]
  norm_num

/-- C3 (as amended): on an initialized estimator with prior position `s0`, a finite
measurement whose clamped value `m` is more than 120 away from `lastX` makes `updateFilter`
return `r = 0.4 * m + 0.6 * s0`, so that `|r - s0| = 0.4 * |m - s0|`: the output moves by the
0.4 blend fraction of the distance from the prior estimate to the measurement. It moves by at
most `0.4 * |m - lastX|` whenever `s0` is no farther from `m` than `lastX` is. -/
theorem updateFilter_jump_blend (N : Numerics) (u : EnhancedXAxisUKF) (q : ℚ) (frameId : ℤ)
    (hi : u.initialized = true) (hj : |clamp 0 1920 q - u.lastX| > 120) :
    ∃ r : ℚ, (updateFilter N u (FloatVal.finite q) frameId).1 = FloatVal.finite r ∧
      r = 4 / 10 * clamp 0 1920 q + 6 / 10 * u.state 0 ∧
      |r - u.state 0| = 4 / 10 * |clamp 0 1920 q - u.state 0| ∧
      (|clamp 0 1920 q - u.state 0| ≤ |clamp 0 1920 q - u.lastX| →
        |r - u.state 0| ≤ 4 / 10 * |clamp 0 1920 q - u.lastX|) := by
  obtain ⟨h1, -, -, -⟩ := updateFilter_largeJump N u q frameId hi hj
  have habs : |4 / 10 * clamp 0 1920 q + 6 / 10 * u.state 0 - u.state 0| =
      4 / 10 * |clamp 0 1920 q - u.state 0| := by
    have : 4 / 10 * clamp 0 1920 q + 6 / 10 * u.state 0 - u.state 0 =
        4 / 10 * (clamp 0 1920 q - u.state 0) := by ring
    rw [this, abs_mul]
    norm_num
  refine ⟨4 / 10 * clamp 0 1920 q + 6 / 10 * u.state 0, ?_, rfl, habs, ?_⟩
  · rw [h1]; congr 1; ring
  · intro hle
    rw [habs]
    linarith

/-- Witness for C3: the estimator that saw 960 at frame 0, handed 1200 at frame 1. -/
theorem updateFilter_jump_blend_witness :
    trackingAt960.initialized = true ∧ |clamp 0 1920 1200 - trackingAt960.lastX| > 120 ∧
      ∃ r : ℚ, (updateFilter refNumerics trackingAt960 (FloatVal.finite 1200) 1).1 =
          FloatVal.finite r ∧
        r = 4 / 10 * clamp 0 1920 1200 + 6 / 10 * trackingAt960.state 0 ∧
        |r - trackingAt960.state 0| = 4 / 10 * |clamp 0 1920 1200 - trackingAt960.state 0| ∧
        (|clamp 0 1920 1200 - trackingAt960.state 0| ≤ |clamp 0 1920 1200 - trackingAt960.lastX| →
          |r - trackingAt960.state 0| ≤ 4 / 10 * |clamp 0 1920 1200 - trackingAt960.lastX|) :=
  have hj : |clamp 0 1920 1200 - trackingAt960.lastX| > 120 := by
    rw [trackingAt960_eq, clamp_of_mem (by norm_num) (by norm_num)]
    norm_num
  ⟨by rw [trackingAt960_eq], hj,
    updateFilter_jump_blend refNumerics trackingAt960 1200 1 (by rw [trackingAt960_eq]) hj⟩

/-- C3 (counterexample): after the measurements 0 (frame 0) and 1000 (frame 1) the estimator
holds `state(0) = 400` and `lastX = 1000`. The measurement 1200 at frame 2 is a jump of
200 > 120 and `updateFilter` returns 720: the output moved by 320, more than
`0.4 * 200 = 80`. -/
theorem updateFilter_jump_exceeds_blend_of_raw_jump :
    jumpedTo1000.initialized = true ∧ jumpedTo1000.state 0 = 400 ∧ jumpedTo1000.lastX = 1000 ∧
      |(1200 : ℚ) - jumpedTo1000.lastX| > 120 ∧
      (updateFilter refNumerics jumpedTo1000 (FloatVal.finite 1200) 2).1 = FloatVal.finite 720 ∧
      ¬ (|(720 : ℚ) - jumpedTo1000.state 0| ≤ 4 / 10 * |(1200 : ℚ) - jumpedTo1000.lastX|) := by
  obtain ⟨hi, hs, hl⟩ := jumpedTo1000_facts
  have c : clamp 0 1920 (1200 : ℚ) = 1200 := clamp_of_mem (by norm_num) (by norm_num)
  have hj : |clamp 0 1920 (1200 : ℚ) - jumpedTo1000.lastX| > 120 := by
    rw [hl, c]; norm_num
  obtain ⟨h1, -, -, -⟩ := updateFilter_largeJump refNumerics jumpedTo1000 1200 2 hi hj
  rw [c, hs] at h1
  refine ⟨hi, hs, hl, ?_, ?_, ?_⟩
  · rw [hl]; norm_num
  · rw [h1]; norm_num
  · rw [hs, hl]; norm_num

/-! ### Forward prediction leaves the estimator alone -/

theorem setFlag_setFlag (u : EnhancedXAxisUKF) (a b : Bool) :
    ({ ({ u with isPredictingFuture := a } : EnhancedXAxisUKF) with isPredictingFuture := b } :
      EnhancedXAxisUKF) = { u with isPredictingFuture := b } := rfl

theorem setFlag_self (u : EnhancedXAxisUKF) (b : Bool) (h : u.isPredictingFuture = b) :
    ({ u with isPredictingFuture := b } : EnhancedXAxisUKF) = u := by
  cases u
  simp_all

theorem predictWithUncertainty_state (N : Numerics) (u : EnhancedXAxisUKF) (n : ℤ) :
    (predictWithUncertainty N u n).2 =
      if u.initialized then { u with isPredictingFuture := false } else u := by
  unfold predictWithUncertainty
  cases u.initialized <;> simp

theorem predictTrajectory_state (N : Numerics) (u : EnhancedXAxisUKF) (n : ℤ) :
    (predictTrajectory N u n).2 =
      if u.initialized then { u with isPredictingFuture := false } else u := by
  unfold predictTrajectory
  cases u.initialized <;> simp

theorem predictFutureX_state (N : Numerics) (u : EnhancedXAxisUKF) (n : ℤ) :
    (predictFutureX N u n).2 =
      if u.initialized then { u with isPredictingFuture := false } else u := by
  unfold predictFutureX
  cases u.initialized <;> simp

/-- C4: forward prediction is side-effect free. For every estimator between calls (its
`isPredictingFuture` flag is false) and every step count `n`, the estimator after
`predictWithUncertainty(n)`, `predictTrajectory(n)` or `predictFutureX(n)` equals the
estimator before the call, field by field: state vector, `P`, `Q`, `R`, sigma weights, history
buffers, detectors, `initialized` and `isPredictingFuture`. -/
theorem prediction_side_effect_free (N : Numerics) (u : EnhancedXAxisUKF) (n : ℤ)
    (hf : u.isPredictingFuture = false) :
    (predictWithUncertainty N u n).2 = u ∧ (predictTrajectory N u n).2 = u ∧
      (predictFutureX N u n).2 = u := by
  rw [predictWithUncertainty_state, predictTrajectory_state, predictFutureX_state]
  have h := setFlag_self u false hf
  split_ifs <;> simp [h]

/-- Witness for C4: five prediction steps on the estimator that saw 960 at frame 0. -/
theorem prediction_side_effect_free_witness :
    trackingAt960.isPredictingFuture = false ∧
      (predictWithUncertainty refNumerics trackingAt960 5).2 = trackingAt960 ∧
      (predictTrajectory refNumerics trackingAt960 5).2 = trackingAt960 ∧
      (predictFutureX refNumerics trackingAt960 5).2 = trackingAt960 :=
  ⟨by rw [trackingAt960_eq]; rfl,
    prediction_side_effect_free refNumerics trackingAt960 5 (by rw [trackingAt960_eq]; rfl)⟩

/-- C5: prediction is idempotent. For every estimator and every `n`, calling
`predictWithUncertainty(n)` (likewise `predictTrajectory(n)`, `predictFutureX(n)`) a second
time, on the estimator the first call left behind, returns the same sequence as the first
call: same length, same positions and same uncertainties. -/
theorem prediction_idempotent (N : Numerics) (u : EnhancedXAxisUKF) (n : ℤ) :
    (predictWithUncertainty N (predictWithUncertainty N u n).2 n).1 =
        (predictWithUncertainty N u n).1 ∧
      (predictTrajectory N (predictTrajectory N u n).2 n).1 = (predictTrajectory N u n).1 ∧
      (predictFutureX N (predictFutureX N u n).2 n).1 = (predictFutureX N u n).1 := by
  rw [predictWithUncertainty_state, predictTrajectory_state, predictFutureX_state]
  cases hi : u.initialized
  · simp
  · simp only [if_true]
    refine ⟨?_, ?_, ?_⟩
    · simp only [predictWithUncertainty, hi, Bool.not_true, Bool.false_eq_true, if_false,
        setFlag_setFlag]
    · simp only [predictTrajectory, hi, Bool.not_true, Bool.false_eq_true, if_false,
        setFlag_setFlag]
    · simp only [predictFutureX, hi, Bool.not_true, Bool.false_eq_true, if_false,
        setFlag_setFlag]

/-! ### Open-loop covariance propagation -/

theorem jacobian_nonneg (x : Vec4) : EntrywiseNonneg (computeStateTransitionJacobian x) := by
  intro i j
  fin_cases i <;> fin_cases j <;>
    simp [computeStateTransitionJacobian, dt, Matrix.vecHead, Matrix.vecTail] <;> norm_num

theorem mul_entrywiseNonneg {A B : Mat4} (hA : EntrywiseNonneg A) (hB : EntrywiseNonneg B) :
    EntrywiseNonneg (A * B) := by
  intro i j
  rw [Matrix.mul_apply]
  exact Finset.sum_nonneg (fun k _ => mul_nonneg (hA i k) (hB k j))

theorem propagateCovariance_nonneg (u : EnhancedXAxisUKF) (x : Vec4) (P : Mat4)
    (hP : EntrywiseNonneg P) (hQ : EntrywiseNonneg u.Q) :
    EntrywiseNonneg (propagateCovariance u x P) := by
  intro i j
  have hF := jacobian_nonneg x
  have hFt : EntrywiseNonneg (computeStateTransitionJacobian x).transpose := fun a b => hF b a
  have h := mul_entrywiseNonneg (mul_entrywiseNonneg hF hP) hFt i j
  have hq := hQ i j
  simp only [propagateCovariance, Matrix.add_apply]
  linarith

theorem propagateCovariance_zero_zero (u : EnhancedXAxisUKF) (x : Vec4) (P : Mat4) :
    propagateCovariance u x P 0 0 =
      P 0 0 + dt * (P 0 1 + P 1 0) + dt ^ 2 * P 1 1 + dt ^ 2 / 2 * (P 0 2 + P 2 0)
        + dt ^ 3 / 2 * (P 1 2 + P 2 1) + dt ^ 3 / 6 * (P 0 3 + P 3 0) + dt ^ 4 / 4 * P 2 2
        + dt ^ 4 / 6 * (P 1 3 + P 3 1) + dt ^ 5 / 12 * (P 2 3 + P 3 2) + dt ^ 6 / 36 * P 3 3
        + u.Q 0 0 := by
  simp only [propagateCovariance, computeStateTransitionJacobian, Matrix.add_apply,
    Matrix.mul_apply, Matrix.transpose_apply, Fin.sum_univ_four]
  simp
  ring

theorem propagateCovariance_zero_zero_ge (u : EnhancedXAxisUKF) (x : Vec4) (P : Mat4)
    (hP : EntrywiseNonneg P) (hQ : EntrywiseNonneg u.Q) :
    P 0 0 ≤ propagateCovariance u x P 0 0 := by
  rw [propagateCovariance_zero_zero]
  have hdt : (0 : ℚ) ≤ dt := by norm_num [dt]
  have h01 := hP 0 1
  have h10 := hP 1 0
  have h11 := hP 1 1
  have h02 := hP 0 2
  have h20 := hP 2 0
  have h12 := hP 1 2
  have h21 := hP 2 1
  have h03 := hP 0 3
  have h30 := hP 3 0
  have h22 := hP 2 2
  have h13 := hP 1 3
  have h31 := hP 3 1
  have h23 := hP 2 3
  have h32 := hP 3 2
  have h33 := hP 3 3
  have hq := hQ 0 0
  have := hP 0 0
  simp only [dt]
  linarith

theorem predictWithUncertaintyLoop_acc (N : Numerics) (u : EnhancedXAxisUKF) :
    ∀ (k : ℕ) (st : Vec4) (P : Mat4) (acc : List PredictionWithUncertainty),
      predictWithUncertaintyLoop N u k st P acc =
        acc ++ predictWithUncertaintyLoop N u k st P [] := by
  intro k
  induction k with
  | zero => intro st P acc; simp [predictWithUncertaintyLoop]
  | succ k ih =>
    intro st P acc
    simp only [predictWithUncertaintyLoop]
    rw [ih _ _ (acc ++ _), ih _ _ ([] ++ _)]
    simp

theorem predictWithUncertaintyLoop_length (N : Numerics) (u : EnhancedXAxisUKF) :
    ∀ (k : ℕ) (st : Vec4) (P : Mat4), (predictWithUncertaintyLoop N u k st P []).length = k := by
  intro k
  induction k with
  | zero => intro st P; simp [predictWithUncertaintyLoop]
  | succ k ih =>
    intro st P
    simp only [predictWithUncertaintyLoop]
    rw [predictWithUncertaintyLoop_acc, List.length_append, ih]
    simp
    omega

theorem sqrtVal_le_sqrtVal (N : Numerics) (hs : SqrtMonotone N) {a b : ℚ} (ha : 0 ≤ a)
    (hab : a ≤ b) : FloatVal.le (sqrtVal N a) (sqrtVal N b) := by
  have hb : 0 ≤ b := le_trans ha hab
  simp only [sqrtVal, not_lt.mpr ha, not_lt.mpr hb, if_false, FloatVal.le]
  exact hs a b ha hab

theorem predictWithUncertaintyLoop_chain (N : Numerics) (u : EnhancedXAxisUKF)
    (hs : SqrtMonotone N) (hQ : EntrywiseNonneg u.Q) :
    ∀ (k : ℕ) (st : Vec4) (P : Mat4), EntrywiseNonneg P →
      List.Chain FloatVal.le (sqrtVal N (P 0 0))
        (uncertainties (predictWithUncertaintyLoop N u k st P [])) := by
  intro k
  induction k with
  | zero => intro st P _; simp [predictWithUncertaintyLoop, uncertainties]
  | succ k ih =>
    intro st P hP
    simp only [predictWithUncertaintyLoop]
    rw [predictWithUncertaintyLoop_acc]
    simp only [uncertainties, List.nil_append, List.map_append, List.map_cons, List.map_nil,
      List.singleton_append, List.chain_cons]
    refine ⟨sqrtVal_le_sqrtVal N hs (hP 0 0) (propagateCovariance_zero_zero_ge u _ P hP hQ), ?_⟩
    exact ih _ _ (propagateCovariance_nonneg u _ P hP hQ)

/-- C6 (as amended): monotonic uncertainty for covariances without negative entries. For
every initialized estimator whose `P` and `Q` have no negative entry (in particular the
diagonal `P` of a constructed or reset estimator) and every `n`, `predictWithUncertainty(n)`
returns `n` predictions whose uncertainties `u_1 .. u_n` satisfy `sqrt(P(0,0)) <= u_1` and
`u_i <= u_(i+1)` for all `i`. -/
theorem predictWithUncertainty_monotone (N : Numerics) (u : EnhancedXAxisUKF) (n : ℤ)
    (hs : SqrtMonotone N) (hi : u.initialized = true) (hP : EntrywiseNonneg u.P)
    (hQ : EntrywiseNonneg u.Q) :
    (predictWithUncertainty N u n).1.length = n.toNat ∧
      List.Chain FloatVal.le (sqrtVal N (u.P 0 0))
        (uncertainties (predictWithUncertainty N u n).1) := by
  unfold predictWithUncertainty
  rw [if_neg (by simp [hi])]
  exact ⟨predictWithUncertaintyLoop_length N _ _ _ _,
    predictWithUncertaintyLoop_chain N { u with isPredictingFuture := true } hs hQ _ _ _ hP⟩

theorem sqrtFixed_monotone : SqrtMonotone refNumerics := by
  intro a b _ hab
  show sqrtFixed a ≤ sqrtFixed b
  unfold sqrtFixed
  have h1 : ⌊a * 1000000000000⌋ ≤ ⌊b * 1000000000000⌋ :=
    Int.floor_le_floor (by linarith)
  have h2 : ⌊a * 1000000000000⌋.toNat ≤ ⌊b * 1000000000000⌋.toNat := Int.toNat_le_toNat h1
  have h3 := Nat.sqrt_le_sqrt h2
  have h4 : ((Nat.sqrt ⌊a * 1000000000000⌋.toNat : ℕ) : ℚ) ≤
      ((Nat.sqrt ⌊b * 1000000000000⌋.toNat : ℕ) : ℚ) := by exact_mod_cast h3
  exact div_le_div_of_nonneg_right h4 (by norm_num)

theorem diagonal_entrywiseNonneg (d : Vec4) (hd : ∀ i, 0 ≤ d i) :
    EntrywiseNonneg (Matrix.diagonal d) := by
  intro i j
  by_cases h : i = j
  · subst h; simpa using hd i
  · simp [Matrix.diagonal_apply_ne _ h]

theorem trackingAt960_P : trackingAt960.P = Matrix.diagonal ![25, 100, 400, 1600] := by
  rw [trackingAt960_eq]; rfl

theorem trackingAt960_Q : trackingAt960.Q = Matrix.diagonal ![1 / 2, 10, 50, 200] := by
  rw [trackingAt960_eq]; rfl

theorem trackingAt960_P_nonneg : EntrywiseNonneg trackingAt960.P := by
  rw [trackingAt960_P]
  apply diagonal_entrywiseNonneg
  intro i
  fin_cases i <;> simp

theorem trackingAt960_Q_nonneg : EntrywiseNonneg trackingAt960.Q := by
  rw [trackingAt960_Q]
  apply diagonal_entrywiseNonneg
  intro i
  fin_cases i <;> simp

/-- Witness for C6: three prediction steps from the diagonal covariance of a new estimator. -/
theorem predictWithUncertainty_monotone_witness :
    SqrtMonotone refNumerics ∧ trackingAt960.initialized = true ∧
      EntrywiseNonneg trackingAt960.P ∧ EntrywiseNonneg trackingAt960.Q ∧
      (predictWithUncertainty refNumerics trackingAt960 3).1.length = (3 : ℤ).toNat ∧
      List.Chain FloatVal.le (sqrtVal refNumerics (trackingAt960.P 0 0))
        (uncertainties (predictWithUncertainty refNumerics trackingAt960 3).1) :=
  ⟨sqrtFixed_monotone, by rw [trackingAt960_eq], trackingAt960_P_nonneg, trackingAt960_Q_nonneg,
    predictWithUncertainty_monotone refNumerics trackingAt960 3 sqrtFixed_monotone
      (by rw [trackingAt960_eq]) trackingAt960_P_nonneg trackingAt960_Q_nonneg⟩

theorem sqrtFixed_hundred : sqrtFixed 100 = 10 := by
  have h : ⌊(100 : ℚ) * 1000000000000⌋ = ((100000000000000 : ℕ) : ℤ) := by
    rw [show (100 : ℚ) * 1000000000000 = ((100000000000000 : ℤ) : ℚ) by norm_num,
      Int.floor_intCast]
    rfl
  have hs : Nat.sqrt 100000000000000 = 10000000 := by
    rw [show (100000000000000 : ℕ) = 10000000 * 10000000 by norm_num, Nat.sqrt_eq]
  rw [sqrtFixed, h, Int.toNat_natCast, hs]
  norm_num

theorem sqrtFixed_lt_ten {x : ℚ} (hx : x < 100) : sqrtFixed x < 10 := by
  have h1 : ⌊x * 1000000000000⌋ < (100000000000000 : ℤ) := by
    rw [Int.floor_lt]
    push_cast
    linarith
  have h2 : ⌊x * 1000000000000⌋.toNat < 100000000000000 := by
    omega
  have h3 : Nat.sqrt ⌊x * 1000000000000⌋.toNat < 10000000 := by
    rw [Nat.sqrt_lt]
    omega
  have h4 : ((Nat.sqrt ⌊x * 1000000000000⌋.toNat : ℕ) : ℚ) < 10000000 := by exact_mod_cast h3
  unfold sqrtFixed
  rw [div_lt_iff₀ (by norm_num)]
  linarith

theorem diagFloor_values :
    diagFloor 0 = 1 ∧ diagFloor 1 = 10 ∧ diagFloor 2 = 50 ∧ diagFloor 3 = 200 :=
  ⟨rfl, rfl, rfl, rfl⟩

theorem correlatedEstimator_P :
    correlatedEstimator.P = !![100, -300, 0, 0; -300, 1000, 0, 0; 0, 0, 50, 0; 0, 0, 0, 200] :=
  rfl

theorem correlatedEstimator_posSemidef : PosSemidef correlatedEstimator.P := by
  intro x
  rw [correlatedEstimator_P]
  simp [Matrix.dotProduct, Matrix.mulVec, Fin.sum_univ_four, Matrix.vecHead, Matrix.vecTail]
  nlinarith [sq_nonneg (x 0 - 3 * x 1), sq_nonneg (x 1), sq_nonneg (x 2), sq_nonneg (x 3)]

/-- C6 (counterexample): an initialized estimator whose covariance is symmetric, positive
semi-definite and has its diagonal inside the configured floors and ceilings, with
`P(0,0) = 100` and `P(0,1) = P(1,0) = -300`. One open-loop step gives the position variance
`762359048101/8398080000` (about 90.78) `< 100`, so the first uncertainty is below
`sqrt(P(0,0)) = 10`. -/
theorem predictWithUncertainty_shrinks_with_negative_correlation :
    correlatedEstimator.initialized = true ∧
      correlatedEstimator.P.transpose = correlatedEstimator.P ∧
      PosSemidef correlatedEstimator.P ∧ DiagonalInRange correlatedEstimator.P ∧
      propagateCovariance correlatedEstimator correlatedEstimator.state correlatedEstimator.P 0 0
        = 762359048101 / 8398080000 ∧
      sqrtVal refNumerics (correlatedEstimator.P 0 0) = FloatVal.finite 10 ∧
      ∃ v : ℚ, uncertainties (predictWithUncertainty refNumerics correlatedEstimator 1).1 =
          [FloatVal.finite v] ∧ v < 10 ∧
        ¬ FloatVal.le (sqrtVal refNumerics (correlatedEstimator.P 0 0)) (FloatVal.finite v) := by
  have hi : correlatedEstimator.initialized = true := by
    rw [correlatedEstimator, trackingAt960_eq]
  have hQ : correlatedEstimator.Q = Matrix.diagonal ![1 / 2, 10, 50, 200] := by
    rw [correlatedEstimator, trackingAt960_eq]; rfl
  have hvar : ∀ (u : EnhancedXAxisUKF) (x : Vec4), u.Q = correlatedEstimator.Q →
      propagateCovariance u x correlatedEstimator.P 0 0 = 762359048101 / 8398080000 := by
    intro u x hu
    rw [propagateCovariance_zero_zero, hu, hQ, correlatedEstimator_P]
    simp [dt, Matrix.vecHead, Matrix.vecTail]
    norm_num
  have h10 : sqrtVal refNumerics (correlatedEstimator.P 0 0) = FloatVal.finite 10 := by
    rw [correlatedEstimator_P]
    simp [sqrtVal, refNumerics, sqrtFixed_hundred]
  refine ⟨hi, ?_, correlatedEstimator_posSemidef, ?_, hvar _ _ rfl, h10, ?_⟩
  · rw [correlatedEstimator_P]
    ext i j
    fin_cases i <;> fin_cases j <;> rfl
  · intro i
    rw [correlatedEstimator_P]
    obtain ⟨f0, f1, f2, f3⟩ := diagFloor_values
    fin_cases i
    · show diagFloor 0 ≤ _ ∧ _ ≤ diagFloor 0 * 100
      rw [f0]; norm_num
    · show diagFloor 1 ≤ _ ∧ _ ≤ diagFloor 1 * 100
      rw [f1]; norm_num
    · show diagFloor 2 ≤ _ ∧ _ ≤ diagFloor 2 * 100
      rw [f2]; norm_num
    · show diagFloor 3 ≤ _ ∧ _ ≤ diagFloor 3 * 100
      rw [f3]; norm_num
  · refine ⟨sqrtFixed (762359048101 / 8398080000), ?_, sqrtFixed_lt_ten (by norm_num), ?_⟩
    · unfold predictWithUncertainty
      rw [if_neg (by simp [hi])]
      simp only [Int.toNat_one, predictWithUncertaintyLoop, uncertainties, List.nil_append,
        List.map_cons, List.map_nil]
      rw [hvar { correlatedEstimator with isPredictingFuture := true } _ rfl]
      simp [sqrtVal, refNumerics]
      norm_num
    · rw [h10]
      simp only [FloatVal.le, not_le]
      exact sqrtFixed_lt_ten (by norm_num)

/-! ### Predicted positions stay inside the screen -/

theorem diagonal_posSemidef (d : Vec4) (hd : ∀ i, 0 ≤ d i) : PosSemidef (Matrix.diagonal d) := by
  intro x
  simp only [Matrix.dotProduct, Matrix.mulVec_diagonal]
  apply Finset.sum_nonneg
  intro i _
  nlinarith [hd i, mul_self_nonneg (x i), mul_nonneg (hd i) (mul_self_nonneg (x i))]

theorem sqrtFixed_nonneg : SqrtNonneg refNumerics := by
  intro a _
  show 0 ≤ sqrtFixed a
  unfold sqrtFixed
  positivity

/-- The hypothesis on `P` in `predictions_in_range` cannot be dropped. The covariance of
`indefiniteEstimator`, assembled by hand and not reached through the estimator's methods,
is symmetric with its diagonal inside the configured ranges but indefinite: `P(0,0) = 1`,
`P(1,1) = 1000`, `P(0,1) = P(1,0) = -1000`. One open-loop step gives a negative position
variance (about -31.6), and `predictWithUncertainty(1)` returns the `sqrt` of it: a NaN. -/
theorem predictWithUncertainty_nan_uncertainty :
    indefiniteEstimator.initialized = true ∧
      indefiniteEstimator.P.transpose = indefiniteEstimator.P ∧
      DiagonalInRange indefiniteEstimator.P ∧
      propagateCovariance indefiniteEstimator indefiniteEstimator.state indefiniteEstimator.P 0 0
        < 0 ∧
      uncertainties (predictWithUncertainty refNumerics indefiniteEstimator 1).1 =
        [FloatVal.nan] ∧
      ¬ FloatVal.nan.nonneg := by
  have hi : indefiniteEstimator.initialized = true := by
    rw [indefiniteEstimator, trackingAt960_eq]
  have hQ : indefiniteEstimator.Q = Matrix.diagonal ![1 / 2, 10, 50, 200] := by
    rw [indefiniteEstimator, trackingAt960_eq]; rfl
  have hP : indefiniteEstimator.P =
      !![1, -1000, 0, 0; -1000, 1000, 0, 0; 0, 0, 50, 0; 0, 0, 0, 200] := rfl
  have hvar : ∀ (u : EnhancedXAxisUKF) (x : Vec4), u.Q = indefiniteEstimator.Q →
      propagateCovariance u x indefiniteEstimator.P 0 0 < 0 := by
    intro u x hu
    rw [propagateCovariance_zero_zero, hu, hQ, hP]
    simp [dt, Matrix.vecHead, Matrix.vecTail]
    norm_num
  refine ⟨hi, ?_, ?_, hvar _ _ rfl, ?_, ?_⟩
  · rw [hP]
    ext i j
    fin_cases i <;> fin_cases j <;> rfl
  · intro i
    rw [hP]
    obtain ⟨f0, f1, f2, f3⟩ := diagFloor_values
    fin_cases i
    · show diagFloor 0 ≤ _ ∧ _ ≤ diagFloor 0 * 100
      rw [f0]; norm_num
    · show diagFloor 1 ≤ _ ∧ _ ≤ diagFloor 1 * 100
      rw [f1]; norm_num
    · show diagFloor 2 ≤ _ ∧ _ ≤ diagFloor 2 * 100
      rw [f2]; norm_num
    · show diagFloor 3 ≤ _ ∧ _ ≤ diagFloor 3 * 100
      rw [f3]; norm_num
  · unfold predictWithUncertainty
    rw [if_neg (by simp [hi])]
    simp only [Int.toNat_one, predictWithUncertaintyLoop, uncertainties, List.nil_append,
      List.map_cons, List.map_nil]
    have h := hvar { indefiniteEstimator with isPredictingFuture := true }
      (stateTransitionForPrediction refNumerics
        { indefiniteEstimator with isPredictingFuture := true } indefiniteEstimator.state) rfl
    simp only [sqrtVal, h, if_true]
  · simp [FloatVal.nonneg]

end EnhancedXAxisUKF

/-! ### The ordered map -/

namespace IntMap

variable {α : Type}

theorem find_insert_self (k : ℤ) (v : α) (m : IntMap α) : find k (insert k v m) = some v := by
  induction m with
  | nil => simp [insert, find]
  | cons e rest ih =>
    obtain ⟨k1, v1⟩ := e
    simp only [insert]
    split_ifs with h1 h2
    · simp [find]
    · simp [find]
    · have hne : k ≠ k1 := h2
      simp [find, hne, ih]

theorem find_insert_of_ne (k j : ℤ) (v : α) (m : IntMap α) (h : j ≠ k) :
    find j (insert k v m) = find j m := by
  induction m with
  | nil => simp [insert, find, h]
  | cons e rest ih =>
    obtain ⟨k1, v1⟩ := e
    simp only [insert]
    split_ifs with h1 h2
    · simp [find, h]
    · subst h2
      simp [find, h]
    · simp [find, ih]

theorem length_insert_le (k : ℤ) (v : α) (m : IntMap α) :
    (insert k v m).length ≤ m.length + 1 := by
  induction m with
  | nil => simp [insert]
  | cons e rest ih =>
    obtain ⟨k1, v1⟩ := e
    simp only [insert]
    split_ifs <;> first | (simp; done) | (simp; omega)

theorem find_eq_none_of_lt_head (k : ℤ) (m : IntMap α) (hm : Ordered m)
    (h : ∀ e ∈ m, k < e.1) : find k m = none := by
  induction m with
  | nil => simp [find]
  | cons e rest ih =>
    obtain ⟨k1, v1⟩ := e
    have h1 : k < k1 := h (k1, v1) (List.mem_cons_self _ _)
    have hne : k ≠ k1 := ne_of_lt h1
    simp only [find, hne, if_false]
    exact ih (List.Pairwise.of_cons hm) (fun e he => h e (List.mem_cons_of_mem _ he))

theorem length_insert_of_find (k : ℤ) (v : α) (m : IntMap α) (hm : Ordered m)
    (h : (find k m).isSome = true) : (insert k v m).length = m.length := by
  induction m with
  | nil => simp [find] at h
  | cons e rest ih =>
    obtain ⟨k1, v1⟩ := e
    have hrest : Ordered rest := List.Pairwise.of_cons hm
    simp only [insert]
    split_ifs with h1 h2
    · exfalso
      have hnone : find k ((k1, v1) :: rest) = none := by
        apply find_eq_none_of_lt_head k _ hm
        intro e he
        rcases List.mem_cons.mp he with he | he
        · rw [he]; exact h1
        · exact lt_trans h1 (List.rel_of_pairwise_cons hm he)
      rw [hnone] at h
      simp at h
    · simp
    · have hne : k ≠ k1 := h2
      simp only [find, hne, if_false] at h
      simp [ih hrest h]

theorem mem_insert (k : ℤ) (v : α) (m : IntMap α) (e : ℤ × α) (he : e ∈ insert k v m) :
    e = (k, v) ∨ e ∈ m := by
  induction m with
  | nil => simpa [insert] using he
  | cons e1 rest ih =>
    obtain ⟨k1, v1⟩ := e1
    simp only [insert] at he
    split_ifs at he with h1 h2
    · rcases List.mem_cons.mp he with he | he
      · exact Or.inl he
      · exact Or.inr he
    · rcases List.mem_cons.mp he with he | he
      · exact Or.inl he
      · exact Or.inr (List.mem_cons_of_mem _ he)
    · rcases List.mem_cons.mp he with he | he
      · exact Or.inr (he ▸ List.mem_cons_self _ _)
      · rcases ih he with h | h
        · exact Or.inl h
        · exact Or.inr (List.mem_cons_of_mem _ h)

theorem ordered_insert (k : ℤ) (v : α) (m : IntMap α) (hm : Ordered m) :
    Ordered (insert k v m) := by
  induction m with
  | nil => simp [insert, Ordered]
  | cons e1 rest ih =>
    obtain ⟨k1, v1⟩ := e1
    have hrest : Ordered rest := List.Pairwise.of_cons hm
    have hhead : ∀ e ∈ rest, k1 < e.1 := fun e he => List.rel_of_pairwise_cons hm he
    simp only [insert]
    split_ifs with h1 h2
    · refine List.Pairwise.cons ?_ hm
      intro e he
      rcases List.mem_cons.mp he with he | he
      · rw [he]; exact h1
      · exact lt_trans h1 (hhead e he)
    · subst h2
      exact List.Pairwise.cons hhead hrest
    · refine List.Pairwise.cons ?_ (ih hrest)
      intro e he
      rcases mem_insert k v rest e he with h | h
      · rw [h]
        exact lt_of_le_of_ne (not_lt.mp h1) (Ne.symm h2)
      · exact hhead e h

theorem head_le_of_ordered (e : ℤ × α) (rest : IntMap α) (hm : Ordered (e :: rest)) :
    ∀ x ∈ e :: rest, e.1 ≤ x.1 := by
  intro x hx
  rcases List.mem_cons.mp hx with hx | hx
  · rw [hx]
  · exact le_of_lt (List.rel_of_pairwise_cons hm hx)

theorem mem_insert_self (k : ℤ) (v : α) (m : IntMap α) : (k, v) ∈ insert k v m := by
  induction m with
  | nil => simp [insert]
  | cons e1 rest ih =>
    obtain ⟨k1, v1⟩ := e1
    simp only [insert]
    split_ifs
    · exact List.mem_cons_self _ _
    · exact List.mem_cons_self _ _
    · exact List.mem_cons_of_mem _ ih

theorem mem_insert_of_mem (k : ℤ) (v : α) (m : IntMap α) (e : ℤ × α) (he : e ∈ m)
    (hne : e.1 ≠ k) : e ∈ insert k v m := by
  induction m with
  | nil => simp at he
  | cons e1 rest ih =>
    obtain ⟨k1, v1⟩ := e1
    simp only [insert]
    split_ifs with h1 h2
    · exact List.mem_cons_of_mem _ he
    · rcases List.mem_cons.mp he with he | he
      · exfalso
        apply hne
        rw [he, h2]
      · exact List.mem_cons_of_mem _ he
    · rcases List.mem_cons.mp he with he | he
      · rw [he]; exact List.mem_cons_self _ _
      · exact List.mem_cons_of_mem _ (ih he)

theorem find_tail_of_ne (k : ℤ) (e : ℤ × α) (rest : IntMap α) (h : k ≠ e.1) :
    find k (e :: rest) = find k rest := by
  obtain ⟨k1, v1⟩ := e
  simp [find, h]

end IntMap

/-! ### The prediction ledger -/

namespace PredictionBuffer

theorem storePrediction_predictions (b : PredictionBuffer) (frameId : ℤ) (prediction : Point2f)
    (timestamp : ℚ) :
    (b.storePrediction frameId prediction timestamp).predictions =
      if (b.predictions.insert frameId prediction).length > 100 then
        (b.predictions.insert frameId prediction).tail
      else b.predictions.insert frameId prediction := by
  simp only [storePrediction]
  split_ifs with h
  · split
    · rename_i hp
      rw [hp] at h
      simp at h
    · rename_i oldest rest hp
      rw [hp]
      rfl
  · rfl

theorem evaluatePrediction_of_find (N : Numerics) (b : PredictionBuffer) (frameId : ℤ)
    (actual predicted : Point2f) (h : b.predictions.find frameId = some predicted) :
    (b.evaluatePrediction N frameId actual).1 = normDiff N actual predicted := by
  simp [evaluatePrediction, h]

theorem evaluatePrediction_of_find_none (N : Numerics) (b : PredictionBuffer) (frameId : ℤ)
    (actual : Point2f) (h : b.predictions.find frameId = none) :
    (b.evaluatePrediction N frameId actual).1 = -1 := by
  simp [evaluatePrediction, h]

theorem round_trip_kept (N : Numerics) (b : PredictionBuffer) (frameId : ℤ)
    (p a : Point2f) (t : ℚ) (ho : b.predictions.Ordered) (hlen : b.predictions.length ≤ 100)
    (h : b.predictions.length < 100 ∨ (b.predictions.find frameId).isSome = true ∨
      ∃ e ∈ b.predictions, e.1 < frameId) :
    ((b.storePrediction frameId p t).evaluatePrediction N frameId a).1 = normDiff N a p := by
  apply evaluatePrediction_of_find
  rw [storePrediction_predictions]
  split_ifs with hbig
  · have hle := IntMap.length_insert_le frameId p b.predictions
    rcases h with h | h | h
    · omega
    · rw [IntMap.length_insert_of_find frameId p b.predictions ho h] at hbig
      omega
    · obtain ⟨e, he, hlt⟩ := h
      cases hb : b.predictions with
      | nil => rw [hb] at he; simp at he
      | cons e1 rest =>
        obtain ⟨k1, v1⟩ := e1
        rw [hb] at ho he
        have hk1 : k1 ≤ e.1 := IntMap.head_le_of_ordered (k1, v1) rest ho e he
        have h1 : ¬ frameId < k1 := by omega
        have h2 : ¬ frameId = k1 := by omega
        simp only [IntMap.insert, h1, h2, if_false, List.tail_cons]
        exact IntMap.find_insert_self frameId p rest
  · exact IntMap.find_insert_self frameId p b.predictions

theorem round_trip_evicted (N : Numerics) (b : PredictionBuffer) (frameId : ℤ)
    (p a : Point2f) (t : ℚ) (ho : b.predictions.Ordered) (h100 : b.predictions.length = 100)
    (hall : ∀ e ∈ b.predictions, frameId < e.1) :
    ((b.storePrediction frameId p t).evaluatePrediction N frameId a).1 = -1 := by
  apply evaluatePrediction_of_find_none
  rw [storePrediction_predictions]
  cases hb : b.predictions with
  | nil => rw [hb] at h100; simp at h100
  | cons e1 rest =>
    obtain ⟨k1, v1⟩ := e1
    rw [hb] at ho hall h100
    have h1 : frameId < k1 := hall (k1, v1) (List.mem_cons_self _ _)
    simp only [IntMap.insert, h1, if_true, List.length_cons] at h100 ⊢
    rw [if_pos (by omega)]
    simp only [List.tail_cons]
    exact IntMap.find_eq_none_of_lt_head frameId _ ho hall

/-- C8 (as amended): ledger round trip. For every ledger holding at most 100 predictions,
every frame id, prediction `p` and actual value `a`: `storePrediction(id, p, t)` followed by
`evaluatePrediction(id, a)` returns `cv::norm(a - p)` when the ledger held fewer than 100
predictions, or already held one for `id`, or held one with a smaller frame id; when the
ledger held 100 predictions, all with frame ids larger than `id`, the new entry is the one
evicted and the call returns the sentinel -1. -/
theorem store_then_evaluate (N : Numerics) (b : PredictionBuffer) (frameId : ℤ)
    (p a : Point2f) (t : ℚ) (ho : b.predictions.Ordered) (hlen : b.predictions.length ≤ 100) :
    ((b.predictions.length < 100 ∨ (b.predictions.find frameId).isSome = true ∨
          ∃ e ∈ b.predictions, e.1 < frameId) →
        ((b.storePrediction frameId p t).evaluatePrediction N frameId a).1 = normDiff N a p) ∧
      ((b.predictions.length = 100 ∧ ∀ e ∈ b.predictions, frameId < e.1) →
        ((b.storePrediction frameId p t).evaluatePrediction N frameId a).1 = -1) :=
  ⟨round_trip_kept N b frameId p a t ho hlen,
    fun h => round_trip_evicted N b frameId p a t ho h.1 h.2⟩

theorem sqrtFixed_twentyFive : sqrtFixed 25 = 5 := by
  have h : ⌊(25 : ℚ) * 1000000000000⌋ = ((25000000000000 : ℕ) : ℤ) := by
    rw [show (25 : ℚ) * 1000000000000 = ((25000000000000 : ℤ) : ℚ) by norm_num,
      Int.floor_intCast]
    rfl
  have hs : Nat.sqrt 25000000000000 = 5000000 := by
    rw [show (25000000000000 : ℕ) = 5000000 * 5000000 by norm_num, Nat.sqrt_eq]
  rw [sqrtFixed, h, Int.toNat_natCast, hs]
  norm_num

/-- Witness for C8: a prediction stored in an empty ledger and scored against a point at distance 5. -/
theorem store_then_evaluate_witness :
    (({} : PredictionBuffer).predictions.Ordered) ∧
      ({} : PredictionBuffer).predictions.length ≤ 100 ∧
      ((({} : PredictionBuffer).storePrediction 7 samplePoint 0).evaluatePrediction refNumerics 7
          { x := 963, y := 544 }).1 = normDiff refNumerics { x := 963, y := 544 } samplePoint ∧
      normDiff refNumerics { x := 963, y := 544 } samplePoint = 5 :=
  ⟨List.Pairwise.nil, Nat.zero_le _,
    (store_then_evaluate refNumerics {} 7 samplePoint { x := 963, y := 544 } 0 List.Pairwise.nil
      (Nat.zero_le _)).1 (Or.inl (by decide)),
    by
      have h : ((963 : ℚ) - 960) * (963 - 960) + (544 - 540) * (544 - 540) = 25 := by norm_num
      simp only [normDiff, samplePoint, refNumerics, h, sqrtFixed_twentyFive]⟩

theorem insert_append_of_gt {α : Type} (k : ℤ) (v : α) (m : IntMap α)
    (h : ∀ e ∈ m, e.1 < k) : IntMap.insert k v m = m ++ [(k, v)] := by
  induction m with
  | nil => rfl
  | cons e rest ih =>
    obtain ⟨k1, v1⟩ := e
    have h1 : k1 < k := h (k1, v1) (List.mem_cons_self _ _)
    have h2 : ¬ k < k1 := by omega
    have h3 : ¬ k = k1 := by omega
    simp only [IntMap.insert, h2, h3, if_false, List.cons_append]
    rw [ih (fun e he => h e (List.mem_cons_of_mem _ he))]

theorem fillLedger_predictions (n : ℕ) (hn : n ≤ 100) :
    ((List.range n).foldl (fun (b : PredictionBuffer) (i : ℕ) =>
        b.storePrediction ((i : ℤ) + 1) samplePoint 0) {}).predictions =
      (List.range n).map (fun (i : ℕ) => ((i : ℤ) + 1, samplePoint)) := by
  induction n with
  | zero => rfl
  | succ n ih =>
    rw [List.range_succ, List.foldl_append, List.map_append]
    simp only [List.foldl_cons, List.foldl_nil, List.map_cons, List.map_nil]
    rw [storePrediction_predictions, ih (by omega)]
    have hgt : ∀ e ∈ (List.range n).map (fun (i : ℕ) => ((i : ℤ) + 1, samplePoint)),
        e.1 < (n : ℤ) + 1 := by
      intro e he
      obtain ⟨i, hi, rfl⟩ := List.mem_map.mp he
      have := List.mem_range.mp hi
      simp only
      omega
    rw [insert_append_of_gt _ _ _ hgt]
    have hlen : ¬ ((List.range n).map (fun (i : ℕ) => ((i : ℤ) + 1, samplePoint))
        ++ [((n : ℤ) + 1, samplePoint)]).length > 100 := by
      simp
      omega
    rw [if_neg hlen]

theorem fullLedger_predictions :
    fullLedger.predictions = (List.range 100).map (fun (i : ℕ) => ((i : ℤ) + 1, samplePoint)) :=
  fillLedger_predictions 100 (le_refl _)

theorem fullLedger_ordered : fullLedger.predictions.Ordered := by
  rw [fullLedger_predictions, IntMap.Ordered, List.pairwise_map]
  exact List.Pairwise.imp (fun h => by simp only; omega) (List.pairwise_lt_range 100)

theorem fullLedger_length : fullLedger.predictions.length = 100 := by
  rw [fullLedger_predictions]; simp

/-- C8 (counterexample): the ledger filled by `storePrediction` for the frames 1 to 100
holds 100 predictions. Storing a prediction for frame 0 inserts it below all of them, the
cap evicts the lowest id, which is the new entry, and `evaluatePrediction(0, a)` returns
the sentinel -1 instead of the distance. -/
theorem store_then_evaluate_sentinel :
    fullLedger.predictions.Ordered ∧ fullLedger.predictions.length = 100 ∧
      ((fullLedger.storePrediction 0 samplePoint 0).evaluatePrediction refNumerics 0
          samplePoint).1 = -1 ∧
      normDiff refNumerics samplePoint samplePoint ≠ -1 := by
  have hall : ∀ e ∈ fullLedger.predictions, (0 : ℤ) < e.1 := by
    intro e he
    rw [fullLedger_predictions] at he
    obtain ⟨i, _, rfl⟩ := List.mem_map.mp he
    simp only
    omega
  have hord := fullLedger_ordered
  have hlen := fullLedger_length
  refine ⟨hord, hlen, round_trip_evicted refNumerics fullLedger 0 samplePoint samplePoint 0
    hord hlen hall, ?_⟩
  have h := EnhancedXAxisUKF.sqrtFixed_nonneg ((samplePoint.x - samplePoint.x) * (samplePoint.x - samplePoint.x)
    + (samplePoint.y - samplePoint.y) * (samplePoint.y - samplePoint.y)) (by norm_num)
  have h2 : (0 : ℚ) ≤ normDiff refNumerics samplePoint samplePoint := h
  linarith

/-- C9: ledger cap and eviction. For every ledger holding at most 100 predictions (in key
order) and every frame id, after `storePrediction(id, p, t)` the ledger holds at most 100
predictions, still in key order. When the insertion makes it 101, exactly one entry is
removed: the first of the 101, whose frame id is the smallest among the old keys and `id`;
every other frame id keeps its value (the old one, or `p` for `id`). When the insertion
does not exceed 100, nothing is removed. -/
theorem storePrediction_cap (b : PredictionBuffer) (frameId : ℤ) (p : Point2f) (t : ℚ)
    (ho : b.predictions.Ordered) (hlen : b.predictions.length ≤ 100) :
    (b.storePrediction frameId p t).predictions.length ≤ 100 ∧
      (b.storePrediction frameId p t).predictions.Ordered ∧
      ((b.predictions.insert frameId p).length = 101 →
        ∃ oldest : ℤ × Point2f,
          b.predictions.insert frameId p = oldest :: (b.storePrediction frameId p t).predictions ∧
          (oldest = (frameId, p) ∨ oldest ∈ b.predictions) ∧
          oldest.1 ≤ frameId ∧ (∀ e ∈ b.predictions, oldest.1 ≤ e.1) ∧
          (frameId ≠ oldest.1 →
            (b.storePrediction frameId p t).predictions.find frameId = some p) ∧
          (∀ k, k ≠ oldest.1 → k ≠ frameId →
            (b.storePrediction frameId p t).predictions.find k = b.predictions.find k)) ∧
      ((b.predictions.insert frameId p).length ≤ 100 →
        (b.storePrediction frameId p t).predictions = b.predictions.insert frameId p) := by
  have hle := IntMap.length_insert_le frameId p b.predictions
  have hord := IntMap.ordered_insert frameId p b.predictions ho
  rw [storePrediction_predictions]
  refine ⟨?_, ?_, ?_, ?_⟩
  · split_ifs with h
    · rw [List.length_tail]; omega
    · omega
  · split_ifs with h
    · exact List.Pairwise.tail hord
    · exact hord
  · intro h101
    rw [if_pos (by omega)]
    cases hins : IntMap.insert frameId p b.predictions with
    | nil => rw [hins] at h101; simp at h101
    | cons oldest rest =>
      rw [hins] at hord
      have hmin := IntMap.head_le_of_ordered oldest rest hord
      have hself : (frameId, p) ∈ oldest :: rest := by
        rw [← hins]; exact IntMap.mem_insert_self frameId p b.predictions
      have holdest : oldest ∈ IntMap.insert frameId p b.predictions := by
        rw [hins]; exact List.mem_cons_self _ _
      refine ⟨oldest, rfl, IntMap.mem_insert frameId p b.predictions oldest holdest,
        hmin _ hself, ?_, ?_, ?_⟩
      · intro e he
        by_cases hk : e.1 = frameId
        · rw [hk]; exact hmin _ hself
        · apply hmin
          rw [← hins]
          exact IntMap.mem_insert_of_mem frameId p b.predictions e he hk
      · intro hne
        simp only [List.tail_cons]
        rw [← IntMap.find_tail_of_ne frameId oldest rest hne, ← hins]
        exact IntMap.find_insert_self frameId p b.predictions
      · intro k hk1 hk2
        simp only [List.tail_cons]
        rw [← IntMap.find_tail_of_ne k oldest rest hk1, ← hins]
        exact IntMap.find_insert_of_ne frameId k p b.predictions hk2
  · intro h
    rw [if_neg (by omega)]

/-- Witness for C9: a prediction for frame 101 stored in the ledger holding frames 1 to 100. -/
theorem storePrediction_cap_witness :
    fullLedger.predictions.Ordered ∧ fullLedger.predictions.length ≤ 100 ∧
      (fullLedger.storePrediction 101 samplePoint 0).predictions.length ≤ 100 ∧
      (fullLedger.storePrediction 101 samplePoint 0).predictions.Ordered :=
  ⟨fullLedger_ordered, le_of_eq fullLedger_length,
    (storePrediction_cap fullLedger 101 samplePoint 0 fullLedger_ordered
      (le_of_eq fullLedger_length)).1,
    (storePrediction_cap fullLedger 101 samplePoint 0 fullLedger_ordered
      (le_of_eq fullLedger_length)).2.1⟩

end PredictionBuffer

/-! ### Rolling statistics -/

namespace PredictionStats

theorem sum_eq_head_add_tail (l : List ℚ) (h : l ≠ []) : l.sum = l.headD 0 + l.tail.sum := by
  cases l with
  | nil => exact absurd rfl h
  | cons x xs => simp

theorem rolling_window (errors : List ℚ) :
    errors.foldl rollingStep ([], 0) =
      (errors.drop (errors.length - 100), (errors.drop (errors.length - 100)).sum) := by
  induction errors using List.reverseRecOn with
  | nil => rfl
  | append_singleton errs e ih =>
    rw [List.foldl_append, ih]
    simp only [List.foldl_cons, List.foldl_nil, rollingStep, List.length_append,
      List.length_drop, List.length_singleton]
    by_cases hlen : errs.length < 100
    · have h0 : errs.length - 100 = 0 := by omega
      have h1 : errs.length + 1 - 100 = 0 := by omega
      rw [h0, h1, if_neg (by omega)]
      simp
    · have hpos : errs.length - (errs.length - 100) + 1 > 100 := by omega
      rw [if_pos hpos]
      have hne : List.drop (errs.length - 100) errs ++ [e] ≠ [] := by simp
      have hdrop : List.drop (errs.length + 1 - 100) (errs ++ [e]) =
          (List.drop (errs.length - 100) errs ++ [e]).tail := by
        rw [← List.drop_one, ← List.drop_append_of_le_length (by omega), List.drop_drop]
        congr 1
        omega
      rw [hdrop]
      congr 1
      have h1 := sum_eq_head_add_tail _ hne
      rw [List.sum_append] at h1
      simp only [List.sum_cons, List.sum_nil, add_zero] at h1
      linarith

theorem window_facts (errors : List ℚ) :
    errors.drop (errors.length - 100) = errors.drop (errors.length - min errors.length 100) ∧
      (errors.drop (errors.length - 100)).length = min errors.length 100 ∧
      (errors.drop (errors.length - 100) = [] ↔ errors = []) := by
  have h : errors.length - min errors.length 100 = errors.length - 100 := by omega
  refine ⟨by rw [h], by rw [List.length_drop]; omega, ?_⟩
  constructor
  · intro h0
    have hl := congrArg List.length h0
    rw [List.length_drop, List.length_nil] at hl
    exact List.length_eq_zero.mp (by omega)
  · intro h0
    rw [h0]
    rfl

end PredictionStats

namespace PredictionStats

/-! ### Running maximum -/

theorem addFilterErrors_max (errors : List ℚ) :
    ∀ s : PredictionStats,
      (addFilterErrors s errors).maxFilterError = errors.foldl max s.maxFilterError := by
  induction errors with
  | nil => intro s; rfl
  | cons e rest ih =>
    intro s
    simp only [addFilterErrors, List.foldl_cons] at ih ⊢
    rw [ih (s.addFilterError e)]
    congr 1
    simp only [addFilterError]
    split_ifs <;> rfl

theorem addPredictionErrors_max (errors : List ℚ) :
    ∀ s : PredictionStats,
      (addPredictionErrors s errors).maxPredictionError =
        errors.foldl max s.maxPredictionError := by
  induction errors with
  | nil => intro s; rfl
  | cons e rest ih =>
    intro s
    simp only [addPredictionErrors, List.foldl_cons] at ih ⊢
    rw [ih (s.addPredictionError e)]
    congr 1
    simp only [addPredictionError]
    split_ifs <;> rfl

theorem le_foldl_max (errors : List ℚ) :
    ∀ a : ℚ, a ≤ errors.foldl max a ∧ ∀ e ∈ errors, e ≤ errors.foldl max a := by
  induction errors with
  | nil => intro a; simp
  | cons x rest ih =>
    intro a
    obtain ⟨h1, h2⟩ := ih (max a x)
    simp only [List.foldl_cons]
    refine ⟨le_trans (le_max_left a x) h1, ?_⟩
    intro e he
    rcases List.mem_cons.mp he with he | he
    · rw [he]; exact le_trans (le_max_right a x) h1
    · exact h2 e he

theorem foldl_max_mem (errors : List ℚ) :
    ∀ a : ℚ, errors.foldl max a = a ∨ errors.foldl max a ∈ errors := by
  induction errors with
  | nil => intro a; simp
  | cons x rest ih =>
    intro a
    simp only [List.foldl_cons]
    rcases ih (max a x) with h | h
    · rcases max_choice a x with hm | hm
      · left; rw [h, hm]
      · right; rw [h, hm]; exact List.mem_cons_self _ _
    · right; exact List.mem_cons_of_mem _ h

theorem foldl_max_replicate (n : ℕ) (a b : ℚ) (hb : b ≤ a) :
    (List.replicate n b).foldl max a = a := by
  induction n with
  | zero => rfl
  | succ n ih => simp [List.replicate_succ, max_eq_left hb, ih]

end PredictionStats

namespace PredictionStats

end PredictionStats

namespace EnhancedOutlierFilter

/-! ### The outlier filter -/

end EnhancedOutlierFilter

namespace MultiScalePeakDetector

/-! ### The peak detector -/

theorem velocityZeroCross_iff (d : MultiScalePeakDetector) (h : 3 ≤ d.velocities.length) :
    d.velocityZeroCross = true ↔
      d.velocities.getD (d.velocities.length - 3) 0 * d.velocities.getD (d.velocities.length - 1) 0
          < 0 ∨
        (|d.velocities.getD (d.velocities.length - 2) 0| < 5 ∧
          |d.velocities.getD (d.velocities.length - 1) 0| < 10) := by
  simp [velocityZeroCross, h]

/-- C13: the peak vote rule. For every detector window of at least 7 samples, after
`detectPeak` the flag `isPeak` is true if and only if `votes >= 2`, where `votes` counts 1
for an extremum at each of the scales 3, 5 and 7 and 2 for a velocity zero-crossing;
`peakConfidence` is `votes / 5` when `isPeak` is true and 0 otherwise. -/
theorem peak_vote_rule (d : MultiScalePeakDetector) (h : 7 ≤ d.positions.length) :
    ((detectPeak d).isPeak = true ↔
        2 ≤ (if d.detectPeakAtScale 3 then 1 else 0) + (if d.detectPeakAtScale 5 then 1 else 0)
          + (if d.detectPeakAtScale 7 then 1 else 0) + (if d.velocityZeroCross then 2 else 0)) ∧
      (detectPeak d).peakConfidence =
        (if (detectPeak d).isPeak then
          (((if d.detectPeakAtScale 3 then 1 else 0) + (if d.detectPeakAtScale 5 then 1 else 0)
            + (if d.detectPeakAtScale 7 then 1 else 0) + (if d.velocityZeroCross then 2 else 0)
              : ℕ) : ℚ) / 5
        else 0) := by
  have hlt : ¬ d.positions.length < 7 := by omega
  show ((detectPeak d).isPeak = true ↔ 2 ≤ d.peakVotes) ∧
    (detectPeak d).peakConfidence =
      (if (detectPeak d).isPeak then ((d.peakVotes : ℕ) : ℚ) / 5 else 0)
  by_cases h2 : 2 ≤ d.peakVotes
  · have h3 : (detectPeak d).isPeak = true := by
      unfold detectPeak
      rw [if_neg hlt]
      simp only [h2, if_true]
    have h4 : (detectPeak d).peakConfidence = ((d.peakVotes : ℕ) : ℚ) / 5 := by
      unfold detectPeak
      rw [if_neg hlt]
      simp only [h2, if_true]
    rw [h3, h4]
    exact ⟨⟨fun _ => h2, fun _ => rfl⟩, by rw [if_pos rfl]⟩
  · have h3 : (detectPeak d).isPeak = false := by
      unfold detectPeak
      rw [if_neg hlt]
      simp only [h2, if_false]
    have h4 : (detectPeak d).peakConfidence = 0 := by
      unfold detectPeak
      rw [if_neg hlt]
      simp only [h2, if_false]
    rw [h3, h4]
    refine ⟨⟨fun h => (by cases h), fun h => absurd h h2⟩, ?_⟩
    rw [if_neg (by decide)]

/-- Witness for C13: a seven-sample window with a maximum at the last but one sample. -/
theorem peak_vote_rule_witness :
    7 ≤ risingThenFalling.positions.length ∧
      ((detectPeak risingThenFalling).isPeak = true ↔
        2 ≤ (if risingThenFalling.detectPeakAtScale 3 then 1 else 0)
          + (if risingThenFalling.detectPeakAtScale 5 then 1 else 0)
          + (if risingThenFalling.detectPeakAtScale 7 then 1 else 0)
          + (if risingThenFalling.velocityZeroCross then 2 else 0)) :=
  ⟨by decide, (peak_vote_rule risingThenFalling (by decide)).1⟩

end MultiScalePeakDetector

namespace MultiScalePeakDetector

theorem detectPeakAtScale_iff (d : MultiScalePeakDetector) (s : ℕ) (hn : s ≤ d.positions.length) :
    d.detectPeakAtScale s = true ↔
      (∀ i, i < s → i ≠ s / 2 →
          d.positions.getD (d.positions.length - s + i) 0 <
            d.positions.getD (d.positions.length - s / 2 - 1) 0) ∨
        (∀ i, i < s → i ≠ s / 2 →
          d.positions.getD (d.positions.length - s / 2 - 1) 0 <
            d.positions.getD (d.positions.length - s + i) 0) := by
  have hlt : ¬ d.positions.length < s := by omega
  simp only [detectPeakAtScale, hlt, if_false, Bool.or_eq_true, List.all_eq_true,
    List.mem_filter, List.mem_range, decide_eq_true_eq, Bool.not_eq_true', decide_eq_false_iff_not,
    not_le, ge_iff_le, and_imp]

/-- C14: the scale extremum. For every scale `s` in {3, 5, 7} and every position window of
length `n >= s`, the sample skipped by the loop of `detectPeakAtScale(s)` is the centre of
the last `s` positions, at index `n - 1 - s/2`, and the function returns true if and only
if that sample is strictly greater than each of the other `s - 1` samples of the last `s`,
or strictly less than each of them; a tie with the centre makes it false. -/
theorem scale_extremum (d : MultiScalePeakDetector) (s : ℕ) (hs : s = 3 ∨ s = 5 ∨ s = 7)
    (hn : s ≤ d.positions.length) :
    d.positions.length - s + s / 2 = d.positions.length - 1 - s / 2 ∧
      (d.detectPeakAtScale s = true ↔
        (∀ j, d.positions.length - s ≤ j → j < d.positions.length →
            j ≠ d.positions.length - 1 - s / 2 →
            d.positions.getD j 0 < d.positions.getD (d.positions.length - 1 - s / 2) 0) ∨
          (∀ j, d.positions.length - s ≤ j → j < d.positions.length →
            j ≠ d.positions.length - 1 - s / 2 →
            d.positions.getD (d.positions.length - 1 - s / 2) 0 < d.positions.getD j 0)) ∧
      ((∃ j, d.positions.length - s ≤ j ∧ j < d.positions.length ∧
            j ≠ d.positions.length - 1 - s / 2 ∧
            d.positions.getD j 0 = d.positions.getD (d.positions.length - 1 - s / 2) 0) →
        d.detectPeakAtScale s = false) := by
  have hmid : d.positions.length - s / 2 - 1 = d.positions.length - 1 - s / 2 := by omega
  have hidx : d.positions.length - s + s / 2 = d.positions.length - 1 - s / 2 := by
    rcases hs with h | h | h <;> subst h <;> omega
  have hiff : d.detectPeakAtScale s = true ↔
      (∀ j, d.positions.length - s ≤ j → j < d.positions.length →
          j ≠ d.positions.length - 1 - s / 2 →
          d.positions.getD j 0 < d.positions.getD (d.positions.length - 1 - s / 2) 0) ∨
        (∀ j, d.positions.length - s ≤ j → j < d.positions.length →
          j ≠ d.positions.length - 1 - s / 2 →
          d.positions.getD (d.positions.length - 1 - s / 2) 0 < d.positions.getD j 0) := by
    rw [detectPeakAtScale_iff d s hn, hmid]
    constructor
    · rintro (h | h)
      · left
        intro j h1 h2 h3
        have := h (j - (d.positions.length - s)) (by omega) (by omega)
        rwa [show d.positions.length - s + (j - (d.positions.length - s)) = j by omega] at this
      · right
        intro j h1 h2 h3
        have := h (j - (d.positions.length - s)) (by omega) (by omega)
        rwa [show d.positions.length - s + (j - (d.positions.length - s)) = j by omega] at this
    · rintro (h | h)
      · left
        intro i h1 h2
        exact h _ (by omega) (by omega) (by omega)
      · right
        intro i h1 h2
        exact h _ (by omega) (by omega) (by omega)
  refine ⟨hidx, hiff, ?_⟩
  rintro ⟨j, h1, h2, h3, h4⟩
  cases hv : d.detectPeakAtScale s
  · rfl
  · exfalso
    rcases hiff.mp hv with h | h
    · have := h j h1 h2 h3
      rw [h4] at this
      exact lt_irrefl _ this
    · have := h j h1 h2 h3
      rw [h4] at this
      exact lt_irrefl _ this

/-- Witness for C14: scale 5 on a seven-sample window. -/
theorem scale_extremum_witness :
    ((5 : ℕ) = 3 ∨ (5 : ℕ) = 5 ∨ (5 : ℕ) = 7) ∧ 5 ≤ risingThenFalling.positions.length ∧
      (risingThenFalling.detectPeakAtScale 5 = true ↔
        (∀ j, risingThenFalling.positions.length - 5 ≤ j → j < risingThenFalling.positions.length →
            j ≠ risingThenFalling.positions.length - 1 - 5 / 2 →
            risingThenFalling.positions.getD j 0 <
              risingThenFalling.positions.getD (risingThenFalling.positions.length - 1 - 5 / 2) 0) ∨
          (∀ j, risingThenFalling.positions.length - 5 ≤ j →
            j < risingThenFalling.positions.length →
            j ≠ risingThenFalling.positions.length - 1 - 5 / 2 →
            risingThenFalling.positions.getD (risingThenFalling.positions.length - 1 - 5 / 2) 0 <
              risingThenFalling.positions.getD j 0)) :=
  ⟨by decide, by decide, (scale_extremum risingThenFalling 5 (by decide) (by decide)).2.1⟩

end MultiScalePeakDetector

namespace MotionPatternRecognizer

/-! ### The motion pattern recognizer -/

theorem foldl_min_le (l : List ℚ) : ∀ a : ℚ, l.foldl min a ≤ a := by
  induction l with
  | nil => intro a; exact le_refl _
  | cons x rest ih => intro a; exact le_trans (ih (min a x)) (min_le_left a x)

theorem minElement_le_maxElement (l : List ℚ) : minElement l ≤ maxElement l := by
  cases l with
  | nil => exact le_refl _
  | cons x rest =>
    exact le_trans (foldl_min_le rest x) (PredictionStats.le_foldl_max rest x).1

theorem detectPattern_windows (r : MotionPatternRecognizer) (v a : ℚ) :
    (r.detectPattern v a).1.velocityWindow =
        trimFront WINDOW_SIZE (r.velocityWindow ++ [v]) (r.velocityWindow ++ [v]) ∧
      (r.detectPattern v a).1.accelerationWindow =
        trimFront WINDOW_SIZE (r.velocityWindow ++ [v]) (r.accelerationWindow ++ [a]) := by
  simp only [detectPattern]
  split_ifs <;> exact ⟨rfl, rfl⟩

theorem detectPattern_confidence (r : MotionPatternRecognizer) (v a : ℚ)
    (h : 0 ≤ r.confidence ∧ r.confidence ≤ 1) :
    0 ≤ (r.detectPattern v a).1.confidence ∧ (r.detectPattern v a).1.confidence ≤ 1 := by
  have hr := minElement_le_maxElement
    (trimFront WINDOW_SIZE (r.velocityWindow ++ [v]) (r.velocityWindow ++ [v]))
  simp only [detectPattern]
  split_ifs with h1 h2 h3 h4
  · exact h
  · simp only
    constructor <;> linarith [h2.2]
  · simp only
    constructor <;> linarith [h3.2]
  · simp only
    exact ⟨le_min (by norm_num) (div_nonneg (abs_nonneg _) (by norm_num)), min_le_left _ _⟩
  · simp only
    constructor <;> norm_num

theorem detectPattern_invariant (r : MotionPatternRecognizer) (v a : ℚ)
    (h : RecognizerInvariant r) : RecognizerInvariant (r.detectPattern v a).1 := by
  obtain ⟨h1, h2, h3, h4⟩ := h
  obtain ⟨hv, ha⟩ := detectPattern_windows r v a
  obtain ⟨hc1, hc2⟩ := detectPattern_confidence r v a ⟨h3, h4⟩
  refine ⟨?_, ?_, hc1, hc2⟩
  · rw [hv, ha]
    simp only [trimFront, List.length_drop, List.length_append, List.length_singleton]
    omega
  · rw [hv]
    simp only [trimFront, WINDOW_SIZE, List.length_drop, List.length_append,
      List.length_singleton]
    omega

theorem recognizerAfter_invariant (calls : List (ℚ × ℚ)) :
    ∀ r : MotionPatternRecognizer, RecognizerInvariant r →
      RecognizerInvariant (recognizerAfter r calls) := by
  induction calls with
  | nil => intro r h; exact h
  | cons x rest ih =>
    intro r h
    exact ih _ (detectPattern_invariant r x.1 x.2 h)

/-- C15: the regime confidence range. Starting from a fresh or reset recognizer, after any
sequence of `detectPattern(velocity, acceleration)` calls the velocity and acceleration
windows hold at most 10 samples each and the stored confidence satisfies
`0 <= confidence <= 1`. -/
theorem confidence_range (r0 : MotionPatternRecognizer) (calls : List (ℚ × ℚ)) :
    r0.reset = ({} : MotionPatternRecognizer) ∧
      (recognizerAfter r0.reset calls).velocityWindow.length ≤ 10 ∧
      (recognizerAfter r0.reset calls).accelerationWindow.length ≤ 10 ∧
      0 ≤ (recognizerAfter r0.reset calls).confidence ∧
      (recognizerAfter r0.reset calls).confidence ≤ 1 := by
  have h0 : RecognizerInvariant r0.reset :=
    ⟨rfl, Nat.zero_le _, le_refl _, by show (0 : ℚ) ≤ 1; norm_num⟩
  obtain ⟨h1, h2, h3, h4⟩ := recognizerAfter_invariant calls r0.reset h0
  exact ⟨rfl, h2, by rw [h1]; exact h2, h3, h4⟩

end MotionPatternRecognizer

namespace EnhancedXAxisUKF

/-! ### The members that drive the regime classifier -/

theorem updateHistory_fields (u : EnhancedXAxisUKF) (m v a : ℚ) :
    (updateHistory u m v a).initialized = u.initialized ∧
      (updateHistory u m v a).lastX = u.lastX ∧
      (updateHistory u m v a).motionPattern = u.motionPattern ∧
      (updateHistory u m v a).velocityHistory =
        (if (u.velocityHistory ++ [v]).length > HISTORY_SIZE then (u.velocityHistory ++ [v]).tail
          else u.velocityHistory ++ [v]) := by
  simp only [updateHistory]
  split_ifs with h
  · exact ⟨rfl, rfl, rfl, rfl⟩
  · exact ⟨rfl, rfl, rfl, rfl⟩

theorem filterBranch_state (N : Numerics) (u : EnhancedXAxisUKF) (m v a : ℚ) :
    ∃ w : EnhancedXAxisUKF, (filterBranch N u m v a).2 = updateHistory w m v a ∧
      w.initialized = u.initialized ∧ w.lastX = m ∧ w.motionPattern = u.motionPattern ∧
      w.velocityHistory = u.velocityHistory ∧ w.measurementHistory = u.measurementHistory ∧
      w.positionHistory = u.positionHistory ∧ w.accelerationHistory = u.accelerationHistory :=
  ⟨_, rfl, rfl, rfl, rfl, rfl, rfl, rfl, rfl⟩

theorem largeJumpBranch_state (u : EnhancedXAxisUKF) (m v a : ℚ) :
    ∃ w : EnhancedXAxisUKF, (largeJumpBranch u m v a).2 = updateHistory w m v a ∧
      w.initialized = u.initialized ∧ w.lastX = m ∧ w.motionPattern = u.motionPattern ∧
      w.velocityHistory = u.velocityHistory ∧ w.measurementHistory = u.measurementHistory ∧
      w.positionHistory = u.positionHistory ∧ w.accelerationHistory = u.accelerationHistory :=
  ⟨_, rfl, rfl, rfl, rfl, rfl, rfl, rfl, rfl⟩

theorem filterBranch_fields (N : Numerics) (u : EnhancedXAxisUKF) (m v a : ℚ) :
    (filterBranch N u m v a).2.initialized = u.initialized ∧
      (filterBranch N u m v a).2.lastX = m ∧
      (filterBranch N u m v a).2.motionPattern = u.motionPattern ∧
      (filterBranch N u m v a).2.velocityHistory =
        (if (u.velocityHistory ++ [v]).length > HISTORY_SIZE then (u.velocityHistory ++ [v]).tail
          else u.velocityHistory ++ [v]) := by
  obtain ⟨w, hw, h1, h2, h3, h4, -, -, -⟩ := filterBranch_state N u m v a
  obtain ⟨g1, g2, g3, g4⟩ := updateHistory_fields w m v a
  rw [hw, g1, g2, g3, g4, h1, h2, h3, h4]
  exact ⟨rfl, rfl, rfl, rfl⟩

theorem largeJumpBranch_fields (u : EnhancedXAxisUKF) (m v a : ℚ) :
    (largeJumpBranch u m v a).2.initialized = u.initialized ∧
      (largeJumpBranch u m v a).2.lastX = m ∧
      (largeJumpBranch u m v a).2.motionPattern = u.motionPattern ∧
      (largeJumpBranch u m v a).2.velocityHistory =
        (if (u.velocityHistory ++ [v]).length > HISTORY_SIZE then (u.velocityHistory ++ [v]).tail
          else u.velocityHistory ++ [v]) := by
  obtain ⟨w, hw, h1, h2, h3, h4, -, -, -⟩ := largeJumpBranch_state u m v a
  obtain ⟨g1, g2, g3, g4⟩ := updateHistory_fields w m v a
  rw [hw, g1, g2, g3, g4, h1, h2, h3, h4]
  exact ⟨rfl, rfl, rfl, rfl⟩

theorem updateFilter_tracking (N : Numerics) (u : EnhancedXAxisUKF) (q : ℚ) (frameId : ℤ)
    (hi : u.initialized = true) :
    (updateFilter N u (FloatVal.finite q) frameId).2 =
      (if |clamp 0 1920 q - u.lastX| > 120 then
        (largeJumpBranch
          (updateDetectors N { u with currentTimestamp := (frameId : ℚ) * dt } (clamp 0 1920 q)
            (derivedVelocity u (clamp 0 1920 q))
            (derivedAcceleration u (derivedVelocity u (clamp 0 1920 q))))
          (clamp 0 1920 q) (derivedVelocity u (clamp 0 1920 q))
          (derivedAcceleration u (derivedVelocity u (clamp 0 1920 q)))).2
      else
        (filterBranch N
          (updateDetectors N { u with currentTimestamp := (frameId : ℚ) * dt } (clamp 0 1920 q)
            (derivedVelocity u (clamp 0 1920 q))
            (derivedAcceleration u (derivedVelocity u (clamp 0 1920 q))))
          (clamp 0 1920 q) (derivedVelocity u (clamp 0 1920 q))
          (derivedAcceleration u (derivedVelocity u (clamp 0 1920 q)))).2) := by
  simp only [updateFilter, FloatVal.isNan, FloatVal.isInf, FloatVal.toRat, hi, Bool.or_self,
    Bool.false_eq_true, if_false, Bool.not_true]
  split_ifs <;> rfl

theorem updateFilter_view (N : Numerics) (u : EnhancedXAxisUKF) (q : ℚ) (frameId : ℤ)
    (hi : u.initialized = true) :
    (updateFilter N u (FloatVal.finite q) frameId).2.initialized = true ∧
      (updateFilter N u (FloatVal.finite q) frameId).2.view = u.view.step q := by
  rw [updateFilter_tracking N u q frameId hi]
  split_ifs with hj
  · obtain ⟨h1, h2, h3, h4⟩ := largeJumpBranch_fields
      (updateDetectors N { u with currentTimestamp := (frameId : ℚ) * dt } (clamp 0 1920 q)
        (derivedVelocity u (clamp 0 1920 q))
        (derivedAcceleration u (derivedVelocity u (clamp 0 1920 q))))
      (clamp 0 1920 q) (derivedVelocity u (clamp 0 1920 q))
      (derivedAcceleration u (derivedVelocity u (clamp 0 1920 q)))
    refine ⟨by rw [h1]; exact hi, ?_⟩
    simp only [view, h2, h3, h4]
    rfl
  · obtain ⟨h1, h2, h3, h4⟩ := filterBranch_fields N
      (updateDetectors N { u with currentTimestamp := (frameId : ℚ) * dt } (clamp 0 1920 q)
        (derivedVelocity u (clamp 0 1920 q))
        (derivedAcceleration u (derivedVelocity u (clamp 0 1920 q))))
      (clamp 0 1920 q) (derivedVelocity u (clamp 0 1920 q))
      (derivedAcceleration u (derivedVelocity u (clamp 0 1920 q)))
    refine ⟨by rw [h1]; exact hi, ?_⟩
    simp only [view, h2, h3, h4]
    rfl

theorem updateAll_view (N : Numerics) (frames : List (ℚ × ℤ)) :
    ∀ u : EnhancedXAxisUKF, u.initialized = true →
      (updateAll N u frames).initialized = true ∧
        (updateAll N u frames).view = frames.foldl (fun t x => t.step x.1) u.view := by
  induction frames with
  | nil => intro u hi; exact ⟨hi, rfl⟩
  | cons x rest ih =>
    intro u hi
    obtain ⟨h1, h2⟩ := updateFilter_view N u x.1 x.2 hi
    obtain ⟨h3, h4⟩ := ih _ h1
    simp only [updateAll, List.foldl_cons] at h3 h4 ⊢
    exact ⟨h3, by rw [h4, h2]⟩

theorem updateAll_new (N : Numerics) (q : ℚ) (frameId : ℤ) (rest : List (ℚ × ℤ)) :
    (updateAll N new ((q, frameId) :: rest)).initialized = true ∧
      (updateAll N new ((q, frameId) :: rest)).view =
        rest.foldl (fun t x => t.step x.1)
          { lastX := clamp 0 1920 q, velocityHistory := [], motionPattern := {} } := by
  have h := updateFilter_first N new q frameId rfl
  have hi : (updateFilter N new (FloatVal.finite q) frameId).2.initialized = true := by rw [h]
  have hv : (updateFilter N new (FloatVal.finite q) frameId).2.view =
      { lastX := clamp 0 1920 q, velocityHistory := [], motionPattern := {} } := by
    rw [h]; rfl
  obtain ⟨h1, h2⟩ := updateAll_view N rest _ hi
  rw [hv] at h2
  exact ⟨h1, h2⟩

theorem saccade_step1 :
    TrackingView.step ⟨960, [], {}⟩ 960 =
      ⟨960, [0], { velocityWindow := [0], accelerationWindow := [0] }⟩ := by
  norm_num [TrackingView.step, clamp, dt, HISTORY_SIZE, MotionPatternRecognizer.detectPattern,
    trimFront, MotionPatternRecognizer.WINDOW_SIZE]

theorem saccade_step2 :
    TrackingView.step ⟨960, [0], { velocityWindow := [0], accelerationWindow := [0] }⟩ 960 =
      ⟨960, [0, 0], { velocityWindow := [0, 0], accelerationWindow := [0, 0] }⟩ := by
  have h : ([0] : List ℚ) ≠ [] := List.cons_ne_nil _ _
  norm_num [TrackingView.step, clamp, dt, HISTORY_SIZE, MotionPatternRecognizer.detectPattern,
    trimFront, MotionPatternRecognizer.WINDOW_SIZE, h]

theorem saccade_step3 :
    TrackingView.step ⟨960, [0, 0], { velocityWindow := [0, 0], accelerationWindow := [0, 0] }⟩
        965 =
      ⟨965, [0, 0, 300],
        { velocityWindow := [0, 0, 300], accelerationWindow := [0, 0, 1000] }⟩ := by
  have h : ([0, 0] : List ℚ) ≠ [] := List.cons_ne_nil _ _
  norm_num [TrackingView.step, clamp, dt, HISTORY_SIZE, MotionPatternRecognizer.detectPattern,
    trimFront, MotionPatternRecognizer.WINDOW_SIZE, h]

theorem saccade_step4 :
    TrackingView.step ⟨965, [0, 0, 300],
        { velocityWindow := [0, 0, 300], accelerationWindow := [0, 0, 1000] }⟩ 975 =
      ⟨975, [0, 0, 300, 350],
        { velocityWindow := [0, 0, 300, 350], accelerationWindow := [0, 0, 1000, 1000] }⟩ := by
  have h : ([0, 0, 300] : List ℚ) ≠ [] := List.cons_ne_nil _ _
  norm_num [TrackingView.step, clamp, dt, HISTORY_SIZE, MotionPatternRecognizer.detectPattern,
    trimFront, MotionPatternRecognizer.WINDOW_SIZE, h]

theorem saccade_step5 :
    TrackingView.step ⟨975, [0, 0, 300, 350],
        { velocityWindow := [0, 0, 300, 350], accelerationWindow := [0, 0, 1000, 1000] }⟩ 990 =
      ⟨990, [0, 0, 300, 350, 350],
        { currentType := MotionType.SACCADE, confidence := 1,
          velocityWindow := [0, 0, 300, 350, 350],
          accelerationWindow := [0, 0, 1000, 1000, 0] }⟩ := by
  have h : ([0, 0, 300, 350] : List ℚ) ≠ [] := List.cons_ne_nil _ _
  norm_num [TrackingView.step, clamp, dt, HISTORY_SIZE, MotionPatternRecognizer.detectPattern,
    trimFront, MotionPatternRecognizer.WINDOW_SIZE, accumulate, maxElement, minElement, h]

theorem saccade_step6 :
    TrackingView.step ⟨990, [0, 0, 300, 350, 350],
        { currentType := MotionType.SACCADE, confidence := 1,
          velocityWindow := [0, 0, 300, 350, 350],
          accelerationWindow := [0, 0, 1000, 1000, 0] }⟩ 1010 =
      ⟨1010, [0, 0, 300, 350, 350, 350],
        { currentType := MotionType.SACCADE, confidence := 1,
          velocityWindow := [0, 0, 300, 350, 350, 350],
          accelerationWindow := [0, 0, 1000, 1000, 0, 0] }⟩ := by
  have h : ([0, 0, 300, 350, 350] : List ℚ) ≠ [] := List.cons_ne_nil _ _
  norm_num [TrackingView.step, clamp, dt, HISTORY_SIZE, MotionPatternRecognizer.detectPattern,
    trimFront, MotionPatternRecognizer.WINDOW_SIZE, accumulate, maxElement, minElement, h]

theorem saccade_step7 :
    TrackingView.step ⟨1010, [0, 0, 300, 350, 350, 350],
        { currentType := MotionType.SACCADE, confidence := 1,
          velocityWindow := [0, 0, 300, 350, 350, 350],
          accelerationWindow := [0, 0, 1000, 1000, 0, 0] }⟩ 1040 =
      ⟨1040, [0, 0, 300, 350, 350, 350, 350],
        { currentType := MotionType.SACCADE, confidence := 1,
          velocityWindow := [0, 0, 300, 350, 350, 350, 350],
          accelerationWindow := [0, 0, 1000, 1000, 0, 0, 0] }⟩ := by
  have h : ([0, 0, 300, 350, 350, 350] : List ℚ) ≠ [] := List.cons_ne_nil _ _
  norm_num [TrackingView.step, clamp, dt, HISTORY_SIZE, MotionPatternRecognizer.detectPattern,
    trimFront, MotionPatternRecognizer.WINDOW_SIZE, accumulate, maxElement, minElement, h]

theorem clamp960 : clamp 0 1920 (960 : ℚ) = 960 := clamp_of_mem (by norm_num) (by norm_num)


end EnhancedXAxisUKF

namespace EnhancedXAxisUKF

theorem saccade_view5 (N : Numerics) :
    (updateAll N new [(960, 0), (960, 1), (960, 2), (965, 3), (975, 4)]).view =
      ⟨975, [0, 0, 300, 350],
        { velocityWindow := [0, 0, 300, 350], accelerationWindow := [0, 0, 1000, 1000] }⟩ := by
  rw [(updateAll_new N 960 0 [(960, 1), (960, 2), (965, 3), (975, 4)]).2, clamp960]
  simp only [List.foldl_cons, List.foldl_nil]
  rw [saccade_step1, saccade_step2, saccade_step3, saccade_step4]

theorem saccade_view6 (N : Numerics) :
    (updateAll N new [(960, 0), (960, 1), (960, 2), (965, 3), (975, 4), (990, 5)]).view =
      ⟨990, [0, 0, 300, 350, 350],
        { currentType := MotionType.SACCADE, confidence := 1,
          velocityWindow := [0, 0, 300, 350, 350],
          accelerationWindow := [0, 0, 1000, 1000, 0] }⟩ := by
  rw [(updateAll_new N 960 0 [(960, 1), (960, 2), (965, 3), (975, 4), (990, 5)]).2, clamp960]
  simp only [List.foldl_cons, List.foldl_nil]
  rw [saccade_step1, saccade_step2, saccade_step3, saccade_step4, saccade_step5]

theorem saccade_view7 (N : Numerics) :
    (updateAll N new
        [(960, 0), (960, 1), (960, 2), (965, 3), (975, 4), (990, 5), (1010, 6)]).view =
      ⟨1010, [0, 0, 300, 350, 350, 350],
        { currentType := MotionType.SACCADE, confidence := 1,
          velocityWindow := [0, 0, 300, 350, 350, 350],
          accelerationWindow := [0, 0, 1000, 1000, 0, 0] }⟩ := by
  rw [(updateAll_new N 960 0
    [(960, 1), (960, 2), (965, 3), (975, 4), (990, 5), (1010, 6)]).2, clamp960]
  simp only [List.foldl_cons, List.foldl_nil]
  rw [saccade_step1, saccade_step2, saccade_step3, saccade_step4, saccade_step5, saccade_step6]

theorem saccade_view8 (N : Numerics) :
    (updateAll N new
        [(960, 0), (960, 1), (960, 2), (965, 3), (975, 4), (990, 5), (1010, 6),
          (1040, 7)]).view =
      ⟨1040, [0, 0, 300, 350, 350, 350, 350],
        { currentType := MotionType.SACCADE, confidence := 1,
          velocityWindow := [0, 0, 300, 350, 350, 350, 350],
          accelerationWindow := [0, 0, 1000, 1000, 0, 0, 0] }⟩ := by
  rw [(updateAll_new N 960 0
    [(960, 1), (960, 2), (965, 3), (975, 4), (990, 5), (1010, 6), (1040, 7)]).2, clamp960]
  simp only [List.foldl_cons, List.foldl_nil]
  rw [saccade_step1, saccade_step2, saccade_step3, saccade_step4, saccade_step5, saccade_step6,
    saccade_step7]

theorem view_motionPattern (u : EnhancedXAxisUKF) : u.motionPattern = u.view.motionPattern := rfl

/-- C16: the saccade scenario. Feeding 960, 960, 960, 965, 975, 990, 1010, 1040 with the
frame ids 0 to 7 to a fresh estimator through `updateFilter`, whatever the numerical
routines return: until frame 4 the classifier holds fewer than 5 samples and keeps its
initial STABLE with confidence 0; after frame 5, two frames after the first changed sample
965 of frame 3, `currentType` is SACCADE with confidence 1 > 0.5, and it stays so after
the frames 6 and 7. -/
theorem saccade_scenario (N : Numerics) :
    ((updateAll N new (saccadeScenario.take 5)).motionPattern.currentType = MotionType.STABLE ∧
        (updateAll N new (saccadeScenario.take 5)).motionPattern.confidence = 0) ∧
      ((updateAll N new (saccadeScenario.take 6)).motionPattern.currentType
          = MotionType.SACCADE ∧
        (updateAll N new (saccadeScenario.take 6)).motionPattern.confidence = 1 ∧
        (updateAll N new (saccadeScenario.take 6)).motionPattern.confidence > 1 / 2) ∧
      ((updateAll N new (saccadeScenario.take 7)).motionPattern.currentType
          = MotionType.SACCADE ∧
        (updateAll N new (saccadeScenario.take 7)).motionPattern.confidence = 1) ∧
      ((updateAll N new saccadeScenario).motionPattern.currentType = MotionType.SACCADE ∧
        (updateAll N new saccadeScenario).motionPattern.confidence = 1) := by
  have e5 : saccadeScenario.take 5 = [(960, 0), (960, 1), (960, 2), (965, 3), (975, 4)] := by
    simp [saccadeScenario]
  have e6 : saccadeScenario.take 6 =
      [(960, 0), (960, 1), (960, 2), (965, 3), (975, 4), (990, 5)] := by
    simp [saccadeScenario]
  have e7 : saccadeScenario.take 7 =
      [(960, 0), (960, 1), (960, 2), (965, 3), (975, 4), (990, 5), (1010, 6)] := by
    simp [saccadeScenario]
  rw [e5, e6, e7, saccadeScenario]
  rw [view_motionPattern (updateAll N new [(960, 0), (960, 1), (960, 2), (965, 3), (975, 4)]),
    view_motionPattern
      (updateAll N new [(960, 0), (960, 1), (960, 2), (965, 3), (975, 4), (990, 5)]),
    view_motionPattern (updateAll N new
      [(960, 0), (960, 1), (960, 2), (965, 3), (975, 4), (990, 5), (1010, 6)]),
    view_motionPattern (updateAll N new
      [(960, 0), (960, 1), (960, 2), (965, 3), (975, 4), (990, 5), (1010, 6), (1040, 7)]),
    saccade_view5, saccade_view6, saccade_view7, saccade_view8]
  refine ⟨⟨rfl, rfl⟩, ⟨rfl, rfl, ?_⟩, ⟨rfl, rfl⟩, ⟨rfl, rfl⟩⟩
  show (1 : ℚ) > 1 / 2
  norm_num

end EnhancedXAxisUKF

namespace EnhancedNystagmusDetector

/-! ### The nystagmus detector -/

theorem updateDirection_fields (N : Numerics) (d : EnhancedNystagmusDetector) (v t : ℚ) :
    (updateDirection N d v t).positions = d.positions ∧
      (updateDirection N d v t).velocities = d.velocities ∧
      (updateDirection N d v t).timestamps = d.timestamps ∧
      (updateDirection N d v t).isNystagmus = d.isNystagmus ∧
      (updateDirection N d v t).frequency = d.frequency ∧
      (updateDirection N d v t).amplitude = d.amplitude := by
  simp only [updateDirection]
  split_ifs <;> exact ⟨rfl, rfl, rfl, rfl, rfl, rfl⟩

theorem updateFrequency_lists (d : EnhancedNystagmusDetector) :
    (updateFrequency d).positions = d.positions ∧
      (updateFrequency d).velocities = d.velocities ∧
      (updateFrequency d).timestamps = d.timestamps ∧
      (updateFrequency d).directionChanges = d.directionChanges := by
  simp only [updateFrequency]
  split_ifs <;> exact ⟨rfl, rfl, rfl, rfl⟩

theorem updateFrequency_short (d : EnhancedNystagmusDetector) (h : d.timestamps.length < 15) :
    updateFrequency d = d := by
  simp only [updateFrequency]
  rw [if_neg (by omega)]

theorem updateFrequency_flag (d : EnhancedNystagmusDetector) (h : 15 ≤ d.timestamps.length)
    (hn : (updateFrequency d).isNystagmus = true) :
    1 / 2 < (updateFrequency d).frequency ∧ (updateFrequency d).frequency < 6 ∧
      (updateFrequency d).amplitude > 20 ∧ magnitudeVariance d.velocities > 100 := by
  simp only [updateFrequency, h, if_true] at hn ⊢
  simp only [Bool.and_eq_true, decide_eq_true_eq] at hn
  obtain ⟨⟨⟨h1, h2⟩, h3⟩, h4⟩ := hn
  exact ⟨h1, h2, h4, h3⟩

theorem update_invariant (N : Numerics) (d : EnhancedNystagmusDetector) (p v t : ℚ)
    (h : DetectorInvariant d) : DetectorInvariant (d.update N p v t) := by
  obtain ⟨h1, h2, h3, h4⟩ := h
  have hp : (trimFront WINDOW_SIZE (d.positions ++ [p]) (d.positions ++ [p])).length =
      min (d.positions.length + 1) 30 := by
    simp only [trimFront, WINDOW_SIZE, List.length_drop, List.length_append,
      List.length_singleton]
    omega
  have hv : (trimFront WINDOW_SIZE (d.positions ++ [p]) (d.velocities ++ [v])).length =
      min (d.positions.length + 1) 30 := by
    simp only [trimFront, WINDOW_SIZE, List.length_drop, List.length_append,
      List.length_singleton, h1]
    omega
  have ht : (trimFront WINDOW_SIZE (d.positions ++ [p]) (d.timestamps ++ [t])).length =
      min (d.positions.length + 1) 30 := by
    simp only [trimFront, WINDOW_SIZE, List.length_drop, List.length_append,
      List.length_singleton, h2]
    omega
  simp only [update]
  split_ifs with hs
  · refine ⟨by simp only [hv, hp], by simp only [ht, hp], by simp only [hp]; omega, ?_⟩
    intro hn
    have h15 := (h4 hn).1
    rw [hv] at hs
    omega
  · obtain ⟨g1, g2, g3, g4, g5, g6⟩ := updateDirection_fields N
      { d with
        positions := trimFront WINDOW_SIZE (d.positions ++ [p]) (d.positions ++ [p])
        velocities := trimFront WINDOW_SIZE (d.positions ++ [p]) (d.velocities ++ [v])
        timestamps := trimFront WINDOW_SIZE (d.positions ++ [p]) (d.timestamps ++ [t]) } v t
    obtain ⟨f1, f2, f3, -⟩ := updateFrequency_lists (updateDirection N
      { d with
        positions := trimFront WINDOW_SIZE (d.positions ++ [p]) (d.positions ++ [p])
        velocities := trimFront WINDOW_SIZE (d.positions ++ [p]) (d.velocities ++ [v])
        timestamps := trimFront WINDOW_SIZE (d.positions ++ [p]) (d.timestamps ++ [t]) } v t)
    refine ⟨by rw [f2, f1, g2, g1]; simp only [hv, hp],
      by rw [f3, f1, g3, g1]; simp only [ht, hp],
      by rw [f1, g1]; simp only [hp]; omega, ?_⟩
    intro hn
    by_cases h15 : 15 ≤ (updateDirection N
        { d with
          positions := trimFront WINDOW_SIZE (d.positions ++ [p]) (d.positions ++ [p])
          velocities := trimFront WINDOW_SIZE (d.positions ++ [p]) (d.velocities ++ [v])
          timestamps := trimFront WINDOW_SIZE (d.positions ++ [p]) (d.timestamps ++ [t]) }
        v t).timestamps.length
    · obtain ⟨k1, k2, k3, k4⟩ := updateFrequency_flag _ h15 hn
      refine ⟨by rw [f3]; exact h15, k1, k2, k3, ?_⟩
      rw [f2]
      exact k4
    · exfalso
      rw [updateFrequency_short _ (by omega), g4] at hn
      have := (h4 hn).1
      rw [g3] at h15
      simp only [ht] at h15
      omega

theorem detectorAfter_invariant (N : Numerics) (samples : List (ℚ × ℚ × ℚ)) :
    ∀ d : EnhancedNystagmusDetector, DetectorInvariant d →
      DetectorInvariant (detectorAfter N d samples) := by
  induction samples with
  | nil => intro d h; exact h
  | cons s rest ih =>
    intro d h
    exact ih _ (update_invariant N d s.1 s.2.1 s.2.2 h)

theorem reset_invariant (d : EnhancedNystagmusDetector) : DetectorInvariant d.reset :=
  ⟨rfl, rfl, Nat.zero_le _, fun h => by cases h⟩

/-- C17: the is-active flag requires all conditions jointly. Starting from a fresh or reset
detector, after every `update` call, if `isNystagmus` is true then the stored frequency
satisfies `0.5 < frequency < 6.0`, the stored amplitude satisfies `amplitude > 20.0`, and
the variance of the velocity magnitudes over the window, as computed in that update,
exceeds 100. -/
theorem isNystagmus_requires_all (N : Numerics) (d0 : EnhancedNystagmusDetector)
    (samples : List (ℚ × ℚ × ℚ))
    (h : (detectorAfter N d0.reset samples).isNystagmus = true) :
    1 / 2 < (detectorAfter N d0.reset samples).frequency ∧
      (detectorAfter N d0.reset samples).frequency < 6 ∧
      (detectorAfter N d0.reset samples).amplitude > 20 ∧
      magnitudeVariance (detectorAfter N d0.reset samples).velocities > 100 := by
  obtain ⟨-, -, -, h4⟩ := detectorAfter_invariant N samples d0.reset (reset_invariant d0)
  exact (h4 h).2

/-- Witness for C17: fifteen samples at 60 Hz with one direction reversal raise the flag. -/
theorem isNystagmus_requires_all_witness :
    (detectorAfter refNumerics ({} : EnhancedNystagmusDetector).reset oscillation).isNystagmus
        = true ∧
      1 / 2 <
        (detectorAfter refNumerics ({} : EnhancedNystagmusDetector).reset oscillation).frequency ∧
      (detectorAfter refNumerics ({} : EnhancedNystagmusDetector).reset oscillation).frequency
        < 6 ∧
      (detectorAfter refNumerics ({} : EnhancedNystagmusDetector).reset oscillation).amplitude
        > 20 ∧
      magnitudeVariance
        (detectorAfter refNumerics ({} : EnhancedNystagmusDetector).reset oscillation).velocities
        > 100 :=
  ⟨by decide!, isNystagmus_requires_all refNumerics {} oscillation (by decide!)⟩

end EnhancedNystagmusDetector

namespace EnhancedNystagmusDetector

theorem updateDirection_directionChanges (N : Numerics) (d : EnhancedNystagmusDetector)
    (v t : ℚ) :
    (updateDirection N d v t).directionChanges =
      d.directionChanges +
        (if |d.lastDirection - (if v > 0 then 1 else -1)| > 3 / 2 ∧ |v| > 15 then 1 else 0) := by
  simp only [updateDirection]
  split_ifs <;> simp

theorem updateFrequency_frequency (d : EnhancedNystagmusDetector)
    (h : 15 ≤ d.timestamps.length) :
    (updateFrequency d).frequency =
      (d.directionChanges : ℚ) / (2 * (d.timestamps.getLastD 0 - d.timestamps.headD 0)) := by
  simp only [updateFrequency, h, if_true]

theorem update_short (N : Numerics) (d : EnhancedNystagmusDetector) (p v t : ℚ)
    (h : (trimFront WINDOW_SIZE (d.positions ++ [p]) (d.velocities ++ [v])).length < 10) :
    d.update N p v t =
      { d with
        positions := trimFront WINDOW_SIZE (d.positions ++ [p]) (d.positions ++ [p])
        velocities := trimFront WINDOW_SIZE (d.positions ++ [p]) (d.velocities ++ [v])
        timestamps := trimFront WINDOW_SIZE (d.positions ++ [p]) (d.timestamps ++ [t]) } := by
  simp only [update, h, if_true]

theorem update_long (N : Numerics) (d : EnhancedNystagmusDetector) (p v t : ℚ)
    (h : ¬ (trimFront WINDOW_SIZE (d.positions ++ [p]) (d.velocities ++ [v])).length < 10) :
    d.update N p v t =
      updateFrequency (updateDirection N
        { d with
          positions := trimFront WINDOW_SIZE (d.positions ++ [p]) (d.positions ++ [p])
          velocities := trimFront WINDOW_SIZE (d.positions ++ [p]) (d.velocities ++ [v])
          timestamps := trimFront WINDOW_SIZE (d.positions ++ [p]) (d.timestamps ++ [t]) }
        v t) := by
  simp only [update, h, if_false]

/-- C18 (as amended): the frequency uses the cumulative reversal counter. Starting from a
fresh or reset detector, every `update` adds 1 to `directionChanges` when it detects a
reversal (at least 10 samples in the window, direction different from `lastDirection`,
`|velocity| > 15`) and otherwise leaves it unchanged: the counter is never reduced when
samples leave the window. After every `update` that leaves at least 15 timestamps in the
window, `frequency = directionChanges / (2 * (newest timestamp - oldest timestamp))`. -/
theorem frequency_uses_cumulative_count (N : Numerics) (d0 : EnhancedNystagmusDetector)
    (samples : List (ℚ × ℚ × ℚ)) (p v t : ℚ) :
    (((detectorAfter N d0.reset samples).update N p v t).directionChanges =
        (detectorAfter N d0.reset samples).directionChanges +
          (if 10 ≤ ((detectorAfter N d0.reset samples).update N p v t).velocities.length ∧
              |(detectorAfter N d0.reset samples).lastDirection - (if v > 0 then 1 else -1)|
                > 3 / 2 ∧ |v| > 15
            then 1 else 0)) ∧
      (15 ≤ ((detectorAfter N d0.reset samples).update N p v t).timestamps.length →
        ((detectorAfter N d0.reset samples).update N p v t).frequency =
          (((detectorAfter N d0.reset samples).update N p v t).directionChanges : ℚ) /
            (2 * (((detectorAfter N d0.reset samples).update N p v t).timestamps.getLastD 0 -
              ((detectorAfter N d0.reset samples).update N p v t).timestamps.headD 0))) := by
  obtain ⟨h1, h2, h3, -⟩ := detectorAfter_invariant N samples d0.reset (reset_invariant d0)
  generalize detectorAfter N d0.reset samples = d at h1 h2 h3 ⊢
  have hv : (trimFront WINDOW_SIZE (d.positions ++ [p]) (d.velocities ++ [v])).length =
      min (d.positions.length + 1) 30 := by
    simp only [trimFront, WINDOW_SIZE, List.length_drop, List.length_append,
      List.length_singleton, h1]
    omega
  have ht : (trimFront WINDOW_SIZE (d.positions ++ [p]) (d.timestamps ++ [t])).length =
      min (d.positions.length + 1) 30 := by
    simp only [trimFront, WINDOW_SIZE, List.length_drop, List.length_append,
      List.length_singleton, h2]
    omega
  by_cases hs : (trimFront WINDOW_SIZE (d.positions ++ [p]) (d.velocities ++ [v])).length < 10
  · rw [update_short N d p v t hs]
    constructor
    · have hlt : ¬ (10 ≤ (trimFront WINDOW_SIZE (d.positions ++ [p])
          (d.velocities ++ [v])).length ∧
          |d.lastDirection - (if v > 0 then 1 else -1)| > 3 / 2 ∧ |v| > 15) := by
        intro hc
        omega
      show d.directionChanges = d.directionChanges + _
      rw [if_neg hlt, add_zero]
    · intro h15
      exfalso
      have h15b : 15 ≤ (trimFront WINDOW_SIZE (d.positions ++ [p])
          (d.timestamps ++ [t])).length := h15
      omega
  · rw [update_long N d p v t hs]
    obtain ⟨-, g2, g3, -, -, -⟩ := updateDirection_fields N
      { d with
        positions := trimFront WINDOW_SIZE (d.positions ++ [p]) (d.positions ++ [p])
        velocities := trimFront WINDOW_SIZE (d.positions ++ [p]) (d.velocities ++ [v])
        timestamps := trimFront WINDOW_SIZE (d.positions ++ [p]) (d.timestamps ++ [t]) } v t
    obtain ⟨-, f2, f3, f4⟩ := updateFrequency_lists (updateDirection N
      { d with
        positions := trimFront WINDOW_SIZE (d.positions ++ [p]) (d.positions ++ [p])
        velocities := trimFront WINDOW_SIZE (d.positions ++ [p]) (d.velocities ++ [v])
        timestamps := trimFront WINDOW_SIZE (d.positions ++ [p]) (d.timestamps ++ [t]) } v t)
    constructor
    · rw [f4, f2, g2, updateDirection_directionChanges]
      have h10 : 10 ≤ (trimFront WINDOW_SIZE (d.positions ++ [p]) (d.velocities ++ [v])).length :=
        by omega
      congr 1
      by_cases hc : |d.lastDirection - (if v > 0 then 1 else -1)| > 3 / 2 ∧ |v| > 15
      · rw [if_pos hc, if_pos ⟨h10, hc⟩]
      · rw [if_neg hc, if_neg (fun h => hc h.2)]
    · intro h15
      rw [f3] at h15
      rw [updateFrequency_frequency _ h15, f4, f3]

/-- Witness for C18: the fifteenth sample of the oscillation leaves 15 timestamps. -/
theorem frequency_uses_cumulative_count_witness :
    15 ≤ ((detectorAfter refNumerics ({} : EnhancedNystagmusDetector).reset
        (oscillation.take 14)).update refNumerics 65 (-20) (15 / 60)).timestamps.length ∧
      ((detectorAfter refNumerics ({} : EnhancedNystagmusDetector).reset
          (oscillation.take 14)).update refNumerics 65 (-20) (15 / 60)).frequency =
        (((detectorAfter refNumerics ({} : EnhancedNystagmusDetector).reset
          (oscillation.take 14)).update refNumerics 65 (-20) (15 / 60)).directionChanges : ℚ) /
          (2 * (((detectorAfter refNumerics ({} : EnhancedNystagmusDetector).reset
              (oscillation.take 14)).update refNumerics 65 (-20) (15 / 60)).timestamps.getLastD 0
            - ((detectorAfter refNumerics ({} : EnhancedNystagmusDetector).reset
              (oscillation.take 14)).update refNumerics 65 (-20) (15 / 60)).timestamps.headD 0)) :=
  ⟨by decide!,
    (frequency_uses_cumulative_count refNumerics {} (oscillation.take 14) 65 (-20) (15 / 60)).2
      (by decide!)⟩

/-- C18 (counterexample): forty-one samples at 60 Hz with a single reversal at the eleventh.
After the last update the window holds the samples 12 to 41, all moving left at 20
units/s: no reversal lies inside the window, yet `directionChanges` is still 1 and
`frequency` is `1 / (2 * 29/60) = 30/29`, not 0. -/
theorem frequency_counts_reversals_outside_window :
    (detectorAfter refNumerics {} lateWindow).timestamps.length = 30 ∧
      (detectorAfter refNumerics {} lateWindow).velocities = List.replicate 30 (-20) ∧
      windowReversals (detectorAfter refNumerics {} lateWindow).velocities = 0 ∧
      (detectorAfter refNumerics {} lateWindow).directionChanges = 1 ∧
      (detectorAfter refNumerics {} lateWindow).frequency = 30 / 29 ∧
      (detectorAfter refNumerics {} lateWindow).frequency ≠
        (windowReversals (detectorAfter refNumerics {} lateWindow).velocities : ℚ) /
          (2 * ((detectorAfter refNumerics {} lateWindow).timestamps.getLastD 0 -
            (detectorAfter refNumerics {} lateWindow).timestamps.headD 0)) := by
  decide!

end EnhancedNystagmusDetector

namespace EnhancedXAxisUKF

/-! ### Reset -/

/-- C19: reset restores the initial state. For every estimator, whatever calls produced
it, `reset()` yields exactly the newly constructed estimator: `initialized = false`, zero
state vector, `P = diag(25, 100, 400, 1600)`, `Q = diag(0.5, 10, 50, 200)`, `R = 8`,
`alpha = 0.001` with the matching `lambda` and weights, zero `lastX` and timestamp, empty
history buffers, and cleared peak, periodicity and regime detectors. -/
theorem reset_eq_new (u : EnhancedXAxisUKF) :
    u.reset = new ∧
      (u.reset.initialized = false ∧ u.reset.state = 0 ∧
        u.reset.P = Matrix.diagonal ![25, 100, 400, 1600] ∧
        u.reset.Q = Matrix.diagonal ![1 / 2, 10, 50, 200] ∧ u.reset.R = 8 ∧
        u.reset.alpha = 1 / 1000 ∧ u.reset.lambda = lambdaOf (1 / 1000) kappa ∧
        u.reset.Wm = (initializeWeights u.reset).Wm ∧
        u.reset.Wc = (initializeWeights u.reset).Wc) ∧
      (u.reset.lastX = 0 ∧ u.reset.currentTimestamp = 0 ∧ u.reset.isPredictingFuture = false ∧
        u.reset.velocityHistory = [] ∧ u.reset.measurementHistory = [] ∧
        u.reset.positionHistory = [] ∧ u.reset.accelerationHistory = []) ∧
      (u.reset.peakDetector = {} ∧ u.reset.nystagmusDetector = {} ∧ u.reset.motionPattern = {}) :=
  ⟨rfl, ⟨rfl, rfl, rfl, rfl, rfl, rfl, rfl, rfl, rfl⟩, ⟨rfl, rfl, rfl, rfl, rfl, rfl, rfl⟩,
    ⟨rfl, rfl, rfl⟩⟩

end EnhancedXAxisUKF

namespace EnhancedXAxisUKF

/-! ### The history buffers -/

theorem updateHistory_lengths (w : EnhancedXAxisUKF) (m v a : ℚ) (k : ℕ) (hk : k ≤ 20)
    (h : HistoryLengths k w) : HistoryLengths (min (k + 1) 20) (updateHistory w m v a) := by
  obtain ⟨h0, h1, h2, h3, h4⟩ := h
  simp only [updateHistory, HISTORY_SIZE, List.length_append, List.length_singleton, h1]
  split_ifs with hc
  · have hk20 : k = 20 := by omega
    refine ⟨h0, ?_, ?_, ?_, ?_⟩ <;>
      simp only [List.length_tail, List.length_append, List.length_singleton, h1, h2, h3, h4] <;>
      omega
  · refine ⟨h0, ?_, ?_, ?_, ?_⟩ <;>
      simp only [List.length_append, List.length_singleton, h1, h2, h3, h4] <;> omega

theorem updateFilter_lengths (N : Numerics) (u : EnhancedXAxisUKF) (q : ℚ) (frameId : ℤ)
    (k : ℕ) (hk : k ≤ 20) (h : HistoryLengths k u) :
    HistoryLengths (min (k + 1) 20) (updateFilter N u (FloatVal.finite q) frameId).2 := by
  obtain ⟨h0, h1, h2, h3, h4⟩ := h
  rw [updateFilter_tracking N u q frameId h0]
  split_ifs with hj
  · obtain ⟨w, hw, g0, -, -, g1, g2, g3, g4⟩ := largeJumpBranch_state
      (updateDetectors N { u with currentTimestamp := (frameId : ℚ) * dt } (clamp 0 1920 q)
        (derivedVelocity u (clamp 0 1920 q))
        (derivedAcceleration u (derivedVelocity u (clamp 0 1920 q))))
      (clamp 0 1920 q) (derivedVelocity u (clamp 0 1920 q))
      (derivedAcceleration u (derivedVelocity u (clamp 0 1920 q)))
    rw [hw]
    apply updateHistory_lengths w _ _ _ k hk
    refine ⟨by rw [g0]; exact h0, by rw [g1]; exact h1, by rw [g4]; exact h2,
      by rw [g2]; exact h3, by rw [g3]; exact h4⟩
  · obtain ⟨w, hw, g0, -, -, g1, g2, g3, g4⟩ := filterBranch_state N
      (updateDetectors N { u with currentTimestamp := (frameId : ℚ) * dt } (clamp 0 1920 q)
        (derivedVelocity u (clamp 0 1920 q))
        (derivedAcceleration u (derivedVelocity u (clamp 0 1920 q))))
      (clamp 0 1920 q) (derivedVelocity u (clamp 0 1920 q))
      (derivedAcceleration u (derivedVelocity u (clamp 0 1920 q)))
    rw [hw]
    apply updateHistory_lengths w _ _ _ k hk
    refine ⟨by rw [g0]; exact h0, by rw [g1]; exact h1, by rw [g4]; exact h2,
      by rw [g2]; exact h3, by rw [g3]; exact h4⟩

theorem updateAll_lengths (N : Numerics) (frames : List (ℚ × ℤ)) :
    ∀ (u : EnhancedXAxisUKF) (k : ℕ), k ≤ 20 → HistoryLengths k u →
      HistoryLengths (min (k + frames.length) 20) (updateAll N u frames) := by
  induction frames with
  | nil =>
    intro u k hk h
    have : min (k + ([] : List (ℚ × ℤ)).length) 20 = k := by simp; omega
    rw [this]
    exact h
  | cons x rest ih =>
    intro u k hk h
    have h1 := updateFilter_lengths N u x.1 x.2 k hk h
    have h2 := ih _ (min (k + 1) 20) (by omega) h1
    have : min (min (k + 1) 20 + rest.length) 20 = min (k + (x :: rest).length) 20 := by
      simp only [List.length_cons]
      omega
    rw [this] at h2
    exact h2

theorem updateAll_new_lengths (N : Numerics) (q : ℚ) (frameId : ℤ) (rest : List (ℚ × ℤ)) :
    HistoryLengths (min rest.length 20) (updateAll N new ((q, frameId) :: rest)) := by
  have h := updateFilter_first N new q frameId rfl
  have h0 : HistoryLengths 0 (updateFilter N new (FloatVal.finite q) frameId).2 := by
    rw [h]
    exact ⟨rfl, rfl, rfl, rfl, rfl⟩
  have h1 := updateAll_lengths N rest _ 0 (by omega) h0
  rw [Nat.zero_add] at h1
  exact h1

/-- C20 (the code at the failing input): feeding the measurement 960 for the frame ids 0
to 21 to a fresh estimator, whatever the numerical routines return, leaves 20 entries in
`velocityHistory` and `accelerationHistory` but 21 entries, more than `HISTORY_SIZE`, in
`measurementHistory` and `positionHistory`: the first call pushes to these two only, and
`updateHistory` pops all four only when `velocityHistory` exceeds the cap. -/
theorem history_overflow (N : Numerics) :
    (updateAll N new steadyFrames).velocityHistory.length = 20 ∧
      (updateAll N new steadyFrames).accelerationHistory.length = 20 ∧
      (updateAll N new steadyFrames).measurementHistory.length = 21 ∧
      (updateAll N new steadyFrames).positionHistory.length = 21 ∧
      HISTORY_SIZE < (updateAll N new steadyFrames).measurementHistory.length ∧
      HISTORY_SIZE < (updateAll N new steadyFrames).positionHistory.length := by
  have e : steadyFrames =
      (960, 0) :: (List.range 21).map (fun (i : ℕ) => ((960 : ℚ), ((i : ℤ) + 1))) := by
    decide!
  have h := updateAll_new_lengths N 960 0
    ((List.range 21).map (fun (i : ℕ) => ((960 : ℚ), ((i : ℤ) + 1))))
  rw [← e] at h
  simp only [List.length_map, List.length_range] at h
  obtain ⟨-, h1, h2, h3, h4⟩ := h
  have hm : min 21 20 = 20 := by decide
  rw [hm] at h1 h2 h3 h4
  refine ⟨h1, h2, h3, h4, ?_, ?_⟩
  · rw [h3]; decide
  · rw [h4]; decide

end EnhancedXAxisUKF

namespace MultiScalePeakDetector

theorem detectPeak_peakType (d : MultiScalePeakDetector) (h : 7 ≤ d.positions.length) :
    (detectPeak d).peakType =
      (if 2 ≤ d.peakVotes ∧
          d.positions.getD (d.positions.length - 2) 0 >
            (d.positions.getD (d.positions.length - 4) 0
              + d.positions.getD (d.positions.length - 3) 0) / 2 ∧
          d.positions.getD (d.positions.length - 2) 0 >
            d.positions.getD (d.positions.length - 1) 0 then 1
      else if 2 ≤ d.peakVotes ∧
          d.positions.getD (d.positions.length - 2) 0 <
            (d.positions.getD (d.positions.length - 4) 0
              + d.positions.getD (d.positions.length - 3) 0) / 2 ∧
          d.positions.getD (d.positions.length - 2) 0 <
            d.positions.getD (d.positions.length - 1) 0 then -1
      else d.peakType) := by
  have hlt : ¬ d.positions.length < 7 := by omega
  unfold detectPeak
  rw [if_neg hlt]
  by_cases h2 : 2 ≤ d.peakVotes
  · simp only [h2, if_true, true_and, div_one]
  · simp only [h2, if_false, false_and]

/-- C21: the peak type is carried over. Fed the nine samples of `peakThenDescent`, a fresh
detector confirms a maximum at the seventh update (`peakType = 1`); at the eighth update a
peak is confirmed whose candidate 125 lies between the before-average 127.5 and the
after-value 120, and at the ninth no peak is confirmed: both times `peakType` is still 1,
the value of the seventh update, where the type of the current window is 0. -/
theorem peakType_carried_over :
    (peakDetectorAfter {} (peakThenDescent.take 7)).isPeak = true ∧
      (peakDetectorAfter {} (peakThenDescent.take 7)).peakType = 1 ∧
      (peakDetectorAfter {} (peakThenDescent.take 8)).positions =
        [105, 110, 115, 120, 125, 130, 125, 120] ∧
      (peakDetectorAfter {} (peakThenDescent.take 8)).isPeak = true ∧
      (peakDetectorAfter {} (peakThenDescent.take 8)).peakType = 1 ∧
      (peakDetectorAfter {} peakThenDescent).positions =
        [105, 110, 115, 120, 125, 130, 125, 120, 115] ∧
      (peakDetectorAfter {} peakThenDescent).isPeak = false ∧
      (peakDetectorAfter {} peakThenDescent).peakType = 1 := by
  decide!

end MultiScalePeakDetector

namespace MultiScalePeakDetector

theorem detectPeak_confidence (d : MultiScalePeakDetector)
    (h : d.isPeak = false → d.peakConfidence = 0) :
    (detectPeak d).isPeak = false → (detectPeak d).peakConfidence = 0 := by
  by_cases h1 : d.positions.length < 7
  · unfold detectPeak
    rw [if_pos h1]
    exact h
  · by_cases h2 : 2 ≤ d.peakVotes
    · intro hc
      exfalso
      revert hc
      unfold detectPeak
      rw [if_neg h1]
      simp only [h2, if_true]
      decide
    · intro _
      unfold detectPeak
      rw [if_neg h1]
      simp only [h2, if_false]

theorem peakDetectorAfter_confidence (d : MultiScalePeakDetector)
    (samples : List (ℚ × ℚ × ℚ)) (h : d.isPeak = false → d.peakConfidence = 0) :
    (peakDetectorAfter d samples).isPeak = false →
      (peakDetectorAfter d samples).peakConfidence = 0 := by
  induction samples generalizing d with
  | nil => exact h
  | cons s rest ih =>
    show (peakDetectorAfter (d.update s.1 s.2.1 s.2.2) rest).isPeak = false →
      (peakDetectorAfter (d.update s.1 s.2.1 s.2.2) rest).peakConfidence = 0
    apply ih
    unfold update
    exact detectPeak_confidence _ h

end MultiScalePeakDetector

namespace EnhancedXAxisUKF

theorem stateTransitionForFiltering_position (N : Numerics) (u : EnhancedXAxisUKF) (x : Vec4)
    (hp : u.peakDetector.isPeak = false) (hc : u.peakDetector.peakConfidence = 0)
    (hn : u.nystagmusDetector.isNystagmus = false) :
    (stateTransitionForFiltering N u x) 0 =
      x 0 + x 1 * dt + (1 / 2) * x 2 * dt * dt + (1 / 6) * x 3 * dt * dt * dt := by
  simp [stateTransitionForFiltering, constrainDerivatives, kinematics, hp, hc, hn]

theorem postProcessPrediction_quiet (N : Numerics) (u : EnhancedXAxisUKF) (p m : ℚ)
    (hc : u.peakDetector.peakConfidence = 0)
    (hn : u.nystagmusDetector.isNystagmus = false) :
    postProcessPrediction N u p m = p := by
  simp [postProcessPrediction, hc, hn]

/-- C22: the anticipatory compensation is a multiplication by zero. In every peak-detector
state reached from a fresh detector through `update` in which `isPeak` is false,
`peakConfidence` is 0; so, `isApproachingPeak` being true or not (and the periodic
correction inactive), the position produced by the filtering `stateTransition` is the plain kinematic
extrapolation `x0 + x1*dt + x2*dt^2/2 + x3*dt^3/6` for every input state, and
`postProcessPrediction` returns the prediction unchanged. -/
theorem anticipatory_compensation_vanishes (N : Numerics) (u : EnhancedXAxisUKF)
    (samples : List (ℚ × ℚ × ℚ)) (x : Vec4) (p m : ℚ)
    (hd : u.peakDetector = peakDetectorAfter {} samples)
    (hp : u.peakDetector.isPeak = false)
    (hf : u.isPredictingFuture = false) (hn : u.nystagmusDetector.isNystagmus = false) :
    u.peakDetector.peakConfidence = 0 ∧
      (stateTransition N u x) 0 =
        x 0 + x 1 * dt + (1 / 2) * x 2 * dt * dt + (1 / 6) * x 3 * dt * dt * dt ∧
      postProcessPrediction N u p m = p := by
  have hc : u.peakDetector.peakConfidence = 0 := by
    rw [hd] at hp ⊢
    exact MultiScalePeakDetector.peakDetectorAfter_confidence {} samples (fun _ => rfl) hp
  refine ⟨hc, ?_, postProcessPrediction_quiet N u p m hc hn⟩
  unfold stateTransition
  rw [hf]
  exact stateTransitionForFiltering_position N u x hp hc hn

/-- Witness for C22: the detector has flagged an approaching peak after the samples of
`slowingDown`, and a state moving at 300 units/s is extrapolated without compensation while
the prediction 950 is returned unchanged against the measurement 960. -/
theorem anticipatory_compensation_vanishes_witness :
    approachingEstimator.peakDetector = peakDetectorAfter {} slowingDown ∧
      approachingEstimator.peakDetector.isPeak = false ∧
      approachingEstimator.peakDetector.isApproachingPeak = true ∧
      approachingEstimator.isPredictingFuture = false ∧
      approachingEstimator.nystagmusDetector.isNystagmus = false ∧
      (stateTransition refNumerics approachingEstimator ![960, 300, 0, 0]) 0 = 965 ∧
      postProcessPrediction refNumerics approachingEstimator 950 960 = 950 := by
  have h := anticipatory_compensation_vanishes refNumerics approachingEstimator slowingDown
    ![960, 300, 0, 0] 950 960 rfl (by decide!) (by decide!) (by decide!)
  refine ⟨rfl, by decide!, by decide!, by decide!, by decide!, ?_, h.2.2⟩
  rw [h.2.1]
  norm_num [dt]

end EnhancedXAxisUKF

namespace EnhancedXAxisUKF

theorem handleLargeJump_P (u : EnhancedXAxisUKF) (m v : ℚ) (i j : Fin 4) :
    (handleLargeJump u m v).P i j = if i = j then min (jumpCap i) (u.P i i * 2) else u.P i j := by
  unfold handleLargeJump setDiag
  by_cases h : i = j
  · subst h
    fin_cases i <;> simp [jumpCap]
  · simp [h]

theorem handleLargeJump_inflates (u : EnhancedXAxisUKF) (m v : ℚ) (i : Fin 4)
    (h0 : 0 ≤ u.P i i) (h1 : u.P i i ≤ jumpCap i) :
    u.P i i ≤ (handleLargeJump u m v).P i i ∧ (handleLargeJump u m v).P i i ≤ jumpCap i := by
  rw [handleLargeJump_P, if_pos rfl]
  exact ⟨le_min h1 (by linarith), min_le_left _ _⟩

theorem updateHistory_P (u : EnhancedXAxisUKF) (m v a : ℚ) : (updateHistory u m v a).P = u.P := by
  simp only [updateHistory]
  split_ifs <;> rfl

theorem updateFilter_largeJump_P (N : Numerics) (u : EnhancedXAxisUKF) (q : ℚ) (frameId : ℤ)
    (hi : u.initialized = true) (hj : |clamp 0 1920 q - u.lastX| > 120) (i j : Fin 4) :
    (updateFilter N u (FloatVal.finite q) frameId).2.P i j =
      if i = j then min (jumpCap i) (u.P i i * 2) else u.P i j := by
  rw [updateFilter_tracking N u q frameId hi, if_pos hj]
  unfold largeJumpBranch
  show (updateHistory _ _ _ _).P i j = _
  rw [updateHistory_P]
  exact handleLargeJump_P
    (updateDetectors N { u with currentTimestamp := (frameId : ℚ) * dt } (clamp 0 1920 q)
      (derivedVelocity u (clamp 0 1920 q))
      (derivedAcceleration u (derivedVelocity u (clamp 0 1920 q))))
    (clamp 0 1920 q) (derivedVelocity u (clamp 0 1920 q)) i j

/-- C23: the large jump lowers a variance above its cap. The estimator
`wideVelocityEstimator` has its covariance diagonal (25, 500, 400, 1600) inside the ranges
of `ensureCovariancePositive`; `handleLargeJump(1100, 350)` turns the velocity variance
`P(1,1) = 500` into `min(400, 1000) = 400`, and so does the `updateFilter` call that takes
the large-jump branch on the measurement 1100 at frame 1. -/
theorem handleLargeJump_lowers_variance :
    DiagonalInRange wideVelocityEstimator.P ∧ wideVelocityEstimator.P 1 1 = 500 ∧
      (handleLargeJump wideVelocityEstimator 1100 350).P 1 1 = 400 ∧
      (updateFilter refNumerics wideVelocityEstimator (FloatVal.finite 1100) 1).2.P 1 1 = 400 := by
  have hP : wideVelocityEstimator.P = Matrix.diagonal ![25, 500, 400, 1600] := rfl
  have h1 : wideVelocityEstimator.P 1 1 = 500 := by rw [hP]; simp
  have h2 : (handleLargeJump wideVelocityEstimator 1100 350).P 1 1 = 400 := by
    rw [handleLargeJump_P, if_pos rfl, h1]
    norm_num [jumpCap]
  refine ⟨?_, h1, h2, ?_⟩
  · intro i
    rw [hP]
    obtain ⟨f0, f1, f2, f3⟩ := diagFloor_values
    fin_cases i
    · show diagFloor 0 ≤ _ ∧ _ ≤ diagFloor 0 * 100
      rw [f0]; norm_num
    · show diagFloor 1 ≤ _ ∧ _ ≤ diagFloor 1 * 100
      rw [f1]; norm_num
    · show diagFloor 2 ≤ _ ∧ _ ≤ diagFloor 2 * 100
      rw [f2]; norm_num
    · show diagFloor 3 ≤ _ ∧ _ ≤ diagFloor 3 * 100
      rw [f3]; norm_num
  · have hi : wideVelocityEstimator.initialized = true := by
      show trackingAt960.initialized = true
      rw [trackingAt960_eq]
    have hl : wideVelocityEstimator.lastX = 960 := by
      show trackingAt960.lastX = 960
      rw [trackingAt960_eq]
    have hc : clamp 0 1920 (1100 : ℚ) = 1100 := clamp_of_mem (by norm_num) (by norm_num)
    rw [updateFilter_largeJump_P refNumerics wideVelocityEstimator 1100 1 hi
      (by rw [hc, hl]; norm_num) 1 1, if_pos rfl, h1]
    norm_num [jumpCap]

end EnhancedXAxisUKF

namespace EnhancedXAxisUKF

theorem postProcessPrediction_quiet_range (N : Numerics) (u : EnhancedXAxisUKF) (p m : ℚ)
    (hp : 0 ≤ p ∧ p ≤ 1920) (hm : 0 ≤ m ∧ m ≤ 1920)
    (hc : 0 ≤ u.peakDetector.peakConfidence ∧ u.peakDetector.peakConfidence ≤ 1)
    (hn : (u.nystagmusDetector.isNystagmus
      && decide (u.nystagmusDetector.periodConfidence > 8 / 10)) = false) :
    0 ≤ postProcessPrediction N u p m ∧ postProcessPrediction N u p m ≤ 1920 := by
  unfold postProcessPrediction
  simp only [hn, Bool.false_eq_true, if_false]
  obtain ⟨h1, h2⟩ := hp
  obtain ⟨h3, h4⟩ := hm
  obtain ⟨h5, h6⟩ := hc
  split_ifs
  · constructor
    · nlinarith [mul_nonneg h5 h3, mul_nonneg h5 h1, mul_nonneg (sub_nonneg.mpr h6) h1]
    · nlinarith [mul_nonneg h5 (sub_nonneg.mpr h4), mul_nonneg h5 (sub_nonneg.mpr h2),
        mul_nonneg (sub_nonneg.mpr h6) (sub_nonneg.mpr h2)]
  · exact ⟨h1, h2⟩

theorem sawtoothEstimator_facts :
    sawtoothEstimator.peakDetector.isPeak = false ∧
      sawtoothEstimator.peakDetector.isApproachingPeak = false ∧
      sawtoothEstimator.peakDetector.peakConfidence = 0 ∧
      sawtoothEstimator.nystagmusDetector.isNystagmus = true ∧
      sawtoothEstimator.nystagmusDetector.periodConfidence = 1 ∧
      sawtoothEstimator.nystagmusDetector.estimatedPeriod = 1 / 15 ∧
      sawtoothEstimator.nystagmusDetector.lastPeakTime = 23 / 60 ∧
      sawtoothEstimator.currentTimestamp = 24 / 60 := by
  decide!

/-- C24: post-processing leaves the range. The estimator `sawtoothEstimator` is at frame 24
with a peak confidence 0 and a nystagmus detector that has seen a sawtooth reversing every
four frames: `isNystagmus` is true, `periodConfidence = 1`, `estimatedPeriod = 1/15 > 0` and
the last reversal was at frame 23. There `postProcessPrediction(1920, 1920)` returns
`1920 + 2 * sin(M_PI / 2)` for whichever `sin` is used, above 1920 (about 1922). -/
theorem postProcessPrediction_leaves_range :
    sawtoothEstimator.peakDetector.peakConfidence = 0 ∧
      sawtoothEstimator.nystagmusDetector.isNystagmus = true ∧
      sawtoothEstimator.nystagmusDetector.periodConfidence = 1 ∧
      sawtoothEstimator.nystagmusDetector.estimatedPeriod = 1 / 15 ∧
      (∀ N : Numerics,
        postProcessPrediction N sawtoothEstimator 1920 1920 = 1920 + N.sin (M_PI / 2) * 2) ∧
      1920 < postProcessPrediction refNumerics sawtoothEstimator 1920 1920 := by
  obtain ⟨f1, f2, f3, f4, f5, f6, f7, f8⟩ := sawtoothEstimator_facts
  have hf : fmod (24 / 60 - 23 / 60) (1 / 15) = 1 / 60 := by decide!
  have hall : ∀ N : Numerics,
      postProcessPrediction N sawtoothEstimator 1920 1920 = 1920 + N.sin (M_PI / 2) * 2 := by
    intro N
    unfold postProcessPrediction
    simp only [f1, f2, f4, f5, f6, f7, f8, hf]
    have ha : 2 * M_PI * (1 / 60) / (1 / 15) = M_PI / 2 := by ring
    rw [ha]
    norm_num
  refine ⟨f3, f4, f5, f6, hall, ?_⟩
  rw [hall refNumerics]
  have hs : 0 < refNumerics.sin (M_PI / 2) := by decide!
  linarith

end EnhancedXAxisUKF

namespace EnhancedXAxisUKF

/-! ### Covariance repair -/

theorem ensureCovariancePositive_eq (N : Numerics) (P : Mat4) :
    ensureCovariancePositive N P =
      if minElement (List.ofFn (N.eigenvalues (clampedCovariance P))) < 1 / 1000000000 then
        N.eigenvectors (clampedCovariance P)
          * Matrix.diagonal (fun i =>
              if N.eigenvalues (clampedCovariance P) i < 1 / 1000000000 then 1 / 1000000000
              else N.eigenvalues (clampedCovariance P) i)
          * (N.eigenvectors (clampedCovariance P)).transpose
      else clampedCovariance P := rfl

theorem diagFloor_pos (i : Fin 4) : 0 < diagFloor i := by
  unfold diagFloor
  split_ifs <;> norm_num

theorem clampedCovariance_diag (P : Mat4) : DiagonalInRange (clampedCovariance P) := by
  intro i
  have hp := diagFloor_pos i
  simp only [clampedCovariance, setDiag, Matrix.of_apply, if_true]
  split_ifs with h1 h2
  · exact ⟨le_refl _, by linarith⟩
  · exact ⟨by linarith, le_refl _⟩
  · exact ⟨not_lt.mp h1, not_lt.mp h2⟩

theorem clampedCovariance_symm (P : Mat4) :
    (clampedCovariance P).transpose = clampedCovariance P := by
  ext i j
  simp only [clampedCovariance, setDiag, Matrix.transpose_apply, Matrix.of_apply,
    Matrix.smul_apply, Matrix.add_apply, smul_eq_mul]
  by_cases h : i = j
  · subst h
    simp
  · have h2 : ¬ j = i := fun e => h e.symm
    simp only [h, h2, if_false]
    ring

theorem spectral_symm (V : Mat4) (f : Vec4) :
    (V * Matrix.diagonal f * V.transpose).transpose = V * Matrix.diagonal f * V.transpose := by
  simp [Matrix.transpose_mul, Matrix.mul_assoc]

theorem spectral_entry (V : Mat4) (f : Vec4) (i j : Fin 4) :
    (V * Matrix.diagonal f * V.transpose) i j = ∑ k, V i k * f k * V j k := by
  rw [Matrix.mul_apply]
  simp only [Matrix.mul_diagonal, Matrix.transpose_apply]

theorem spectral_form (V : Mat4) (f : Vec4) (x : Vec4) :
    Matrix.dotProduct x ((V * Matrix.diagonal f * V.transpose).mulVec x) =
      ∑ k, f k * (V.transpose.mulVec x k * V.transpose.mulVec x k) := by
  rw [← Matrix.mulVec_mulVec, ← Matrix.mulVec_mulVec, Matrix.dotProduct_mulVec,
    ← Matrix.mulVec_transpose]
  simp only [Matrix.dotProduct, Matrix.mulVec_diagonal]
  apply Finset.sum_congr rfl
  intro k _
  ring

theorem minElement_ofFn_le (ev : Vec4) (i : Fin 4) : minElement (List.ofFn ev) ≤ ev i := by
  have h : minElement (List.ofFn ev) = min (min (min (ev 0) (ev 1)) (ev 2)) (ev 3) := rfl
  rw [h]
  fin_cases i
  · exact le_trans (min_le_left _ _) (le_trans (min_le_left _ _) (min_le_left _ _))
  · exact le_trans (min_le_left _ _) (le_trans (min_le_left _ _) (min_le_right _ _))
  · exact le_trans (min_le_left _ _) (min_le_right _ _)
  · exact min_le_right _ _

end EnhancedXAxisUKF

namespace EnhancedOutlierFilter

/-! ### Running statistics -/

theorem sum_sq_dev (l : List ℚ) (c : ℚ) :
    (l.map (fun v => (v - c) ^ 2)).sum =
      (l.map (fun v => v ^ 2)).sum - 2 * c * l.sum + l.length * c ^ 2 := by
  induction l with
  | nil => simp
  | cons a t ih =>
    simp only [List.map_cons, List.sum_cons, List.length_cons, ih]
    push_cast
    ring

theorem populationVariance_eq (l : List ℚ) (h : l ≠ []) :
    populationVariance l = (l.map (fun v => v ^ 2)).sum / l.length - (l.sum / l.length) ^ 2 := by
  have hn : (l.length : ℚ) ≠ 0 := by
    have : l.length ≠ 0 := fun e => h (List.length_eq_zero.mp e)
    exact_mod_cast this
  unfold populationVariance sampleMean
  rw [sum_sq_dev]
  field_simp
  ring

theorem statisticsAfter_append (l : List ℚ) (x : ℚ) :
    statisticsAfter (l ++ [x]) = (statisticsAfter l).updateStatistics x := by
  simp [statisticsAfter, List.foldl_append]

theorem statisticsAfter_moments (l : List ℚ) :
    (statisticsAfter l).sampleCount = l.length ∧
      (statisticsAfter l).runningMean = l.sum / l.length ∧
      (statisticsAfter l).runningVariance =
        (l.map (fun v => v ^ 2)).sum / l.length - (l.sum / l.length) ^ 2 := by
  induction l using List.reverseRecOn with
  | nil => simp [statisticsAfter]
  | append_singleton l x ih =>
    obtain ⟨h1, h2, h3⟩ := ih
    rw [statisticsAfter_append]
    simp only [updateStatistics, h1, h2, h3, List.sum_append, List.map_append, List.length_append,
      List.map_cons, List.map_nil, List.sum_cons, List.sum_nil, List.length_singleton, add_zero]
    push_cast
    have hn1 : ((l.length : ℚ) + 1) ≠ 0 := by positivity
    refine ⟨rfl, ?_, ?_⟩
    · by_cases hl : l = []
      · subst hl
        simp
      · have hn : (l.length : ℚ) ≠ 0 := by
          have : l.length ≠ 0 := fun e => hl (List.length_eq_zero.mp e)
          exact_mod_cast this
        field_simp
        ring
    · by_cases hl : l = []
      · subst hl
        simp
      · have hn : (l.length : ℚ) ≠ 0 := by
          have : l.length ≠ 0 := fun e => hl (List.length_eq_zero.mp e)
          exact_mod_cast this
        field_simp
        ring

/-- C26: Welford statistics are exact. After `n >= 1` calls of `updateStatistics` with the
values `v_1 .. v_n` on a fresh or reset filter, `sampleCount = n`, `runningMean` is
`(v_1 + ... + v_n) / n` and `runningVariance` is the population variance
`(1/n) * sum_i (v_i - runningMean)^2`. -/
theorem welford_exact (values : List ℚ) (h : 1 ≤ values.length) :
    (statisticsAfter values).sampleCount = values.length ∧
      (statisticsAfter values).runningMean = sampleMean values ∧
      (statisticsAfter values).runningVariance = populationVariance values ∧
      (statisticsAfter values).runningVariance =
        (values.map (fun v => (v - (statisticsAfter values).runningMean) ^ 2)).sum
          / values.length := by
  have hne : values ≠ [] := by
    intro e
    rw [e] at h
    simp at h
  obtain ⟨h1, h2, h3⟩ := statisticsAfter_moments values
  have h4 : (statisticsAfter values).runningVariance = populationVariance values := by
    rw [h3, populationVariance_eq values hne]
  refine ⟨h1, h2, h4, ?_⟩
  rw [h4, h2]
  rfl

/-- Witness for C26: the values 2, 4, 4, 4, 5, 5, 7, 9 have mean 5 and variance 4. -/
theorem welford_exact_witness :
    1 ≤ ([2, 4, 4, 4, 5, 5, 7, 9] : List ℚ).length ∧
      (statisticsAfter [2, 4, 4, 4, 5, 5, 7, 9]).runningMean =
        sampleMean [2, 4, 4, 4, 5, 5, 7, 9] ∧
      (statisticsAfter [2, 4, 4, 4, 5, 5, 7, 9]).runningVariance =
        populationVariance [2, 4, 4, 4, 5, 5, 7, 9] ∧
      sampleMean [2, 4, 4, 4, 5, 5, 7, 9] = 5 ∧ populationVariance [2, 4, 4, 4, 5, 5, 7, 9] = 4 :=
  ⟨by decide, (welford_exact [2, 4, 4, 4, 5, 5, 7, 9] (by decide)).2.1,
    (welford_exact [2, 4, 4, 4, 5, 5, 7, 9] (by decide)).2.2.1, by decide!, by decide!⟩

end EnhancedOutlierFilter

namespace MotionPatternRecognizer

theorem detectPattern_ne_nystagmus (r : MotionPatternRecognizer) (v a : ℚ)
    (h : r.currentType ≠ MotionType.NYSTAGMUS) :
    (r.detectPattern v a).2 ≠ MotionType.NYSTAGMUS ∧
      (r.detectPattern v a).1.currentType ≠ MotionType.NYSTAGMUS := by
  simp only [detectPattern]
  split_ifs
  · exact ⟨fun e => MotionType.noConfusion e, h⟩
  · exact ⟨fun e => MotionType.noConfusion e, fun e => MotionType.noConfusion e⟩
  · exact ⟨fun e => MotionType.noConfusion e, fun e => MotionType.noConfusion e⟩
  · exact ⟨fun e => MotionType.noConfusion e, fun e => MotionType.noConfusion e⟩
  · exact ⟨fun e => MotionType.noConfusion e, fun e => MotionType.noConfusion e⟩

theorem recognizerAfter_ne_nystagmus (calls : List (ℚ × ℚ)) :
    ∀ r : MotionPatternRecognizer, r.currentType ≠ MotionType.NYSTAGMUS →
      (recognizerAfter r calls).currentType ≠ MotionType.NYSTAGMUS := by
  induction calls with
  | nil => intro r h; exact h
  | cons x rest ih =>
    intro r h
    exact ih _ (detectPattern_ne_nystagmus r x.1 x.2 h).2

/-- C27: the regime NYSTAGMUS is unreachable. After any sequence of calls on a fresh or
reset recognizer, `detectPattern` neither returns NYSTAGMUS nor stores it as `currentType`;
on the nystagmus-like velocities of `sawtoothMotion` it ends in SACCADE. The other four
regimes are reached by five identical calls: (0, 0) gives STABLE, (30, 0) SMOOTH_PURSUIT,
(300, 1000) SACCADE and (300, 0) TRANSITION. -/
theorem nystagmus_regime_unreachable :
    (∀ (calls : List (ℚ × ℚ)) (v a : ℚ),
      ((recognizerAfter {} calls).detectPattern v a).2 ≠ MotionType.NYSTAGMUS ∧
        ((recognizerAfter {} calls).detectPattern v a).1.currentType ≠ MotionType.NYSTAGMUS) ∧
      (recognizerAfter {} sawtoothMotion).currentType = MotionType.SACCADE ∧
      ((recognizerAfter {} (List.replicate 4 (0, 0))).detectPattern 0 0).2 = MotionType.STABLE ∧
      (recognizerAfter {} (List.replicate 5 (0, 0))).currentType = MotionType.STABLE ∧
      ((recognizerAfter {} (List.replicate 4 (30, 0))).detectPattern 30 0).2 =
        MotionType.SMOOTH_PURSUIT ∧
      (recognizerAfter {} (List.replicate 5 (30, 0))).currentType = MotionType.SMOOTH_PURSUIT ∧
      ((recognizerAfter {} (List.replicate 4 (300, 1000))).detectPattern 300 1000).2 =
        MotionType.SACCADE ∧
      (recognizerAfter {} (List.replicate 5 (300, 1000))).currentType = MotionType.SACCADE ∧
      ((recognizerAfter {} (List.replicate 4 (300, 0))).detectPattern 300 0).2 =
        MotionType.TRANSITION ∧
      (recognizerAfter {} (List.replicate 5 (300, 0))).currentType = MotionType.TRANSITION := by
  refine ⟨?_, by decide!, by decide!, by decide!, by decide!, by decide!, by decide!,
    by decide!, by decide!, by decide!⟩
  intro calls v a
  exact detectPattern_ne_nystagmus _ v a
    (recognizerAfter_ne_nystagmus calls {} (by decide))

end MotionPatternRecognizer

namespace EnhancedNystagmusDetector

/-! ### Consecutive frames -/

theorem frameTimes_length (a : ℤ) (n : ℕ) : (frameTimes a n).length = n := by
  simp [frameTimes]

theorem frameTimes_succ (a : ℤ) (n : ℕ) :
    frameTimes a (n + 1) = frameTimes a n ++ [((a : ℚ) + (n : ℚ)) * EnhancedXAxisUKF.dt] := by
  simp [frameTimes, List.range_succ]

theorem frameTimes_cons (a : ℤ) (n : ℕ) :
    frameTimes a (n + 1) = (a : ℚ) * EnhancedXAxisUKF.dt :: frameTimes (a + 1) n := by
  simp only [frameTimes, List.range_succ_eq_map, List.map_cons, List.map_map]
  congr 1
  · simp
  · apply List.map_congr_left
    intro i _
    simp only [Function.comp, Nat.succ_eq_add_one]
    push_cast
    ring

theorem frameTimes_span (a : ℤ) (n : ℕ) :
    (frameTimes a (n + 1)).getLastD 0 - (frameTimes a (n + 1)).headD 0 =
      (n : ℚ) * EnhancedXAxisUKF.dt := by
  have h1 : (frameTimes a (n + 1)).getLastD 0 = ((a : ℚ) + (n : ℚ)) * EnhancedXAxisUKF.dt := by
    rw [frameTimes_succ]
    simp
  have h2 : (frameTimes a (n + 1)).headD 0 = (a : ℚ) * EnhancedXAxisUKF.dt := by
    rw [frameTimes_cons]
    rfl
  rw [h1, h2]
  ring

theorem update_lists (N : Numerics) (d : EnhancedNystagmusDetector) (p v t : ℚ) :
    (d.update N p v t).timestamps =
        trimFront WINDOW_SIZE (d.positions ++ [p]) (d.timestamps ++ [t]) ∧
      (d.update N p v t).velocities =
        trimFront WINDOW_SIZE (d.positions ++ [p]) (d.velocities ++ [v]) := by
  by_cases hs : (trimFront WINDOW_SIZE (d.positions ++ [p]) (d.velocities ++ [v])).length < 10
  · rw [update_short N d p v t hs]
    exact ⟨rfl, rfl⟩
  · rw [update_long N d p v t hs]
    obtain ⟨-, g2, g3, -⟩ := updateDirection_fields N
      { d with
        positions := trimFront WINDOW_SIZE (d.positions ++ [p]) (d.positions ++ [p])
        velocities := trimFront WINDOW_SIZE (d.positions ++ [p]) (d.velocities ++ [v])
        timestamps := trimFront WINDOW_SIZE (d.positions ++ [p]) (d.timestamps ++ [t]) } v t
    obtain ⟨-, f2, f3, -⟩ := updateFrequency_lists (updateDirection N
      { d with
        positions := trimFront WINDOW_SIZE (d.positions ++ [p]) (d.positions ++ [p])
        velocities := trimFront WINDOW_SIZE (d.positions ++ [p]) (d.velocities ++ [v])
        timestamps := trimFront WINDOW_SIZE (d.positions ++ [p]) (d.timestamps ++ [t]) } v t)
    rw [f2, f3, g2, g3]
    exact ⟨rfl, rfl⟩

theorem update_directionChanges_le (N : Numerics) (d : EnhancedNystagmusDetector) (p v t : ℚ) :
    d.directionChanges ≤ (d.update N p v t).directionChanges := by
  by_cases hs : (trimFront WINDOW_SIZE (d.positions ++ [p]) (d.velocities ++ [v])).length < 10
  · rw [update_short N d p v t hs]
  · rw [update_long N d p v t hs, (updateFrequency_lists _).2.2.2,
      updateDirection_directionChanges]
    show d.directionChanges ≤ d.directionChanges + _
    split_ifs <;> omega

theorem update_frequency (N : Numerics) (d : EnhancedNystagmusDetector) (p v t : ℚ)
    (hl : d.velocities.length = d.positions.length ∧ d.timestamps.length = d.positions.length)
    (h : 15 ≤ (d.update N p v t).timestamps.length) :
    (d.update N p v t).frequency =
      ((d.update N p v t).directionChanges : ℚ) /
        (2 * ((d.update N p v t).timestamps.getLastD 0 - (d.update N p v t).timestamps.headD 0)) := by
  obtain ⟨ht, hv⟩ := update_lists N d p v t
  have hs : ¬ (trimFront WINDOW_SIZE (d.positions ++ [p]) (d.velocities ++ [v])).length < 10 := by
    rw [ht] at h
    simp only [trimFront, List.length_drop, List.length_append, List.length_singleton, hl.1,
      hl.2] at h ⊢
    omega
  rw [ht] at h
  rw [update_long N d p v t hs]
  obtain ⟨-, -, g3, -⟩ := updateDirection_fields N
    { d with
      positions := trimFront WINDOW_SIZE (d.positions ++ [p]) (d.positions ++ [p])
      velocities := trimFront WINDOW_SIZE (d.positions ++ [p]) (d.velocities ++ [v])
      timestamps := trimFront WINDOW_SIZE (d.positions ++ [p]) (d.timestamps ++ [t]) } v t
  obtain ⟨-, -, f3, f4⟩ := updateFrequency_lists (updateDirection N
    { d with
      positions := trimFront WINDOW_SIZE (d.positions ++ [p]) (d.positions ++ [p])
      velocities := trimFront WINDOW_SIZE (d.positions ++ [p]) (d.velocities ++ [v])
      timestamps := trimFront WINDOW_SIZE (d.positions ++ [p]) (d.timestamps ++ [t]) } v t)
  rw [updateFrequency_frequency _ (by rw [g3]; exact h), f3, f4]

theorem update_frameInvariant (N : Numerics) (d : EnhancedNystagmusDetector) (p v : ℚ)
    (next : ℤ) (h : FrameInvariant d next) :
    FrameInvariant (d.update N p v ((next : ℚ) * EnhancedXAxisUKF.dt)) (next + 1) := by
  obtain ⟨hd, ht, -⟩ := h
  have hd2 := update_invariant N d p v ((next : ℚ) * EnhancedXAxisUKF.dt) hd
  obtain ⟨h1, h2, h3, -⟩ := hd
  refine ⟨hd2, ?_, update_frequency N d p v _ ⟨h1, h2⟩⟩
  rw [(update_lists N d p v _).1]
  have hpush : d.timestamps ++ [(next : ℚ) * EnhancedXAxisUKF.dt] =
      frameTimes (next - d.timestamps.length) (d.timestamps.length + 1) := by
    rw [frameTimes_succ, ← ht]
    congr 2
    push_cast
    ring
  rw [hpush]
  simp only [trimFront, WINDOW_SIZE, List.length_append, List.length_singleton, ← h2]
  by_cases h30 : d.timestamps.length = 30
  · rw [h30]
    have e : (30 + 1 - 30 : ℕ) = 1 := rfl
    rw [e, frameTimes_cons]
    simp only [List.drop_succ_cons, List.drop_zero, frameTimes_length]
    congr 1
    omega
  · have e : d.timestamps.length + 1 - 30 = 0 := by omega
    rw [e, List.drop_zero, frameTimes_length]
    congr 1
    push_cast
    omega

theorem detectorAfter_frameInvariant (N : Numerics) (samples : List (ℚ × ℚ)) :
    ∀ (d : EnhancedNystagmusDetector) (a : ℤ), FrameInvariant d a →
      FrameInvariant (detectorAfter N d (stampSamples a samples)) (a + samples.length) := by
  induction samples with
  | nil =>
    intro d a h
    simpa [stampSamples, detectorAfter] using h
  | cons s rest ih =>
    intro d a h
    have h2 := ih _ (a + 1) (update_frameInvariant N d s.1 s.2 a h)
    have e : a + ((s :: rest).length : ℤ) = a + 1 + (rest.length : ℤ) := by
      simp only [List.length_cons]
      push_cast
      ring
    rw [e]
    exact h2

theorem fresh_frameInvariant (a : ℤ) : FrameInvariant {} a :=
  ⟨⟨rfl, rfl, Nat.zero_le _, fun h => by cases h⟩, rfl, fun h => by simp at h⟩

theorem frameInvariant_frequency (d : EnhancedNystagmusDetector) (next : ℤ)
    (h : FrameInvariant d next) (h15 : 15 ≤ d.timestamps.length)
    (h6 : 6 ≤ d.directionChanges) : 6 * 60 / 58 ≤ d.frequency := by
  obtain ⟨⟨-, h2, h3, -⟩, ht, hf⟩ := h
  rw [hf h15, ht]
  obtain ⟨n, hn⟩ : ∃ n, d.timestamps.length = n + 1 := ⟨d.timestamps.length - 1, by omega⟩
  rw [hn, frameTimes_span]
  have hn29 : (n : ℚ) ≤ 29 := by
    have : n ≤ 29 := by omega
    exact_mod_cast this
  have hn0 : (0 : ℚ) < (n : ℚ) := by
    have : 0 < n := by omega
    exact_mod_cast this
  have h6q : (6 : ℚ) ≤ (d.directionChanges : ℚ) := by exact_mod_cast h6
  rw [EnhancedXAxisUKF.dt, le_div_iff₀ (by positivity)]
  nlinarith

theorem frameInvariant_off (d : EnhancedNystagmusDetector) (next : ℤ)
    (h : FrameInvariant d next) (h6 : 6 ≤ d.directionChanges) : d.isNystagmus = false := by
  cases hn : d.isNystagmus
  · rfl
  · exfalso
    obtain ⟨h15, -, hlt, -, -⟩ := h.1.2.2.2 hn
    have := frameInvariant_frequency d next h h15 h6
    norm_num at this
    linarith

theorem detectorAfter_directionChanges_le (N : Numerics) (samples : List (ℚ × ℚ × ℚ)) :
    ∀ d : EnhancedNystagmusDetector,
      d.directionChanges ≤ (detectorAfter N d samples).directionChanges := by
  induction samples with
  | nil => intro d; exact le_refl _
  | cons s rest ih =>
    intro d
    exact le_trans (update_directionChanges_le N d s.1 s.2.1 s.2.2) (ih _)

theorem stampSamples_append (a : ℤ) (l more : List (ℚ × ℚ)) :
    stampSamples a (l ++ more) = stampSamples a l ++ stampSamples (a + l.length) more := by
  induction l generalizing a with
  | nil => simp [stampSamples]
  | cons s rest ih =>
    have e : a + ((s :: rest).length : ℤ) = a + 1 + (rest.length : ℤ) := by
      simp only [List.length_cons]
      push_cast
      ring
    rw [e]
    show (s.1, s.2, (a : ℚ) * EnhancedXAxisUKF.dt) :: stampSamples (a + 1) (rest ++ more) = _
    rw [ih (a + 1)]
    rfl

/-- C28: nystagmus detection switches off for good. For a fresh or reset detector fed the
samples of consecutive frames with the timestamps `frameId / 60`: once the cumulative
counter `directionChanges` has reached 6, `isNystagmus` is false after that update and
after every later one, the counter never decreases, and the frequency computed with at
least 15 samples in the window is at least `6 * 60 / 58 > 6`. -/
theorem nystagmus_switches_off (N : Numerics) (a : ℤ) (samples more : List (ℚ × ℚ))
    (h : 6 ≤ (detectorAfter N {} (stampSamples a samples)).directionChanges) :
    (detectorAfter N {} (stampSamples a (samples ++ more))).isNystagmus = false ∧
      (detectorAfter N {} (stampSamples a samples)).directionChanges ≤
        (detectorAfter N {} (stampSamples a (samples ++ more))).directionChanges ∧
      (15 ≤ (detectorAfter N {} (stampSamples a (samples ++ more))).timestamps.length →
        6 * 60 / 58 ≤ (detectorAfter N {} (stampSamples a (samples ++ more))).frequency) := by
  have hinv := detectorAfter_frameInvariant N (samples ++ more) {} a (fresh_frameInvariant a)
  have hmono : (detectorAfter N {} (stampSamples a samples)).directionChanges ≤
      (detectorAfter N {} (stampSamples a (samples ++ more))).directionChanges := by
    rw [stampSamples_append]
    simp only [detectorAfter, List.foldl_append]
    exact detectorAfter_directionChanges_le N _ _
  have h6 := le_trans h hmono
  exact ⟨frameInvariant_off _ _ hinv h6, hmono,
    fun h15 => frameInvariant_frequency _ _ hinv h15 h6⟩

/-- Witness for C28: the sixteen samples of `flutter` from frame 1 bring the counter to 6;
five more frames at rest leave the flag down. -/
theorem nystagmus_switches_off_witness :
    6 ≤ (detectorAfter refNumerics {} (stampSamples 1 flutter)).directionChanges ∧
      (detectorAfter refNumerics {}
        (stampSamples 1 (flutter ++ List.replicate 5 (960, 0)))).isNystagmus = false :=
  ⟨by decide!,
    (nystagmus_switches_off refNumerics 1 flutter (List.replicate 5 (960, 0)) (by decide!)).1⟩

end EnhancedNystagmusDetector

namespace MultiScalePeakDetector

/-! ### A signal at rest -/

theorem detectPeak_confirmed (d : MultiScalePeakDetector) (h7 : 7 ≤ d.positions.length)
    (h2 : 2 ≤ d.peakVotes) :
    (detectPeak d).isPeak = true ∧ (detectPeak d).peakConfidence = (d.peakVotes : ℚ) / 5 := by
  have hlt : ¬ d.positions.length < 7 := by omega
  constructor
  · unfold detectPeak
    rw [if_neg hlt]
    simp only [h2, if_true]
  · unfold detectPeak
    rw [if_neg hlt]
    simp only [h2, if_true]

theorem detectPeakAtScale_constant (d : MultiScalePeakDetector) (c : ℚ) (s : ℕ) (hs : 3 ≤ s)
    (hn : s ≤ d.positions.length) (hc : d.positions = List.replicate d.positions.length c) :
    d.detectPeakAtScale s = false := by
  have hget : ∀ i, i < d.positions.length → d.positions.getD i 0 = c := by
    intro i hi
    rw [hc, List.getD_eq_getElem _ _ (by simpa using hi)]
    simp
  cases hv : d.detectPeakAtScale s
  · rfl
  · exfalso
    have h2 : (0 : ℕ) ≠ s / 2 := by omega
    rcases (detectPeakAtScale_iff d s hn).mp hv with h | h
    · have := h 0 (by omega) h2
      rw [hget _ (by omega), hget _ (by omega)] at this
      exact lt_irrefl _ this
    · have := h 0 (by omega) h2
      rw [hget _ (by omega), hget _ (by omega)] at this
      exact lt_irrefl _ this

/-- C29: a stationary signal is flagged as a peak. For every detector window of at least 7
samples whose last two velocities satisfy `|v[n-2]| < 5` and `|v[n-1]| < 10`, `detectPeak`
sets `isPeak = true` with `peakConfidence >= 0.4`, whatever the positions are; for a
window of identical positions the confidence is exactly 0.4 and `peakType` is left
unchanged. -/
theorem stationary_flagged_as_peak (d : MultiScalePeakDetector) (h7 : 7 ≤ d.positions.length)
    (hv : d.velocities.length = d.positions.length)
    (h2 : |d.velocities.getD (d.velocities.length - 2) 0| < 5)
    (h3 : |d.velocities.getD (d.velocities.length - 1) 0| < 10) :
    (detectPeak d).isPeak = true ∧ 2 / 5 ≤ (detectPeak d).peakConfidence ∧
      ((∃ c, d.positions = List.replicate d.positions.length c) →
        (detectPeak d).peakConfidence = 2 / 5 ∧ (detectPeak d).peakType = d.peakType) := by
  have hz : d.velocityZeroCross = true :=
    (velocityZeroCross_iff d (by omega)).mpr (Or.inr ⟨h2, h3⟩)
  have hvotes : 2 ≤ d.peakVotes := by
    unfold peakVotes
    rw [hz]
    simp
  obtain ⟨hp, hconf⟩ := detectPeak_confirmed d h7 hvotes
  refine ⟨hp, ?_, ?_⟩
  · rw [hconf]
    have : (2 : ℚ) ≤ (d.peakVotes : ℚ) := by exact_mod_cast hvotes
    linarith
  · rintro ⟨c, hc⟩
    have e3 := detectPeakAtScale_constant d c 3 (by norm_num) (by omega) hc
    have e5 := detectPeakAtScale_constant d c 5 (by norm_num) (by omega) hc
    have e7 := detectPeakAtScale_constant d c 7 (by norm_num) (by omega) hc
    have hv2 : d.peakVotes = 2 := by
      unfold peakVotes
      rw [hz, e3, e5, e7]
      rfl
    constructor
    · rw [hconf, hv2]
      norm_num
    · have hget : ∀ i, i < d.positions.length → d.positions.getD i 0 = c := by
        intro i hi
        rw [hc, List.getD_eq_getElem _ _ (by simpa using hi)]
        simp
      rw [detectPeak_peakType d h7, hget _ (by omega), hget _ (by omega), hget _ (by omega),
        hget _ (by omega)]
      have e : (c + c) / 2 = c := by ring
      rw [e]
      simp

/-- Witness for C29: seven identical samples at rest. -/
theorem stationary_flagged_as_peak_witness :
    7 ≤ stationaryWindow.positions.length ∧
      stationaryWindow.velocities.length = stationaryWindow.positions.length ∧
      |stationaryWindow.velocities.getD (stationaryWindow.velocities.length - 2) 0| < 5 ∧
      |stationaryWindow.velocities.getD (stationaryWindow.velocities.length - 1) 0| < 10 ∧
      (detectPeak stationaryWindow).isPeak = true ∧
      (detectPeak stationaryWindow).peakConfidence = 2 / 5 ∧
      (peakDetectorAfter {} (List.replicate 7 (960, 0, 0))).isPeak = true :=
  ⟨by decide, by decide, by decide!, by decide!,
    (stationary_flagged_as_peak stationaryWindow (by decide) (by decide) (by decide!)
      (by decide!)).1,
    ((stationary_flagged_as_peak stationaryWindow (by decide) (by decide) (by decide!)
      (by decide!)).2.2 ⟨960, by decide!⟩).1,
    by decide!⟩

end MultiScalePeakDetector

namespace EnhancedXAxisUKF

/-! ### The sigma-point weights -/

theorem lambdaOf_kappa (alpha : ℚ) : STATE_DIM + lambdaOf alpha kappa = 3 * alpha ^ 2 := by
  unfold lambdaOf kappa STATE_DIM
  ring

theorem adaptParameters_alpha (N : Numerics) (u : EnhancedXAxisUKF) (v a : ℚ) :
    ((adaptParameters N u v a).alpha = 1 / 10000 ∨ (adaptParameters N u v a).alpha = 5 / 10000 ∨
        (adaptParameters N u v a).alpha = 1 / 1000 ∨ (adaptParameters N u v a).alpha = 1 / 100 ∨
        (adaptParameters N u v a).alpha = 2 / 100) ∧
      (adaptParameters N u v a).lambda = lambdaOf (adaptParameters N u v a).alpha kappa := by
  unfold adaptParameters initializeWeights
  refine ⟨?_, rfl⟩
  simp only
  split_ifs <;> cases u.motionPattern.currentType <;> simp

theorem sum_first_rest (A B : ℚ) : ∑ i : Fin 9, (if i = 0 then A else B) = A + 8 * B := by
  rw [Fin.sum_univ_succ]
  simp [Fin.succ_ne_zero]

theorem initializeWeights_sums (u : EnhancedXAxisUKF) (h : STATE_DIM + u.lambda ≠ 0) :
    ∑ i, (initializeWeights u).Wm i = 1 ∧
      ∑ i, (initializeWeights u).Wc i = 1 + (1 - u.alpha * u.alpha + beta) := by
  constructor
  · show ∑ i : Fin 9, (if i = 0 then u.lambda / (STATE_DIM + u.lambda)
      else (1 / 2) / (STATE_DIM + u.lambda)) = 1
    rw [sum_first_rest]
    unfold STATE_DIM at h ⊢
    field_simp
    ring
  · show ∑ i : Fin 9, (if i = 0 then
        u.lambda / (STATE_DIM + u.lambda) + (1 - u.alpha * u.alpha + beta)
      else (1 / 2) / (STATE_DIM + u.lambda)) = 1 + (1 - u.alpha * u.alpha + beta)
    rw [sum_first_rest]
    unfold STATE_DIM at h ⊢
    field_simp
    ring

/-- C30: the unscented mean weights are normalised. For every spread parameter
`alpha != 0`, with `kappa = -1` and `lambda = 3 * alpha^2 - 4`, the denominator
`STATE_DIM + lambda` is `3 * alpha^2`, non-zero, and the nine mean weights computed by
`initializeWeights` sum to exactly 1, the covariance weights to `4 - alpha^2`. The
constructor and `reset` set `alpha = 0.001`, and `adaptParameters` sets one of 0.0001,
0.0005, 0.001, 0.01, 0.02 with `lambda` recomputed, so their weights are normalised. -/
theorem weights_normalised (u : EnhancedXAxisUKF) (alpha : ℚ) (h : alpha ≠ 0) :
    kappa = -1 ∧ lambdaOf alpha kappa = 3 * alpha ^ 2 - 4 ∧
      STATE_DIM + lambdaOf alpha kappa = 3 * alpha ^ 2 ∧ STATE_DIM + lambdaOf alpha kappa ≠ 0 ∧
      ∑ i, (initializeWeights { u with alpha := alpha, lambda := lambdaOf alpha kappa }).Wm i
        = 1 ∧
      ∑ i, (initializeWeights { u with alpha := alpha, lambda := lambdaOf alpha kappa }).Wc i
        = 4 - alpha ^ 2 ∧
      (new.alpha = 1 / 1000 ∧ ∑ i, new.Wm i = 1 ∧ u.reset.alpha = 1 / 1000 ∧
        ∑ i, u.reset.Wm i = 1) ∧
      (∀ (N : Numerics) (v a : ℚ),
        ((adaptParameters N u v a).alpha = 1 / 10000 ∨
          (adaptParameters N u v a).alpha = 5 / 10000 ∨
          (adaptParameters N u v a).alpha = 1 / 1000 ∨
          (adaptParameters N u v a).alpha = 1 / 100 ∨
          (adaptParameters N u v a).alpha = 2 / 100) ∧
        ∑ i, (adaptParameters N u v a).Wm i = 1) := by
  have hk : kappa = -1 := by unfold kappa STATE_DIM; norm_num
  have hd : STATE_DIM + lambdaOf alpha kappa = 3 * alpha ^ 2 := lambdaOf_kappa alpha
  have hne : ∀ b : ℚ, b ≠ 0 → STATE_DIM + lambdaOf b kappa ≠ 0 := by
    intro b hb
    rw [lambdaOf_kappa]
    exact mul_ne_zero (by norm_num) (pow_ne_zero 2 hb)
  obtain ⟨hm, hc⟩ := initializeWeights_sums
    { u with alpha := alpha, lambda := lambdaOf alpha kappa } (hne alpha h)
  have hnew : ∑ i, new.Wm i = 1 :=
    (initializeWeights_sums _ (hne (1 / 1000) (by norm_num))).1
  refine ⟨hk, by unfold lambdaOf kappa STATE_DIM; ring, hd, hne alpha h, hm, ?_, ⟨rfl, hnew, rfl, hnew⟩, ?_⟩
  · rw [hc]
    show 1 + (1 - alpha * alpha + beta) = 4 - alpha ^ 2
    unfold beta
    ring
  · intro N v a
    obtain ⟨ha, hl⟩ := adaptParameters_alpha N u v a
    refine ⟨ha, ?_⟩
    have hw : adaptParameters N u v a = initializeWeights (adaptParameters N u v a) := rfl
    rw [hw]
    apply (initializeWeights_sums _ _).1
    show STATE_DIM + (adaptParameters N u v a).lambda ≠ 0
    rw [hl]
    apply hne
    rcases ha with e | e | e | e | e <;> rw [e] <;> norm_num

/-- Witness for C30: the constructed estimator with `alpha = 0.0001`, the value
`adaptParameters` sets in the stable regime. -/
theorem weights_normalised_witness :
    (1 / 10000 : ℚ) ≠ 0 ∧
      ∑ i, (initializeWeights
        { new with alpha := 1 / 10000, lambda := lambdaOf (1 / 10000) kappa }).Wm i = 1 :=
  ⟨by norm_num, (weights_normalised new (1 / 10000) (by norm_num)).2.2.2.2.1⟩

end EnhancedXAxisUKF

namespace EnhancedXAxisUKF

theorem form_term_bound (a e b tol : ℚ) (h : |e| ≤ tol) :
    |a * e * b| ≤ tol * (a ^ 2 + b ^ 2) / 2 := by
  rw [abs_mul, abs_mul]
  have h1 : 0 ≤ |a| * |b| := mul_nonneg (abs_nonneg a) (abs_nonneg b)
  have h2 : 2 * (|a| * |b|) ≤ a ^ 2 + b ^ 2 := by
    nlinarith [sq_nonneg (|a| - |b|), sq_abs a, sq_abs b]
  have h3 : 0 ≤ tol := le_trans (abs_nonneg e) h
  calc |a| * |e| * |b| = |e| * (|a| * |b|) := by ring
    _ ≤ tol * (|a| * |b|) := mul_le_mul_of_nonneg_right h h1
    _ ≤ tol * (a ^ 2 + b ^ 2) / 2 := by nlinarith

theorem form_bound (E : Mat4) (tol : ℚ) (hE : ∀ i j, |E i j| ≤ tol) (x : Vec4) :
    |Matrix.dotProduct x (E.mulVec x)| ≤ 4 * tol * Matrix.dotProduct x x := by
  have hsum : Matrix.dotProduct x (E.mulVec x) = ∑ i, ∑ j, x i * E i j * x j := by
    simp only [Matrix.dotProduct, Matrix.mulVec, Finset.mul_sum]
    apply Finset.sum_congr rfl
    intro i _
    apply Finset.sum_congr rfl
    intro j _
    ring
  rw [hsum]
  calc |∑ i, ∑ j, x i * E i j * x j| ≤ ∑ i, |∑ j, x i * E i j * x j| :=
        Finset.abs_sum_le_sum_abs _ _
    _ ≤ ∑ i, ∑ j, |x i * E i j * x j| :=
        Finset.sum_le_sum (fun i _ => Finset.abs_sum_le_sum_abs _ _)
    _ ≤ ∑ i, ∑ j, tol * (x i ^ 2 + x j ^ 2) / 2 :=
        Finset.sum_le_sum (fun i _ => Finset.sum_le_sum (fun j _ =>
          form_term_bound (x i) (E i j) (x j) tol (hE i j)))
    _ = 4 * tol * Matrix.dotProduct x x := by
        simp only [Matrix.dotProduct, Fin.sum_univ_four]
        ring

theorem rotated_norm (V : Mat4) (tol : ℚ)
    (h : ∀ i j, |(V * V.transpose - 1) i j| ≤ tol) (x : Vec4) :
    (1 - 4 * tol) * Matrix.dotProduct x x ≤
      ∑ k, V.transpose.mulVec x k * V.transpose.mulVec x k := by
  have h1 := spectral_form V (fun _ => 1) x
  have h2 : (Matrix.diagonal (fun _ => (1 : ℚ)) : Mat4) = 1 := Matrix.diagonal_one
  rw [h2, Matrix.mul_one] at h1
  have h3 : ∑ k, V.transpose.mulVec x k * V.transpose.mulVec x k =
      Matrix.dotProduct x ((V * V.transpose).mulVec x) := by
    rw [h1]
    apply Finset.sum_congr rfl
    intro k _
    ring
  have h4 : V * V.transpose = (V * V.transpose - 1) + 1 := by simp
  rw [h3, h4, Matrix.add_mulVec, Matrix.one_mulVec, Matrix.dotProduct_add]
  have h5 := abs_le.mp (form_bound (V * V.transpose - 1) tol h x)
  linarith [h5.1]

theorem spectral_lower (V : Mat4) (f : Vec4) (c tol : ℚ) (hc : 0 ≤ c)
    (h : ∀ i j, |(V * V.transpose - 1) i j| ≤ tol) (hf : ∀ k, c ≤ f k) (x : Vec4) :
    c * ((1 - 4 * tol) * Matrix.dotProduct x x) ≤
      Matrix.dotProduct x ((V * Matrix.diagonal f * V.transpose).mulVec x) := by
  rw [spectral_form]
  calc c * ((1 - 4 * tol) * Matrix.dotProduct x x)
      ≤ c * ∑ k, V.transpose.mulVec x k * V.transpose.mulVec x k :=
        mul_le_mul_of_nonneg_left (rotated_norm V tol h x) hc
    _ = ∑ k, c * (V.transpose.mulVec x k * V.transpose.mulVec x k) := Finset.mul_sum _ _ _
    _ ≤ ∑ k, f k * (V.transpose.mulVec x k * V.transpose.mulVec x k) :=
        Finset.sum_le_sum (fun k _ => mul_le_mul_of_nonneg_right (hf k) (mul_self_nonneg _))

theorem dotProduct_self_nonneg (x : Vec4) : 0 ≤ Matrix.dotProduct x x := by
  simp only [Matrix.dotProduct]
  exact Finset.sum_nonneg (fun i _ => mul_self_nonneg (x i))

/-- C25 (as amended): for every 4x4 matrix `M` and every eigen solver that is accurate to
`tol` on the symmetrized, diagonal-clamped form of `M` (`tol = 0` for an exact solver),
`ensureCovariancePositive(M)` is symmetric, has all eigenvalues at least
`1e-9 * (1 - 4 tol) - 4 tol` (at least `1e-9 * (1 - 4 tol)` when an eigenvalue was floored),
and has every diagonal entry `i` at least `min_i - tol` with `min = (1, 10, 50, 200)`; the
diagonal lies inside `[min_i, 100 * min_i]` when no eigenvalue had to be floored. -/
theorem ensureCovariancePositive_wellFormed (N : Numerics) (M : Mat4) (tol : ℚ)
    (h : EigenWithin N (clampedCovariance M) tol) :
    (ensureCovariancePositive N M).transpose = ensureCovariancePositive N M ∧
      EigenvaluesAtLeast (1 / 1000000000 * (1 - 4 * tol) - 4 * tol)
        (ensureCovariancePositive N M) ∧
      (minElement (List.ofFn (N.eigenvalues (clampedCovariance M))) < 1 / 1000000000 →
        EigenvaluesAtLeast (1 / 1000000000 * (1 - 4 * tol)) (ensureCovariancePositive N M)) ∧
      (∀ i, diagFloor i - tol ≤ ensureCovariancePositive N M i i) ∧
      (¬ minElement (List.ofFn (N.eigenvalues (clampedCovariance M))) < 1 / 1000000000 →
        DiagonalInRange (ensureCovariancePositive N M)) := by
  obtain ⟨hV, hA⟩ := h
  have htol : 0 ≤ tol := le_trans (abs_nonneg _) (hV 0 0)
  rw [ensureCovariancePositive_eq]
  by_cases hm : minElement (List.ofFn (N.eigenvalues (clampedCovariance M))) < 1 / 1000000000
  · rw [if_pos hm]
    have hfl : ∀ k, (1 / 1000000000 : ℚ) ≤
        (if N.eigenvalues (clampedCovariance M) k < 1 / 1000000000 then 1 / 1000000000
          else N.eigenvalues (clampedCovariance M) k) := by
      intro k
      split_ifs with hk
      · exact le_refl _
      · exact not_lt.mp hk
    have hstrong : EigenvaluesAtLeast (1 / 1000000000 * (1 - 4 * tol))
        (N.eigenvectors (clampedCovariance M)
          * Matrix.diagonal (fun i =>
              if N.eigenvalues (clampedCovariance M) i < 1 / 1000000000 then 1 / 1000000000
              else N.eigenvalues (clampedCovariance M) i)
          * (N.eigenvectors (clampedCovariance M)).transpose) := by
      intro x
      have := spectral_lower (N.eigenvectors (clampedCovariance M)) _ (1 / 1000000000) tol
        (by norm_num) hV hfl x
      linarith
    refine ⟨spectral_symm _ _, ?_, fun _ => hstrong, ?_, fun hc => absurd hm hc⟩
    · intro x
      have h1 := hstrong x
      have h2 := dotProduct_self_nonneg x
      nlinarith
    · intro i
      have h1 := (clampedCovariance_diag M i).1
      have h2 := (abs_le.mp (hA i i)).1
      rw [Matrix.sub_apply, spectral_entry] at h2
      rw [spectral_entry]
      have h3 : ∑ k, N.eigenvectors (clampedCovariance M) i k
            * N.eigenvalues (clampedCovariance M) k * N.eigenvectors (clampedCovariance M) i k ≤
          ∑ k, N.eigenvectors (clampedCovariance M) i k
            * (if N.eigenvalues (clampedCovariance M) k < 1 / 1000000000 then 1 / 1000000000
              else N.eigenvalues (clampedCovariance M) k)
            * N.eigenvectors (clampedCovariance M) i k := by
        apply Finset.sum_le_sum
        intro k _
        have hk : N.eigenvalues (clampedCovariance M) k ≤
            (if N.eigenvalues (clampedCovariance M) k < 1 / 1000000000 then 1 / 1000000000
              else N.eigenvalues (clampedCovariance M) k) := by
          split_ifs with hk
          · exact le_of_lt hk
          · exact le_refl _
        nlinarith [mul_self_nonneg (N.eigenvectors (clampedCovariance M) i k)]
      linarith
  · rw [if_neg hm]
    refine ⟨clampedCovariance_symm M, ?_, fun hc => absurd hc hm, ?_,
      fun _ => clampedCovariance_diag M⟩
    · intro x
      have h3 := spectral_lower (N.eigenvectors (clampedCovariance M))
        (N.eigenvalues (clampedCovariance M)) (1 / 1000000000) tol (by norm_num) hV
        (fun k => le_trans (not_lt.mp hm) (minElement_ofFn_le _ k)) x
      have h4 := (abs_le.mp (form_bound _ tol hA x)).2
      rw [Matrix.sub_mulVec, Matrix.dotProduct_sub] at h4
      linarith
    · intro i
      have := (clampedCovariance_diag M i).1
      linarith

/-- Witness for C25: `skewedCovariance` is symmetrized, clamped at entry 0 and has its
eigenvalue -25 floored, with the solver of `rotationNumerics` exact on the clamped matrix;
`tiltedCovariance` has irrational eigenvalues and the solver of `tiltNumerics` is accurate
to 1e-5 on it. -/
theorem ensureCovariancePositive_wellFormed_witness :
    (EigenWithin rotationNumerics (clampedCovariance skewedCovariance) 0 ∧
        skewedCovariance.transpose ≠ skewedCovariance ∧
        clampedCovariance skewedCovariance 0 0 ≠ skewedCovariance 0 0 ∧
        minElement (List.ofFn (rotationNumerics.eigenvalues (clampedCovariance skewedCovariance)))
          < 1 / 1000000000 ∧
        EigenvaluesAtLeast (1 / 1000000000 * (1 - 4 * 0))
          (ensureCovariancePositive rotationNumerics skewedCovariance)) ∧
      (EigenWithin tiltNumerics (clampedCovariance tiltedCovariance) (1 / 100000) ∧
        EigenvaluesAtLeast (1 / 1000000000 * (1 - 4 * (1 / 100000)) - 4 * (1 / 100000))
          (ensureCovariancePositive tiltNumerics tiltedCovariance) ∧
        DiagonalInRange (ensureCovariancePositive tiltNumerics tiltedCovariance)) :=
  ⟨⟨by unfold EigenWithin; decide!, by decide!, by decide!, by decide!,
      (ensureCovariancePositive_wellFormed rotationNumerics skewedCovariance 0
        (by unfold EigenWithin; decide!)).2.2.1 (by decide!)⟩,
    ⟨by unfold EigenWithin; decide!,
      (ensureCovariancePositive_wellFormed tiltNumerics tiltedCovariance (1 / 100000)
        (by unfold EigenWithin; decide!)).2.1,
      (ensureCovariancePositive_wellFormed tiltNumerics tiltedCovariance (1 / 100000)
        (by unfold EigenWithin; decide!)).2.2.2.2 (by decide!)⟩⟩

/-- C25 (counterexample): `coupledCovariance` is symmetric with its diagonal
(100, 1775/9, 50, 200) inside the configured ranges, and the eigen solver of
`rotationNumerics` is exact on it. Its eigenvalue -25 is floored to 1e-9, and the rebuilt
matrix has `P(0,0) = 116 + 16/25 * 1e-9`, above the upper bound 100 of entry 0. -/
theorem ensureCovariancePositive_diagonal_above_range :
    coupledCovariance.transpose = coupledCovariance ∧ DiagonalInRange coupledCovariance ∧
      clampedCovariance coupledCovariance = coupledCovariance ∧
      EigenWithin rotationNumerics (clampedCovariance coupledCovariance) 0 ∧
      ensureCovariancePositive rotationNumerics coupledCovariance 0 0 =
        116 + 16 / 25 * (1 / 1000000000) ∧
      ¬ DiagonalInRange (ensureCovariancePositive rotationNumerics coupledCovariance) := by
  have h5 : ensureCovariancePositive rotationNumerics coupledCovariance 0 0 =
      116 + 16 / 25 * (1 / 1000000000) := by decide!
  refine ⟨by decide!, by unfold DiagonalInRange; decide!, by decide!,
    by unfold EigenWithin; decide!, h5, ?_⟩
  intro hc
  have h := (hc 0).2
  rw [h5, diagFloor_values.1] at h
  norm_num at h

end EnhancedXAxisUKF

/-! ### Binary32 rounding -/

theorem bitLength_spec (fuel : ℕ) :
    ∀ n : ℕ, n ≤ fuel →
      n < 2 ^ bitLength fuel n ∧ (n ≠ 0 → 2 ^ (bitLength fuel n - 1) ≤ n) := by
  induction fuel with
  | zero =>
    intro n hn
    have h0 : n = 0 := by omega
    subst h0
    simp [bitLength]
  | succ fuel ih =>
    intro n hn
    by_cases h0 : n = 0
    · subst h0
      simp [bitLength]
    · obtain ⟨h1, h2⟩ := ih (n / 2) (by omega)
      simp only [bitLength, h0, if_false, Nat.add_sub_cancel]
      refine ⟨?_, fun _ => ?_⟩
      · rw [pow_succ]
        omega
      · by_cases h3 : n / 2 = 0
        · have hb : bitLength fuel (n / 2) = 0 := by
            rw [h3]
            cases fuel <;> simp [bitLength]
          rw [hb]
          simp
          omega
        · have h4 := h2 h3
          have h5 : bitLength fuel (n / 2) ≠ 0 := by
            intro hb
            rw [hb] at h1
            simp at h1
            exact h3 h1
          have h6 : 2 ^ bitLength fuel (n / 2) = 2 * 2 ^ (bitLength fuel (n / 2) - 1) := by
            rw [← pow_succ']
            congr 1
            omega
          rw [h6]
          omega

theorem abs_eq_natAbs_div (x : ℚ) : |x| = (x.num.natAbs : ℚ) / (x.den : ℚ) := by
  conv_lhs => rw [← Rat.num_div_den x]
  rw [abs_div, Nat.abs_cast, Nat.cast_natAbs, Int.cast_abs]

theorem log2Floor_spec (x : ℚ) (hx : x ≠ 0) :
    (2 : ℚ) ^ log2Floor x ≤ |x| ∧ |x| < (2 : ℚ) ^ (log2Floor x + 1) := by
  have hp0 : x.num.natAbs ≠ 0 := by
    intro h
    exact Rat.num_ne_zero.mpr hx (Int.natAbs_eq_zero.mp h)
  have hq0 : x.den ≠ 0 := x.den_nz
  obtain ⟨hp1, hp2⟩ := bitLength_spec x.num.natAbs x.num.natAbs (le_refl _)
  obtain ⟨hq1, hq2⟩ := bitLength_spec x.den x.den (le_refl _)
  have hp2 := hp2 hp0
  have hq2 := hq2 hq0
  have hbp : bitLength x.num.natAbs x.num.natAbs ≠ 0 := by
    intro hb
    rw [hb] at hp1
    omega
  have hbq : bitLength x.den x.den ≠ 0 := by
    intro hb
    rw [hb] at hq1
    omega
  have hqpos : (0 : ℚ) < (x.den : ℚ) := by exact_mod_cast Nat.pos_of_ne_zero hq0
  -- the four bounds in ℚ
  have P1 : ((x.num.natAbs : ℕ) : ℚ) < (2 : ℚ) ^ (bitLength x.num.natAbs x.num.natAbs : ℤ) := by
    rw [zpow_natCast]
    exact_mod_cast hp1
  have Q1 : ((x.den : ℕ) : ℚ) < (2 : ℚ) ^ (bitLength x.den x.den : ℤ) := by
    rw [zpow_natCast]
    exact_mod_cast hq1
  have P2 : (2 : ℚ) ^ ((bitLength x.num.natAbs x.num.natAbs : ℤ) - 1) ≤
      ((x.num.natAbs : ℕ) : ℚ) := by
    have e : ((bitLength x.num.natAbs x.num.natAbs : ℤ) - 1) =
        ((bitLength x.num.natAbs x.num.natAbs - 1 : ℕ) : ℤ) := by omega
    rw [e, zpow_natCast]
    exact_mod_cast hp2
  have Q2 : (2 : ℚ) ^ ((bitLength x.den x.den : ℤ) - 1) ≤ ((x.den : ℕ) : ℚ) := by
    have e : ((bitLength x.den x.den : ℤ) - 1) = ((bitLength x.den x.den - 1 : ℕ) : ℤ) := by
      omega
    rw [e, zpow_natCast]
    exact_mod_cast hq2
  have h2 : (0 : ℚ) < 2 := by norm_num
  have h2ne : (2 : ℚ) ≠ 0 := by norm_num
  rw [abs_eq_natAbs_div]
  unfold log2Floor
  simp only
  rw [abs_eq_natAbs_div]
  split_ifs with ht
  · refine ⟨ht, ?_⟩
    rw [div_lt_iff₀ hqpos]
    calc ((x.num.natAbs : ℕ) : ℚ) < (2 : ℚ) ^ (bitLength x.num.natAbs x.num.natAbs : ℤ) := P1
      _ = (2 : ℚ) ^ ((bitLength x.num.natAbs x.num.natAbs : ℤ)
            - (bitLength x.den x.den : ℤ) + 1) * (2 : ℚ) ^ ((bitLength x.den x.den : ℤ) - 1) := by
          rw [← zpow_add₀ h2ne]
          congr 1
          ring
      _ ≤ (2 : ℚ) ^ ((bitLength x.num.natAbs x.num.natAbs : ℤ)
            - (bitLength x.den x.den : ℤ) + 1) * ((x.den : ℕ) : ℚ) :=
          mul_le_mul_of_nonneg_left Q2 (le_of_lt (zpow_pos h2 _))
  · refine ⟨?_, ?_⟩
    · rw [le_div_iff₀ hqpos]
      calc (2 : ℚ) ^ ((bitLength x.num.natAbs x.num.natAbs : ℤ)
              - (bitLength x.den x.den : ℤ) - 1) * ((x.den : ℕ) : ℚ)
          ≤ (2 : ℚ) ^ ((bitLength x.num.natAbs x.num.natAbs : ℤ)
              - (bitLength x.den x.den : ℤ) - 1) * (2 : ℚ) ^ (bitLength x.den x.den : ℤ) :=
            mul_le_mul_of_nonneg_left (le_of_lt Q1) (le_of_lt (zpow_pos h2 _))
        _ = (2 : ℚ) ^ ((bitLength x.num.natAbs x.num.natAbs : ℤ) - 1) := by
            rw [← zpow_add₀ h2ne]
            congr 1
            ring
        _ ≤ ((x.num.natAbs : ℕ) : ℚ) := P2
    · have e : (bitLength x.num.natAbs x.num.natAbs : ℤ) - (bitLength x.den x.den : ℤ) - 1 + 1 =
          (bitLength x.num.natAbs x.num.natAbs : ℤ) - (bitLength x.den x.den : ℤ) := by ring
      rw [e]
      exact not_le.mp ht

theorem roundHalfEven_intCast (z : ℤ) : roundHalfEven (z : ℚ) = z := by
  unfold roundHalfEven
  rw [Int.floor_intCast, sub_self, if_pos (by norm_num)]

theorem roundBinary32_zero : roundBinary32 0 = 0 := by
  simp [roundBinary32, roundHalfEven]

/-- A multiple `m * 2^(-j)` of a binary grid with `|m| < 2^24` and `j <= 149` is a binary32
value: rounding leaves it unchanged. -/
theorem roundBinary32_grid (m : ℤ) (j : ℕ) (hm : |m| < 2 ^ 24) (hj : j ≤ 149) :
    roundBinary32 ((m : ℚ) / 2 ^ j) = (m : ℚ) / 2 ^ j := by
  by_cases hm0 : m = 0
  · subst hm0
    simp [roundBinary32_zero]
  have h2 : (0 : ℚ) < 2 := by norm_num
  have h2ne : (2 : ℚ) ≠ 0 := by norm_num
  have hx : (m : ℚ) / 2 ^ j ≠ 0 := by
    apply div_ne_zero
    · exact_mod_cast hm0
    · positivity
  obtain ⟨hL, -⟩ := log2Floor_spec _ hx
  have habs : |(m : ℚ) / 2 ^ j| < (2 : ℚ) ^ ((24 : ℤ) - j) := by
    rw [abs_div, abs_of_pos (by positivity : (0 : ℚ) < 2 ^ j), zpow_sub₀ h2ne, zpow_natCast]
    apply div_lt_div_of_pos_right _ (by positivity)
    have : ((|m| : ℤ) : ℚ) < ((2 ^ 24 : ℤ) : ℚ) := by exact_mod_cast hm
    rw [Int.cast_abs] at this
    rw [zpow_ofNat]
    exact_mod_cast this
  have he0 : log2Floor ((m : ℚ) / 2 ^ j) < (24 : ℤ) - j :=
    (zpow_lt_zpow_iff_right₀ (by norm_num : (1 : ℚ) < 2)).mp (lt_of_le_of_lt hL habs)
  have he : max (log2Floor ((m : ℚ) / 2 ^ j)) (-126) ≤ (23 : ℤ) - j := by
    apply max_le <;> omega
  obtain ⟨K, hK⟩ : ∃ K : ℕ, (K : ℤ) = 23 - j - max (log2Floor ((m : ℚ) / 2 ^ j)) (-126) :=
    ⟨(23 - j - max (log2Floor ((m : ℚ) / 2 ^ j)) (-126)).toNat, Int.toNat_of_nonneg (by omega)⟩
  have hu : binary32Ulp ((m : ℚ) / 2 ^ j) = ((2 : ℚ) ^ K * 2 ^ j)⁻¹ := by
    unfold binary32Ulp
    have e : max (log2Floor ((m : ℚ) / 2 ^ j)) (-126) - 23 = -((K + j : ℕ) : ℤ) := by
      push_cast
      omega
    rw [e, zpow_neg, zpow_natCast, pow_add]
  have hq : (m : ℚ) / 2 ^ j / binary32Ulp ((m : ℚ) / 2 ^ j) = ((m * 2 ^ K : ℤ) : ℚ) := by
    rw [hu]
    push_cast
    field_simp
    ring
  unfold roundBinary32
  rw [hq, roundHalfEven_intCast, hu]
  push_cast
  field_simp
  ring

namespace PredictionStats

/-! ### The rolling window and the running totals -/

theorem addFilterError_float (s : PredictionStats) (e : ℚ) :
    ((s.addFilterError e).filterErrors, (s.addFilterError e).totalFilterError) =
      floatStep (s.filterErrors, s.totalFilterError) e := by
  simp only [addFilterError, floatStep]
  split_ifs <;> rfl

theorem addPredictionError_float (s : PredictionStats) (e : ℚ) :
    ((s.addPredictionError e).predictionErrors, (s.addPredictionError e).totalPredictionError) =
      floatStep (s.predictionErrors, s.totalPredictionError) e := by
  simp only [addPredictionError, floatStep]
  split_ifs <;> rfl

theorem addFilterErrors_float (errors : List ℚ) :
    ∀ s : PredictionStats,
      ((addFilterErrors s errors).filterErrors, (addFilterErrors s errors).totalFilterError) =
        errors.foldl floatStep (s.filterErrors, s.totalFilterError) := by
  induction errors with
  | nil => intro s; rfl
  | cons e rest ih =>
    intro s
    simp only [addFilterErrors, List.foldl_cons] at ih ⊢
    rw [ih (s.addFilterError e), addFilterError_float]

theorem addPredictionErrors_float (errors : List ℚ) :
    ∀ s : PredictionStats,
      ((addPredictionErrors s errors).predictionErrors,
          (addPredictionErrors s errors).totalPredictionError) =
        errors.foldl floatStep (s.predictionErrors, s.totalPredictionError) := by
  induction errors with
  | nil => intro s; rfl
  | cons e rest ih =>
    intro s
    simp only [addPredictionErrors, List.foldl_cons] at ih ⊢
    rw [ih (s.addPredictionError e), addPredictionError_float]

theorem foldl_floatStep_fst (errors : List ℚ) :
    ∀ w v : List ℚ × ℚ, w.1 = v.1 →
      (errors.foldl floatStep w).1 = (errors.foldl rollingStep v).1 := by
  induction errors with
  | nil => intro w v h; exact h
  | cons e rest ih =>
    intro w v h
    simp only [List.foldl_cons]
    apply ih
    simp only [floatStep, rollingStep, h]
    split_ifs <;> rfl

theorem float_window (errors : List ℚ) :
    (errors.foldl floatStep ([], 0)).1 = errors.drop (errors.length - 100) := by
  rw [foldl_floatStep_fst errors ([], 0) ([], 0) rfl, rolling_window]

theorem addFilterErrors_window (errors : List ℚ) :
    (addFilterErrors {} errors).filterErrors = errors.drop (errors.length - 100) := by
  have h := congrArg Prod.fst (addFilterErrors_float errors {})
  exact h.trans (float_window errors)

theorem addPredictionErrors_window (errors : List ℚ) :
    (addPredictionErrors {} errors).predictionErrors = errors.drop (errors.length - 100) := by
  have h := congrArg Prod.fst (addPredictionErrors_float errors {})
  exact h.trans (float_window errors)

theorem onGrid_sum (j : ℕ) (l : List ℚ) (h : ∀ e ∈ l, OnGrid j e) :
    ∃ N : ℕ, N ≤ l.length * 2 ^ 17 ∧ l.sum = (N : ℚ) / 2 ^ j := by
  induction l with
  | nil => exact ⟨0, by simp, by simp⟩
  | cons a t ih =>
    obtain ⟨N, hN, hs⟩ := ih (fun e he => h e (List.mem_cons_of_mem _ he))
    obtain ⟨n, hn, ha⟩ := h a (List.mem_cons_self _ _)
    refine ⟨n + N, ?_, ?_⟩
    · simp only [List.length_cons]
      nlinarith
    · rw [List.sum_cons, hs, ha]
      push_cast
      ring

theorem roundBinary32_sum (j : ℕ) (hj : j ≤ 149) (l : List ℚ) (h : ∀ e ∈ l, OnGrid j e)
    (hl : l.length ≤ 101) : roundBinary32 l.sum = l.sum := by
  obtain ⟨N, hN, hs⟩ := onGrid_sum j l h
  rw [hs]
  have h1 : N ≤ 101 * 2 ^ 17 := le_trans hN (Nat.mul_le_mul_right _ hl)
  have h2 := roundBinary32_grid (N : ℤ) j (by rw [abs_of_nonneg (by positivity)]; omega) hj
  simpa using h2

theorem floatStep_exact (j : ℕ) (hj : j ≤ 149) (w : List ℚ) (e : ℚ)
    (hw : ∀ x ∈ w, OnGrid j x) (he : OnGrid j e) (hl : w.length ≤ 100) :
    floatStep (w, w.sum) e = rollingStep (w, w.sum) e := by
  have hall : ∀ x ∈ w ++ [e], OnGrid j x := by
    intro x hx
    rcases List.mem_append.mp hx with h | h
    · exact hw x h
    · rw [List.mem_singleton.mp h]; exact he
  have hsum : w.sum + e = (w ++ [e]).sum := by simp
  have h1 : roundBinary32 (w.sum + e) = w.sum + e := by
    rw [hsum]
    exact roundBinary32_sum j hj _ hall (by simp; omega)
  have hne : w ++ [e] ≠ [] := by simp
  have h2 : w.sum + e - (w ++ [e]).headD 0 = (w ++ [e]).tail.sum := by
    have := sum_eq_head_add_tail (w ++ [e]) hne
    rw [hsum]
    linarith
  have h3 : roundBinary32 (w.sum + e - (w ++ [e]).headD 0) =
      w.sum + e - (w ++ [e]).headD 0 := by
    rw [h2]
    apply roundBinary32_sum j hj _ (fun x hx => hall x (List.mem_of_mem_tail hx))
    simp
    omega
  simp only [floatStep, rollingStep, h1, h3]

theorem foldl_floatStep_exact (j : ℕ) (hj : j ≤ 149) (errors : List ℚ)
    (h : ∀ e ∈ errors, OnGrid j e) :
    errors.foldl floatStep ([], 0) = errors.foldl rollingStep ([], 0) := by
  induction errors using List.reverseRecOn with
  | nil => rfl
  | append_singleton errs e ih =>
    have hpre : ∀ x ∈ errs, OnGrid j x := fun x hx => h x (List.mem_append_left _ hx)
    rw [List.foldl_append, List.foldl_append, ih hpre, rolling_window]
    simp only [List.foldl_cons, List.foldl_nil]
    apply floatStep_exact j hj
    · intro x hx
      exact hpre x (List.mem_of_mem_drop hx)
    · exact h e (List.mem_append_right _ (List.mem_singleton_self e))
    · rw [List.length_drop]
      omega

theorem float_total_exact (j : ℕ) (hj : j ≤ 149) (errors : List ℚ)
    (h : ∀ e ∈ errors, OnGrid j e) :
    (errors.foldl floatStep ([], 0)).2 = (errors.drop (errors.length - 100)).sum := by
  rw [foldl_floatStep_exact j hj errors h, rolling_window]

/-- C10 (as amended): rolling mean. After any sequence of `k` calls of `addFilterError`
(resp. `addPredictionError`) on a fresh or reset statistics object, the error window holds
the last `min(k, 100)` errors in arrival order and `getAvgFilterError` (resp.
`getAvgPredictionError`) is the `float` quotient of the running total by the window size,
or 0 when `k = 0`. The running total is accumulated in `float`: it equals the exact sum of
the errors in the window, and the average is their arithmetic mean rounded to `float`,
when every error is a multiple of a binary grid `2^(-j)` not above `2^(17 - j)`, so that no
addition or subtraction rounds. -/
theorem rolling_mean (s0 : PredictionStats) (errors : List ℚ) :
    s0.reset = ({} : PredictionStats) ∧
    ((addFilterErrors s0.reset errors).filterErrors =
          errors.drop (errors.length - min errors.length 100) ∧
        (addFilterErrors s0.reset errors).filterErrors.length = min errors.length 100 ∧
        (addFilterErrors s0.reset errors).getAvgFilterError =
          (if errors = [] then 0
          else roundBinary32 ((addFilterErrors s0.reset errors).totalFilterError /
            (addFilterErrors s0.reset errors).filterErrors.length)) ∧
        (∀ j : ℕ, j ≤ 149 → (∀ e ∈ errors, OnGrid j e) →
          (addFilterErrors s0.reset errors).totalFilterError =
              (addFilterErrors s0.reset errors).filterErrors.sum ∧
            (addFilterErrors s0.reset errors).getAvgFilterError =
              if errors = [] then 0
              else roundBinary32 ((addFilterErrors s0.reset errors).filterErrors.sum /
                (addFilterErrors s0.reset errors).filterErrors.length))) ∧
      ((addPredictionErrors s0.reset errors).predictionErrors =
          errors.drop (errors.length - min errors.length 100) ∧
        (addPredictionErrors s0.reset errors).predictionErrors.length = min errors.length 100 ∧
        (addPredictionErrors s0.reset errors).getAvgPredictionError =
          (if errors = [] then 0
          else roundBinary32 ((addPredictionErrors s0.reset errors).totalPredictionError /
            (addPredictionErrors s0.reset errors).predictionErrors.length)) ∧
        (∀ j : ℕ, j ≤ 149 → (∀ e ∈ errors, OnGrid j e) →
          (addPredictionErrors s0.reset errors).totalPredictionError =
              (addPredictionErrors s0.reset errors).predictionErrors.sum ∧
            (addPredictionErrors s0.reset errors).getAvgPredictionError =
              if errors = [] then 0
              else roundBinary32 ((addPredictionErrors s0.reset errors).predictionErrors.sum /
                (addPredictionErrors s0.reset errors).predictionErrors.length))) := by
  obtain ⟨hw, hl, he⟩ := window_facts errors
  have hf1 : (addFilterErrors s0.reset errors).filterErrors =
      errors.drop (errors.length - 100) := addFilterErrors_window errors
  have hp1 : (addPredictionErrors s0.reset errors).predictionErrors =
      errors.drop (errors.length - 100) := addPredictionErrors_window errors
  have hfa : (addFilterErrors s0.reset errors).getAvgFilterError =
      (if errors = [] then 0
      else roundBinary32 ((addFilterErrors s0.reset errors).totalFilterError /
        (addFilterErrors s0.reset errors).filterErrors.length)) := by
    unfold getAvgFilterError
    by_cases h0 : errors = []
    · rw [if_pos (by rw [hf1]; exact he.mpr h0), if_pos h0]
    · rw [if_neg (by rw [hf1]; exact fun h => h0 (he.mp h)), if_neg h0]
  have hpa : (addPredictionErrors s0.reset errors).getAvgPredictionError =
      (if errors = [] then 0
      else roundBinary32 ((addPredictionErrors s0.reset errors).totalPredictionError /
        (addPredictionErrors s0.reset errors).predictionErrors.length)) := by
    unfold getAvgPredictionError
    by_cases h0 : errors = []
    · rw [if_pos (by rw [hp1]; exact he.mpr h0), if_pos h0]
    · rw [if_neg (by rw [hp1]; exact fun h => h0 (he.mp h)), if_neg h0]
  refine ⟨rfl, ⟨by rw [hf1, hw], by rw [hf1, hl], hfa, ?_⟩,
    ⟨by rw [hp1, hw], by rw [hp1, hl], hpa, ?_⟩⟩
  · intro j hj hg
    have ht : (addFilterErrors s0.reset errors).totalFilterError =
        (addFilterErrors s0.reset errors).filterErrors.sum := by
      have h := congrArg Prod.snd (addFilterErrors_float errors s0.reset)
      rw [hf1]
      exact h.trans (float_total_exact j hj errors hg)
    exact ⟨ht, by rw [hfa, ht]⟩
  · intro j hj hg
    have ht : (addPredictionErrors s0.reset errors).totalPredictionError =
        (addPredictionErrors s0.reset errors).predictionErrors.sum := by
      have h := congrArg Prod.snd (addPredictionErrors_float errors s0.reset)
      rw [hp1]
      exact h.trans (float_total_exact j hj errors hg)
    exact ⟨ht, by rw [hpa, ht]⟩

/-- Witness for C10: the errors 3, 7.25 and 5, multiples of 1/4, add up to 15.25 without
rounding. -/
theorem rolling_mean_witness :
    (∀ e ∈ ([3, 29 / 4, 5] : List ℚ), OnGrid 2 e) ∧
      (addFilterErrors ({} : PredictionStats).reset [3, 29 / 4, 5]).totalFilterError =
        (addFilterErrors ({} : PredictionStats).reset [3, 29 / 4, 5]).filterErrors.sum ∧
      (addFilterErrors ({} : PredictionStats).reset [3, 29 / 4, 5]).filterErrors.sum = 61 / 4 :=
  have hg : ∀ e ∈ ([3, 29 / 4, 5] : List ℚ), OnGrid 2 e := by
    intro e he
    simp only [List.mem_cons, List.mem_singleton, List.not_mem_nil, or_false] at he
    rcases he with h | h | h
    · exact ⟨12, by norm_num, by rw [h]; norm_num⟩
    · exact ⟨29, by norm_num, by rw [h]; norm_num⟩
    · exact ⟨20, by norm_num, by rw [h]; norm_num⟩
  ⟨hg, ((rolling_mean {} [3, 29 / 4, 5]).2.1.2.2.2 2 (by norm_num) hg).1, by decide!⟩

/-- C10 (counterexample): after the error 1500.3f followed by a hundred errors 0.001f the
window holds the hundred small errors, whose exact sum is 100 * 0.001f (about 0.1), while
the running total is 25/256 = 0.09765625: each `+= 0.001f` on a total near 1500 added
8 * 2^(-13) only. `getAvgFilterError` returns 2^(-10) where the mean is 0.001f. -/
theorem total_drifts_from_window_sum :
    largeThenTiny = 6145229 / 4096 :: List.replicate 100 (8589935 / 8589934592) ∧
      (addFilterErrors ({} : PredictionStats) largeThenTiny).filterErrors =
        List.replicate 100 (8589935 / 8589934592) ∧
      (addFilterErrors ({} : PredictionStats) largeThenTiny).filterErrors.sum =
        214748375 / 2147483648 ∧
      (addFilterErrors ({} : PredictionStats) largeThenTiny).totalFilterError = 25 / 256 ∧
      (addFilterErrors ({} : PredictionStats) largeThenTiny).totalFilterError ≠
        (addFilterErrors ({} : PredictionStats) largeThenTiny).filterErrors.sum ∧
      (addFilterErrors ({} : PredictionStats) largeThenTiny).getAvgFilterError = 1 / 1024 ∧
      (addFilterErrors ({} : PredictionStats) largeThenTiny).filterErrors.sum / 100 =
        8589935 / 8589934592 ∧
      (addPredictionErrors ({} : PredictionStats) largeThenTiny).totalPredictionError =
        25 / 256 := by
  decide!

/-- C11 (as amended): running maximum. After any sequence of `addFilterError` (resp.
`addPredictionError`) calls on a fresh or reset statistics object, `maxFilterError` (resp.
`maxPredictionError`) is the maximum of 0 and of every error added since then, evicted or
not: it bounds every error of the rolling window from above, and it is the maximum of the
window when at most 100 non-negative errors have been added. -/
theorem running_max (s0 : PredictionStats) (errors : List ℚ) :
    ((addFilterErrors s0.reset errors).maxFilterError = errors.foldl max 0 ∧
        (∀ e ∈ (addFilterErrors s0.reset errors).filterErrors,
          e ≤ (addFilterErrors s0.reset errors).maxFilterError) ∧
        (errors.length ≤ 100 → errors ≠ [] → (∀ e ∈ errors, 0 ≤ e) →
          (addFilterErrors s0.reset errors).maxFilterError ∈
            (addFilterErrors s0.reset errors).filterErrors)) ∧
      ((addPredictionErrors s0.reset errors).maxPredictionError = errors.foldl max 0 ∧
        (∀ e ∈ (addPredictionErrors s0.reset errors).predictionErrors,
          e ≤ (addPredictionErrors s0.reset errors).maxPredictionError) ∧
        (errors.length ≤ 100 → errors ≠ [] → (∀ e ∈ errors, 0 ≤ e) →
          (addPredictionErrors s0.reset errors).maxPredictionError ∈
            (addPredictionErrors s0.reset errors).predictionErrors)) := by
  have hf1 : (addFilterErrors s0.reset errors).filterErrors =
      errors.drop (errors.length - 100) := addFilterErrors_window errors
  have hp1 : (addPredictionErrors s0.reset errors).predictionErrors =
      errors.drop (errors.length - 100) := addPredictionErrors_window errors
  have hmf : (addFilterErrors s0.reset errors).maxFilterError = errors.foldl max 0 :=
    addFilterErrors_max errors s0.reset
  have hmp : (addPredictionErrors s0.reset errors).maxPredictionError = errors.foldl max 0 :=
    addPredictionErrors_max errors s0.reset
  have hmem : errors.length ≤ 100 → errors ≠ [] → (∀ e ∈ errors, 0 ≤ e) →
      errors.foldl max 0 ∈ errors.drop (errors.length - 100) := by
    intro hlen hne hnn
    have h0 : errors.length - 100 = 0 := by omega
    rw [h0, List.drop_zero]
    rcases foldl_max_mem errors 0 with h | h
    · obtain ⟨x, hx⟩ := List.exists_mem_of_ne_nil errors hne
      have h1 := (le_foldl_max errors 0).2 x hx
      have h2 := hnn x hx
      have h3 : x = 0 := by rw [h] at h1; linarith
      rw [h, ← h3]; exact hx
    · exact h
  constructor
  · rw [hmf, hf1]
    exact ⟨rfl, fun e he => (le_foldl_max errors 0).2 e (List.mem_of_mem_drop he), hmem⟩
  · rw [hmp, hp1]
    exact ⟨rfl, fun e he => (le_foldl_max errors 0).2 e (List.mem_of_mem_drop he), hmem⟩

/-- Witness for C11: three non-negative errors. -/
theorem running_max_witness :
    ([3, 7, 5] : List ℚ).length ≤ 100 ∧ ([3, 7, 5] : List ℚ) ≠ [] ∧
      (∀ e ∈ ([3, 7, 5] : List ℚ), 0 ≤ e) ∧
      (addFilterErrors ({} : PredictionStats).reset [3, 7, 5]).maxFilterError ∈
        (addFilterErrors ({} : PredictionStats).reset [3, 7, 5]).filterErrors :=
  have h1 : ([3, 7, 5] : List ℚ).length ≤ 100 := by decide
  have h2 : ([3, 7, 5] : List ℚ) ≠ [] := by simp
  have h3 : ∀ e ∈ ([3, 7, 5] : List ℚ), 0 ≤ e := by
    intro e he
    simp at he
    rcases he with h | h | h <;> rw [h] <;> norm_num
  ⟨h1, h2, h3, (running_max {} [3, 7, 5]).1.2.2 h1 h2 h3⟩

/-- C11 (counterexample): after the error 50 followed by a hundred errors 1 the rolling
window holds the hundred 1s, whose maximum is 1, while `maxFilterError` is still 50. -/
theorem max_outlives_window :
    (addFilterErrors ({} : PredictionStats) spikeThenCalm).filterErrors = List.replicate 100 1 ∧
      (addFilterErrors ({} : PredictionStats) spikeThenCalm).maxFilterError = 50 ∧
      (∀ e ∈ (addFilterErrors ({} : PredictionStats) spikeThenCalm).filterErrors, e = 1) ∧
      (addPredictionErrors ({} : PredictionStats) spikeThenCalm).predictionErrors =
        List.replicate 100 1 ∧
      (addPredictionErrors ({} : PredictionStats) spikeThenCalm).maxPredictionError = 50 := by
  have hf1 : (addFilterErrors ({} : PredictionStats) spikeThenCalm).filterErrors =
      spikeThenCalm.drop (spikeThenCalm.length - 100) := addFilterErrors_window spikeThenCalm
  have hp1 : (addPredictionErrors ({} : PredictionStats) spikeThenCalm).predictionErrors =
      spikeThenCalm.drop (spikeThenCalm.length - 100) :=
    addPredictionErrors_window spikeThenCalm
  have hw : spikeThenCalm.drop (spikeThenCalm.length - 100) = List.replicate 100 1 := by
    simp [spikeThenCalm]
  have hm : spikeThenCalm.foldl max 0 = 50 := by
    simp only [spikeThenCalm, List.foldl_cons]
    rw [show max (0 : ℚ) 50 = 50 by norm_num]
    exact foldl_max_replicate 100 50 1 (by norm_num)
  rw [hw] at hf1 hp1
  refine ⟨hf1, ?_, ?_, hp1, ?_⟩
  · rw [addFilterErrors_max]; exact hm
  · rw [hf1]; intro e he; exact List.eq_of_mem_replicate he
  · rw [addPredictionErrors_max]; exact hm

end PredictionStats

namespace EnhancedXAxisUKF

/-! ### Where the covariance invariant comes from -/

theorem posSemidef_diag_nonneg {M : Mat4} (h : PosSemidef M) (i : Fin 4) : 0 ≤ M i i := by
  have h0 := h (Pi.single i 1)
  fin_cases i <;>
    simpa [Matrix.dotProduct, Matrix.mulVec, Fin.sum_univ_four, Pi.single_apply] using h0

theorem new_posSemidef : PosSemidef new.P ∧ PosSemidef new.Q := by
  constructor
  · show PosSemidef (Matrix.diagonal ![25, 100, 400, 1600])
    apply diagonal_posSemidef
    intro i
    fin_cases i <;> simp
  · show PosSemidef (Matrix.diagonal ![1 / 2, 10, 50, 200])
    apply diagonal_posSemidef
    intro i
    fin_cases i <;> simp

theorem handleException_posSemidef (u : EnhancedXAxisUKF) : PosSemidef (handleException u).P := by
  show PosSemidef (Matrix.diagonal ![50, 200, 800, 3200])
  apply diagonal_posSemidef
  intro i
  fin_cases i <;> simp

theorem handleLargeJump_posSemidef (u : EnhancedXAxisUKF) (m v : ℚ) (h : PosSemidef u.P)
    (hc : ∀ i, u.P i i ≤ jumpCap i) : PosSemidef (handleLargeJump u m v).P := by
  have hP : (handleLargeJump u m v).P =
      u.P + Matrix.diagonal (fun i => min (jumpCap i) (u.P i i * 2) - u.P i i) := by
    ext i j
    rw [handleLargeJump_P, Matrix.add_apply]
    by_cases hij : i = j
    · subst hij
      simp
    · simp [hij]
  have hD : PosSemidef (Matrix.diagonal (fun i => min (jumpCap i) (u.P i i * 2) - u.P i i)) := by
    apply diagonal_posSemidef
    intro i
    have h0 := posSemidef_diag_nonneg h i
    have := le_min (hc i) (by linarith : u.P i i ≤ u.P i i * 2)
    linarith
  intro x
  rw [hP, Matrix.add_mulVec, Matrix.dotProduct_add]
  have h1 := h x
  have h2 := hD x
  linarith

theorem ensureCovariancePositive_posSemidef (N : Numerics) (M : Mat4) (tol : ℚ)
    (h : EigenWithin N (clampedCovariance M) tol)
    (ht : 4 * tol ≤ 1 / 1000000000 * (1 - 4 * tol)) :
    PosSemidef (ensureCovariancePositive N M) := by
  obtain ⟨hV, hA⟩ := h
  intro x
  have hx := dotProduct_self_nonneg x
  rw [ensureCovariancePositive_eq]
  by_cases hm : minElement (List.ofFn (N.eigenvalues (clampedCovariance M))) < 1 / 1000000000
  · rw [if_pos hm]
    have h1 := spectral_lower (N.eigenvectors (clampedCovariance M))
      (fun i => if N.eigenvalues (clampedCovariance M) i < 1 / 1000000000 then 1 / 1000000000
        else N.eigenvalues (clampedCovariance M) i) (1 / 1000000000) tol (by norm_num) hV
      (by
        intro k
        show (1 / 1000000000 : ℚ) ≤ if _ then _ else _
        split_ifs with hk
        · exact le_refl _
        · exact not_lt.mp hk) x
    have htol : 0 ≤ tol := le_trans (abs_nonneg _) (hV 0 0)
    nlinarith
  · rw [if_neg hm]
    have h3 := spectral_lower (N.eigenvectors (clampedCovariance M))
      (N.eigenvalues (clampedCovariance M)) (1 / 1000000000) tol (by norm_num) hV
      (fun k => le_trans (not_lt.mp hm) (minElement_ofFn_le _ k)) x
    have h4 := (abs_le.mp (form_bound _ tol hA x)).2
    rw [Matrix.sub_mulVec, Matrix.dotProduct_sub] at h4
    nlinarith

theorem adaptParameters_Q_posSemidef (N : Numerics) (u : EnhancedXAxisUKF) (v a : ℚ)
    (h : ∀ i j, i ≠ j → u.Q i j = 0) :
    PosSemidef (adaptParameters N u v a).Q ∧
      ∀ i j, i ≠ j → (adaptParameters N u v a).Q i j = 0 := by
  have hoff : ∀ i j, i ≠ j → (adaptParameters N u v a).Q i j = 0 := by
    intro i j hij
    simp only [adaptParameters, initializeWeights, setDiag, Matrix.of_apply, hij, if_false]
    split_ifs <;> simp [setDiag, hij, h i j hij]
  have hdiag : ∀ i, 0 ≤ (adaptParameters N u v a).Q i i := by
    intro i
    simp only [adaptParameters, initializeWeights, setDiag, Matrix.of_apply, if_true]
    fin_cases i
    · exact le_trans (by norm_num) (le_max_left _ _)
    · exact le_trans (by norm_num) (le_max_left _ _)
    · exact le_trans (by norm_num) (le_max_left _ _)
    · exact le_trans (by norm_num) (le_max_left _ _)
  refine ⟨?_, hoff⟩
  have hQ : (adaptParameters N u v a).Q =
      Matrix.diagonal (fun i => (adaptParameters N u v a).Q i i) := by
    ext i j
    by_cases hij : i = j
    · subst hij
      simp
    · rw [hoff i j hij]
      simp [hij]
  rw [hQ]
  exact diagonal_posSemidef _ hdiag

end EnhancedXAxisUKF

end Nystagmus
